import Mathlib

/-!
# Verification of the plan-one-day interval-placement engine

Shallow embedding of the core scheduling logic of the repository:
`src/js/core/Timeline.js` (the `Timeline` collection and the `Block` entity)
and `src/js/shuffle/ShuffleManager.js` (overlap predicate, placement search,
and the nine shuffle strategies).

JavaScript numbers are modelled as rationals (all arithmetic in the engine is
exact on quarter-hour rationals), the `%` remainder as `jsMod`, `Map` as an
association list in insertion order, `Math.random()` as an oracle stream of
rationals, and exceptions (`throw new TypeError`) as an explicit `threw`
result, with the state at the throw point (all throws in the embedded code
happen before any collection mutation).
-/

namespace PlanOneDay

/-- JavaScript `x % y`: remainder truncated towards zero (sign of dividend). -/
def jsMod (x y : ℚ) : ℚ :=
  if 0 ≤ x / y then x - y * ⌊x / y⌋ else x - y * ⌈x / y⌉

/-- JS `Math.min` on numbers. -/
def jsMin (a b : ℚ) : ℚ := min a b

/-! ## Block entity (`Block` class, src/js/core/Timeline.js lines 1495-2351) -/

/-- A block held by the collection.  The four tag fields model the dynamic
`priority`/`energy`/`category`/`theme` properties the shuffle strategies
attach to block objects (`none` = the JS property is `undefined`).
DOM/drag fields of the JS class are presentation-only and omitted. -/
structure Block where
  id : String
  title : String
  start : ℚ
  duration : ℚ
  color : String
  isLocked : Bool
  priority : Option String
  energy : Option String
  category : Option String
  theme : Option String
deriving Repr, DecidableEq

/-- The data object handed to the `Block` constructor (and produced by
`Block.serialize` / `Block.duplicate`).  `isLocked = none` models an absent
(`undefined`) field. -/
structure BlockData where
  id : String
  title : String
  start : ℚ
  duration : ℚ
  color : String
  isLocked : Option Bool
deriving Repr, DecidableEq

/-- The `Block` constructor: input validation (lines 1508-1546).  `none`
models a thrown `TypeError`.  Truthiness of a JS string is non-emptiness;
`data.isLocked || false` is `Option.getD false`. -/
def Block.make (data : BlockData) : Option Block :=
  if data.id = "" then none
  else if data.title = "" then none
  else if data.start < 0 then none
  else if data.duration ≤ 0 then none
  else if data.color = "" then none
  else some
    { id := data.id
      title := data.title
      start := data.start
      duration := data.duration
      color := data.color
      isLocked := data.isLocked.getD false
      priority := none, energy := none, category := none, theme := none }

/-- `Block.serialize` (lines 2342-2351). -/
def Block.serializeData (b : Block) : BlockData :=
  { id := b.id, title := b.title, start := b.start, duration := b.duration
    color := b.color, isLocked := some b.isLocked }

/-- `Block.duplicate(newId)` (lines 2270-2278): note the result omits
`isLocked`. -/
def Block.duplicateData (b : Block) (newId : String) : BlockData :=
  { id := newId, title := b.title, start := jsMod (b.start + b.duration) 24
    duration := b.duration, color := b.color, isLocked := none }

/-- Data passed to `Timeline.updateBlock`; `none` fields model `undefined`. -/
structure UpdateData where
  title : Option String
  start : Option ℚ
  duration : Option ℚ
  color : Option String
deriving Repr, DecidableEq

/-- An `UpdateData` with every field absent. -/
def UpdateData.empty : UpdateData :=
  { title := none, start := none, duration := none, color := none }

/-- `Block.update(data)` (lines 2255-2263): applies the defined fields in
place (the `use24HourFormat` display field is presentation-only and
omitted). -/
def Block.update (b : Block) (data : UpdateData) : Block :=
  { b with
    title := data.title.getD b.title
    start := data.start.getD b.start
    duration := data.duration.getD b.duration
    color := data.color.getD b.color }

/-! ## Color collaborator

Modelled from the spec: the `hexToHsl` conversion lives in
`src/js/utils/ColorUtils.js`, which is not part of the provided sources (only
a variant in `ValidationUtils.js` is).  The spec treats colors as opaque HSL
strings produced from hex input; the only fact the core logic relies on is
that the result is a (non-empty) `hsl(...)` string. -/
def hexToHsl (hex : String) : String := "hsl(" ++ hex ++ ")"

/-! ## Timeline collection state -/

/-- The `Timeline` aggregate (constructor, lines 833-843).  `blocks` is the
`Map` of blocks in insertion order; `nextId` drives `generateUniqueId`
(modelling the `Date.now()+random` suffix as a fresh counter). -/
structure Timeline where
  blocks : List Block
  isWrappingEnabled : Bool
  allowOverlap : Bool
  use24HourFormat : Bool
  nextId : ℕ
deriving Repr, DecidableEq

/-- The freshly constructed timeline: empty map, wrap off, overlap off,
24-hour format. -/
def emptyTimeline : Timeline :=
  { blocks := [], isWrappingEnabled := false, allowOverlap := false
    use24HourFormat := true, nextId := 0 }

/-- `Map.get`: first (unique) entry with the id. -/
def mapGet (bs : List Block) (id : String) : Option Block :=
  bs.find? (fun b => b.id = id)

/-- `Map.set`: replace in place if the key exists, else append. -/
def mapSet (bs : List Block) (b : Block) : List Block :=
  if bs.any (fun x => x.id = b.id) then
    bs.map (fun x => if x.id = b.id then b else x)
  else bs ++ [b]

/-- `Timeline.generateUniqueId` (lines 806-808), with the timestamp/random
suffix modelled by the fresh counter. -/
def Timeline.generateUniqueId (st : Timeline) : String :=
  "block_" ++ toString st.nextId

/-- `Timeline.blocksOverlap(a, b)` (lines 391-427): the overlap predicate for
single-block edits.  The wrap branch converts to minutes mod 1440. -/
def blocksOverlap (wrap : Bool) (a b : Block) : Bool :=
  if !wrap then
    decide (a.start < b.start + b.duration ∧ a.start + a.duration > b.start)
  else
    let aStart := jsMod (a.start * 60) 1440
    let aEnd := jsMod (aStart + a.duration * 60) 1440
    let bStart := jsMod (b.start * 60) 1440
    let bEnd := jsMod (bStart + b.duration * 60) 1440
    if 24 ≤ a.duration ∨ 24 ≤ b.duration then true
    else
      let aWraps := aEnd ≤ aStart
      let bWraps := bEnd ≤ bStart
      if ¬aWraps ∧ ¬bWraps then decide (aStart < bEnd ∧ aEnd > bStart)
      else if aWraps ∧ bWraps then true
      else if aWraps then decide (bStart ≤ aEnd ∨ bEnd > aStart)
      else decide (aStart ≤ bEnd ∨ aEnd > bStart)

/-- `Timeline.hasConflict(block, excludeId)` (lines 368-383). -/
def Timeline.hasConflict (st : Timeline) (block : Block)
    (excludeId : Option String) : Bool :=
  if st.allowOverlap || st.blocks.isEmpty then false
  else
    st.blocks.any fun eb =>
      if excludeId = some eb.id ∨ eb.id = block.id then false
      else blocksOverlap st.isWrappingEnabled block eb

/-- Input to `Timeline.addBlock` (the block data without an id). -/
structure AddData where
  title : String
  start : ℚ
  duration : ℚ
  color : String
deriving Repr, DecidableEq

inductive AddResult where
  | ok (id : String)
  | rejected
  | threw
deriving Repr, DecidableEq

/-- `Timeline.addBlock(blockData)` (lines 213-244): generate an id, build the
block (converting the hex color), reject on conflict, else insert.
`rejected` is the `null` return; `threw` a constructor `TypeError`. -/
def Timeline.addBlock (st : Timeline) (blockData : AddData) :
    Timeline × AddResult :=
  let id := st.generateUniqueId
  let st1 := { st with nextId := st.nextId + 1 }
  let completeData : BlockData :=
    { id := id, title := blockData.title, start := blockData.start
      duration := blockData.duration, color := hexToHsl blockData.color
      isLocked := none }
  match Block.make completeData with
  | none => (st1, .threw)
  | some block =>
    if !st1.allowOverlap && st1.hasConflict block none then
      (st1, .rejected)
    else
      ({ st1 with blocks := mapSet st1.blocks block }, .ok id)

inductive UpdResult where
  | tru
  | fls
  | threw
deriving Repr, DecidableEq

/-- `data.start !== undefined && data.start !== block.start` (line 263). -/
def startChangedB (data : UpdateData) (block : Block) : Bool :=
  match data.start with
  | some s => decide (s ≠ block.start)
  | none => false

/-- `data.duration !== undefined && data.duration !== block.duration`
(line 264). -/
def durationChangedB (data : UpdateData) (block : Block) : Bool :=
  match data.duration with
  | some d => decide (d ≠ block.duration)
  | none => false

/-- The hex→HSL conversion of the update data's color field (lines
285-287). -/
def updColorConv (data : UpdateData) : UpdateData :=
  match data.color with
  | some c =>
    if c ≠ "" ∧ c.startsWith "#" then { data with color := some (hexToHsl c) }
    else data
  | none => data

/-- The synthetic `temp-test` block data built by `updateBlock`
(lines 266-272). -/
def testData (block : Block) (data : UpdateData) : BlockData :=
  { id := "temp-test", title := block.title
    start := data.start.getD block.start
    duration := data.duration.getD block.duration
    color := block.color, isLocked := none }

/-- `Timeline.updateBlock(id, data)` (lines 252-296): no-op `false` for an
unknown id or a locked block; when `start`/`duration` actually change and
overlap is disallowed, a synthetic `temp-test` block is validated and checked
for conflicts excluding the target's own id; otherwise the partial update is
applied in place (hex colors converted). -/
def Timeline.updateBlock (st : Timeline) (id : String) (data : UpdateData) :
    Timeline × UpdResult :=
  match mapGet st.blocks id with
  | none => (st, .fls)
  | some block =>
    if block.isLocked then (st, .fls)
    else
      let applyIt : Timeline × UpdResult :=
        let block' := block.update (updColorConv data)
        ({ st with blocks := mapSet st.blocks block' }, .tru)
      if !st.allowOverlap && (startChangedB data block ||
          durationChangedB data block) then
        match Block.make (testData block data) with
        | none => (st, .threw)
        | some testBlock =>
          if st.hasConflict testBlock (some id) then (st, .fls)
          else applyIt
      else applyIt

/-- Result of `Timeline.adjustStartToAvoidConflicts` (lines 433-461), run
with explicit fuel since the JS recursion carries no bound: `outOfFuel`
means the recursion did not finish within the given number of steps. -/
inductive AdjustResult where
  | ok (d : BlockData)
  | outOfFuel
  | threw
deriving Repr, DecidableEq

/-- `Timeline.adjustStartToAvoidConflicts(blockData)` (lines 433-461):
build a `temp-adjust` test block; while it conflicts, advance the start by
0.25h mod 24 (resetting to 0 past the day end when wrap is off) and recur. -/
def Timeline.adjustStartToAvoidConflicts (st : Timeline) :
    ℕ → BlockData → AdjustResult
  | 0, _ => .outOfFuel
  | Nat.succ fuel, blockData =>
    match Block.make
      { id := "temp-adjust", title := blockData.title
        start := blockData.start, duration := blockData.duration
        color := blockData.color, isLocked := none } with
    | none => .threw
    | some testBlock =>
      if st.hasConflict testBlock none then
        let s1 := jsMod (blockData.start + 0.25) 24
        let s2 :=
          if !st.isWrappingEnabled ∧ 24 < s1 + blockData.duration then (0:ℚ)
          else s1
        st.adjustStartToAvoidConflicts fuel { blockData with start := s2 }
      else .ok blockData

inductive DupResult where
  | ok (newId : String)
  | noBlock
  | outOfFuel
  | threw
deriving Repr, DecidableEq

/-- `Timeline.duplicateBlock(id)` (lines 329-360): duplicate the data with a
new id and a start advanced to the original's end, conflict-adjust when
overlap is disallowed, then insert. -/
def Timeline.duplicateBlock (st : Timeline) (id : String) (fuel : ℕ) :
    Timeline × DupResult :=
  match mapGet st.blocks id with
  | none => (st, .noBlock)
  | some originalBlock =>
    let newId := st.generateUniqueId
    let st1 := { st with nextId := st.nextId + 1 }
    let newBlockData := originalBlock.duplicateData newId
    let adjusted :=
      if !st1.allowOverlap then
        st1.adjustStartToAvoidConflicts fuel newBlockData
      else .ok newBlockData
    match adjusted with
    | .outOfFuel => (st1, .outOfFuel)
    | .threw => (st1, .threw)
    | .ok nd =>
      match Block.make nd with
      | none => (st1, .threw)
      | some newBlock =>
        ({ st1 with blocks := mapSet st1.blocks newBlock }, .ok newId)

/-! ## Serialization (lines 742-789) -/

/-- The serialized snapshot `{blocks, isWrappingEnabled, allowOverlap,
use24HourFormat}`. -/
structure SerializedTimeline where
  blocks : List BlockData
  isWrappingEnabled : Bool
  allowOverlap : Bool
  use24HourFormat : Bool
deriving Repr, DecidableEq

/-- `Timeline.serialize` (lines 742-755). -/
def Timeline.serialize (st : Timeline) : SerializedTimeline :=
  { blocks := st.blocks.map Block.serializeData
    isWrappingEnabled := st.isWrappingEnabled
    allowOverlap := st.allowOverlap
    use24HourFormat := st.use24HourFormat }

/-- `Timeline.deserialize(data)` (lines 761-789): clear, load the settings
(booleans pass through `|| false` unchanged), then construct and insert each
block; `none` models a constructor `TypeError` part-way through. -/
def Timeline.deserialize (st : Timeline) (data : SerializedTimeline) :
    Option Timeline :=
  let base := { st with
    blocks := ([] : List Block)
    isWrappingEnabled := data.isWrappingEnabled
    allowOverlap := data.allowOverlap
    use24HourFormat := data.use24HourFormat }
  data.blocks.foldlM
    (fun acc bd =>
      (Block.make bd).map fun b => { acc with blocks := mapSet acc.blocks b })
    base

/-! ## ShuffleManager primitives (src/js/shuffle/ShuffleManager.js) -/

/-- An entry of the `placedBlocks` working arrays (`{id, start, duration}`;
the `isLocked: true` tag set by `getLockedBlocksAsPlaced` is never read and
is omitted). -/
structure PlacedBlock where
  id : String
  start : ℚ
  duration : ℚ
deriving Repr, DecidableEq

/-- `ShuffleManager.timeRangesOverlap(start1, end1, start2, end2,
allowWrapAround)` (lines 791-833). -/
def timeRangesOverlap (start1 end1 start2 end2 : ℚ) (allowWrapAround : Bool) :
    Bool :=
  let s1 := jsMod start1 24
  let e1 := jsMod end1 24
  let s2 := jsMod start2 24
  let e2 := jsMod end2 24
  let e1 := if e1 = 0 then 24 else e1
  let e2 := if e2 = 0 then 24 else e2
  let range1Wraps := decide (e1 ≤ s1)
  let range2Wraps := decide (e2 ≤ s2)
  let e1 := if !allowWrapAround && range1Wraps then 24 else e1
  let e2 := if !allowWrapAround && range2Wraps then 24 else e2
  if !range1Wraps && !range2Wraps then decide (s1 < e2 ∧ e1 > s2)
  else if allowWrapAround then
    if range1Wraps && range2Wraps then true
    else if range1Wraps then decide (s2 < e1 ∨ e2 > s1)
    else decide (s1 < e2 ∨ e1 > s2)
  else false

/-- `ShuffleManager.checkForTimeConflicts(placedBlocks, start, duration,
wrapEnabled)` (lines 843-854). -/
def checkForTimeConflicts (placedBlocks : List PlacedBlock)
    (start duration : ℚ) (wrapEnabled : Bool) : Bool :=
  if placedBlocks.isEmpty then false
  else
    let e := jsMod (start + duration) 24
    placedBlocks.any fun block =>
      let blockEnd := jsMod (block.start + block.duration) 24
      timeRangesOverlap start e block.start blockEnd wrapEnabled

/-- The value list of a JS loop `for (h = a; h < b; h += 0.25)`:
`a, a + 1/4, ...` while `< b`. -/
def quarterRange (a b : ℚ) : List ℚ :=
  (List.range (Int.toNat ⌈(b - a) * 4⌉)).map (fun k : ℕ => a + (k : ℚ) * (1/4))

/-- The value list of a JS loop `for (h = a; h <= b; h += 0.25)`
(inclusive upper bound, as in `placeBlocksInSlots`). -/
def quarterRangeIncl (a b : ℚ) : List ℚ :=
  (List.range (Int.toNat (⌊(b - a) * 4⌋ + 1))).map
    (fun k : ℕ => a + (k : ℚ) * (1/4))

/-- `ShuffleManager.findValidPosition(placedBlocks, preferredStart,
duration)` (lines 1266-1283), with the ambient `isWrappingEnabled` flag made
explicit. -/
def findValidPosition (wrap : Bool) (placedBlocks : List PlacedBlock)
    (preferredStart duration : ℚ) : ℚ :=
  if !(checkForTimeConflicts placedBlocks preferredStart duration wrap) then
    preferredStart
  else
    match (quarterRange 0 24).findSome? (fun hour =>
      if !(checkForTimeConflicts placedBlocks hour duration wrap)
          && (wrap || decide (hour + duration ≤ 24)) then
        some hour
      else none) with
    | some h => h
    | none => preferredStart

/-- A time point of the `findBestGap` sweep (`{time, type}`). -/
inductive PointType where
  | start
  | stop
  | boundary
deriving Repr, DecidableEq

structure TimePoint where
  time : ℚ
  type : PointType
deriving Repr, DecidableEq

/-- A gap record of the `findBestGap` sweep (`{start, end, duration}`). -/
structure Gap where
  start : ℚ
  stop : ℚ
  duration : ℚ
deriving Repr, DecidableEq

/-- State of the `findBestGap` sweep fold: emitted gaps (in order), the open
interval counter, and the last processed time. -/
structure SweepState where
  gaps : List Gap
  openBlocks : ℕ
  lastTime : ℚ
deriving Repr, DecidableEq

/-- One step of the `findBestGap` sweep (`timePoints.forEach`, lines
899-918).  `openBlocks - 1` is the JS `Math.max(0, openBlocks - 1)` (ℕ
subtraction truncates at 0 just like the `Math.max`). -/
def sweepStep (st : SweepState) (point : TimePoint) : SweepState :=
  let gaps :=
    if st.openBlocks = 0 ∧ st.lastTime < point.time then
      st.gaps ++ [{ start := st.lastTime, stop := point.time
                    duration := point.time - st.lastTime }]
    else st.gaps
  let openBlocks :=
    match point.type with
    | .start => st.openBlocks + 1
    | .stop => st.openBlocks - 1
    | .boundary => st.openBlocks
  { gaps := gaps, openBlocks := openBlocks, lastTime := point.time }

/-- The time points of `findBestGap` before sorting (lines 867-889):
each obstacle's (mod-24) start and end, plus the `0`/`24` day boundaries
when wrap is disabled. -/
def gapTimePoints (wrap : Bool) (placedBlocks : List PlacedBlock) :
    List TimePoint :=
  let pts := placedBlocks.foldl
    (fun acc block =>
      let blockStart := jsMod block.start 24
      let blockEnd0 := jsMod (block.start + block.duration) 24
      let blockEnd :=
        if blockEnd0 = 0 ∧ 0 < block.duration then 24 else blockEnd0
      acc ++ [⟨blockStart, .start⟩, ⟨blockEnd, .stop⟩]) []
  if !wrap then
    let pts :=
      if pts.any (fun p => p.time = 0) then pts else pts ++ [⟨0, .boundary⟩]
    if pts.any (fun p => p.time = 24) then pts else pts ++ [⟨24, .boundary⟩]
  else pts

/-- The gap list the `findBestGap` sweep produces from the sorted time
points (lines 894-931): the fold emits the between-event gaps; with wrap
enabled and no obstacle open at the end, the gap wrapping from the last
event to the first is appended. -/
def sweptGaps (wrap : Bool) (tp : List TimePoint) : List Gap :=
  let swept := tp.foldl sweepStep
    { gaps := [], openBlocks := 0, lastTime := 0 }
  match tp with
  | [] => swept.gaps
  | p0 :: rest =>
    if wrap then
      let firstTime := p0.time
      let lastTime := ((p0 :: rest).getLast (by simp)).time
      if swept.openBlocks = 0 ∧ 0 < firstTime then
        swept.gaps ++ [{ start := lastTime, stop := firstTime
                         duration := (24 - lastTime) + firstTime }]
      else swept.gaps
    else swept.gaps

/-- The whole-hour fallback scan of `findBestGap` (lines 945-963), used when
no recorded gap is large enough. -/
def bestGapFallback (wrap : Bool) (placedBlocks : List PlacedBlock)
    (duration : ℚ) : ℚ :=
  match ((List.range 24).map (fun n : ℕ => (n:ℚ))).findSome? (fun hour =>
    let hasConflict :=
      checkForTimeConflicts placedBlocks hour duration wrap
    let exceedsTimeline := !wrap && decide (24 < hour + duration)
    if !hasConflict && !exceedsTimeline then some hour else none)
    with
  | some h => h
  | none => 0

/-- `ShuffleManager.findBestGap(placedBlocks, duration)` (lines 862-966),
with the ambient wrap flag explicit.  The point sort and the gap sort are the
stable JS `Array.sort`, modelled by insertion sort on `≤` of the compared
key. -/
def findBestGap (wrap : Bool) (placedBlocks : List PlacedBlock)
    (duration : ℚ) : ℚ :=
  if placedBlocks.isEmpty then 0
  else
    let timePoints :=
      (gapTimePoints wrap placedBlocks).insertionSort
        (fun p q => p.time ≤ q.time)
    let gaps := sweptGaps wrap timePoints
    let suitableGaps :=
      (gaps.filter (fun g => duration ≤ g.duration)).insertionSort
        (fun g h => g.duration ≤ h.duration)
    match suitableGaps with
    | g :: _ => g.start
    | [] => bestGapFallback wrap placedBlocks duration

/-! ## ShuffleManager strategies (src/js/shuffle/ShuffleManager.js)

`Math.random()` is modelled as an oracle stream of rationals consumed in
call order.  Strategies operate on the array of (references to) unlocked
blocks; since the JS array holds live references into the collection, it is
modelled as a list of ids with every field read going through the current
state. -/

/-- The `Math.random()` oracle: a stream of rationals and a cursor. -/
structure Rng where
  vals : ℕ → ℚ
  k : ℕ

/-- One `Math.random()` call. -/
def Rng.next (r : Rng) : ℚ × Rng := (r.vals r.k, { r with k := r.k + 1 })

/-- `Math.floor` of a non-negative number, as an array index. -/
def jsFloorNat (q : ℚ) : ℕ := (⌊q⌋).toNat

/-- Swap two positions of a JS array. -/
def listSwap {α : Type} (l : List α) (i j : ℕ) : List α :=
  match l[i]?, l[j]? with
  | some a, some b => (l.set i b).set j a
  | _, _ => l

/-- The Fisher-Yates loop `for (i = len-1; i > 0; i--)` with
`j = floor(random()*(i+1))`. -/
def fisherYatesGo {α : Type} : List α → Rng → ℕ → List α × Rng
  | l, r, 0 => (l, r)
  | l, r, Nat.succ i =>
    let (q, r1) := r.next
    let j := jsFloorNat (q * ((i + 2 : ℕ) : ℚ))
    fisherYatesGo (listSwap l (i + 1) j) r1 i

/-- Fisher-Yates shuffle as used by the strategies (lines 100-104 etc.). -/
def fisherYates {α : Type} (l : List α) (r : Rng) : List α × Rng :=
  fisherYatesGo l r (l.length - 1)

/-- The dynamic tag properties assigned by the tagging strategies. -/
inductive TagKind where
  | priorityK
  | energyK
  | categoryK
  | themeK
deriving Repr, DecidableEq

def Block.getTag (b : Block) : TagKind → Option String
  | .priorityK => b.priority
  | .energyK => b.energy
  | .categoryK => b.category
  | .themeK => b.theme

def Block.setTagField (b : Block) : TagKind → String → Block
  | .priorityK, v => { b with priority := some v }
  | .energyK, v => { b with energy := some v }
  | .categoryK, v => { b with category := some v }
  | .themeK, v => { b with theme := some v }

/-- A strategy writing a tag property on a live block object
(`block.priority = ...` etc.). -/
def Timeline.setTag (st : Timeline) (id : String) (kind : TagKind)
    (v : String) : Timeline :=
  match mapGet st.blocks id with
  | none => st
  | some b => { st with blocks := mapSet st.blocks (b.setTagField kind v) }

/-- The direct field write `block.start = currentStart` of
`applyRandomStrategy` (line 154). -/
def Timeline.setBlockStart (st : Timeline) (id : String) (x : ℚ) : Timeline :=
  match mapGet st.blocks id with
  | none => st
  | some b => { st with blocks := mapSet st.blocks { b with start := x } }

/-- Live read of `block.duration` (the `none` default is never hit: strategy
ids always denote blocks of the collection). -/
def Timeline.blockDuration (st : Timeline) (id : String) : ℚ :=
  ((mapGet st.blocks id).map Block.duration).getD 0

/-- Live read of `block.start`. -/
def Timeline.blockStart (st : Timeline) (id : String) : ℚ :=
  ((mapGet st.blocks id).map Block.start).getD 0

/-- Live read of `block.isLocked`. -/
def Timeline.blockLockedB (st : Timeline) (id : String) : Bool :=
  ((mapGet st.blocks id).map Block.isLocked).getD false

/-- Live read of `block.title`. -/
def Timeline.blockTitle (st : Timeline) (id : String) : String :=
  ((mapGet st.blocks id).map Block.title).getD ""

/-- Live read of a tag property. -/
def Timeline.blockTag (st : Timeline) (id : String) (kind : TagKind) :
    Option String :=
  ((mapGet st.blocks id).map (fun b => b.getTag kind)).getD none

/-- `ShuffleManager.getLockedBlocksAsPlaced` (lines 1289-1299). -/
def Timeline.getLockedBlocksAsPlaced (st : Timeline) : List PlacedBlock :=
  (st.blocks.filter (fun b => b.isLocked)).map
    (fun b => ⟨b.id, b.start, b.duration⟩)

/-- The working state threaded through a strategy's placement loop. -/
structure StratState where
  st : Timeline
  placed : List PlacedBlock
  cur : ℚ
  rng : Rng

/-- An `updateBlock(id, { start })` call from a strategy. -/
def stratUpdateStart (st : Timeline) (id : String) (x : ℚ) : Timeline :=
  (st.updateBlock id { UpdateData.empty with start := some x }).1

/-- The inner placement `while` loop of `applyRandomStrategy`
(lines 135-173): at most `maxAttempts = 24` conflict checks against the
locally placed blocks, advancing by 0.25h mod 24 after each failure. -/
def randomScan (wrap allowOv : Bool) (placed : List PlacedBlock)
    (selfId : String) (dur : ℚ) : ℕ → ℚ → Option ℚ
  | 0, _ => none
  | Nat.succ att, cur =>
    let conflict : Bool :=
      if allowOv then false
      else placed.any fun p =>
        if p.id = selfId then false
        else timeRangesOverlap cur (cur + dur) p.start (p.start + p.duration)
          wrap
    if !conflict then some cur
    else randomScan wrap allowOv placed selfId dur att (jsMod (cur + 0.25) 24)

/-- One iteration of the `applyRandomStrategy` block loop (lines 113-198).
`idx` is the `forEach` index (a random gap is only considered for
`index > 0`). -/
def randomStep (s : StratState) (idx : ℕ) (id : String) : StratState :=
  let st := s.st
  let dur := st.blockDuration id
  let curRng : ℚ × Rng :=
    if 0 < idx then
      if s.rng.next.1 < 0.3 then
        (jsMod (s.cur + s.rng.next.2.next.1 * 1.5) 24, s.rng.next.2.next.2)
      else (s.cur, s.rng.next.2)
    else (s.cur, s.rng)
  let rng := curRng.2
  let cur :=
    if !st.isWrappingEnabled ∧ 24 < curRng.1 + dur then
      (if !st.allowOverlap then (0:ℚ) else curRng.1)
    else curRng.1
  let originalStart := cur
  match randomScan st.isWrappingEnabled st.allowOverlap s.placed id dur
      24 cur with
  | some pos =>
    let st1 := st.setBlockStart id pos
    let placed1 :=
      if st1.blockLockedB id then s.placed else s.placed ++ [⟨id, pos, dur⟩]
    let st2 := if st1.blockLockedB id then st1 else stratUpdateStart st1 id pos
    let cur2 := jsMod (st2.blockStart id + dur) 24
    let cur3 :=
      if !st2.isWrappingEnabled ∧ !st2.allowOverlap then jsMin 24 cur2 else cur2
    { st := st2, placed := placed1, cur := cur3, rng := rng }
  | none =>
    let st1 :=
      if st.blockLockedB id then st else stratUpdateStart st id originalStart
    let placed1 :=
      if st1.blockLockedB id then s.placed
      else s.placed ++ [⟨id, originalStart, dur⟩]
    let cur2 := jsMod (st1.blockStart id + dur) 24
    let cur3 :=
      if !st1.isWrappingEnabled ∧ !st1.allowOverlap then jsMin 24 cur2 else cur2
    { st := st1, placed := placed1, cur := cur3, rng := rng }

/-- `ShuffleManager.applyRandomStrategy` (lines 99-204). -/
def applyRandomStrategy (st : Timeline) (ids : List String) (rng : Rng) :
    Timeline :=
  let fy := fisherYates ids rng
  let init : StratState :=
    { st := st, placed := st.getLockedBlocksAsPlaced, cur := 0, rng := fy.2 }
  (fy.1.enum.foldl (fun s p => randomStep s p.1 p.2) init).st

/-- The quarter-hour rescue scan shared by the compact and spread strategies
(`for (hour = 0; hour < 24 && !found; hour += 0.25)`). -/
def quarterRescue (wrap : Bool) (placed : List PlacedBlock) (dur : ℚ) :
    Option ℚ :=
  (quarterRange 0 24).findSome? fun hour =>
    if !(checkForTimeConflicts placed hour dur wrap) then some hour else none

/-- The stable sort by descending duration used by the compact and
time-of-day strategies (`.sort((a, b) => b.duration - a.duration)`). -/
def sortByDurationDesc (st : Timeline) (ids : List String) : List String :=
  ids.insertionSort (fun a b => st.blockDuration b ≤ st.blockDuration a)

/-- One iteration of the `applyCompactStrategy` block loop (lines 221-285). -/
def compactStep (s : StratState) (id : String) : StratState :=
  let st := s.st
  let dur := st.blockDuration id
  let cur :=
    if !st.isWrappingEnabled ∧ 24 < s.cur + dur then
      (if !st.allowOverlap then findBestGap st.isWrappingEnabled s.placed dur
       else s.cur)
    else s.cur
  let cur :=
    if !st.allowOverlap then
      if checkForTimeConflicts s.placed cur dur st.isWrappingEnabled then
        (quarterRescue st.isWrappingEnabled s.placed dur).getD 0
      else cur
    else cur
  let st1 := stratUpdateStart st id cur
  let placed1 :=
    if st1.blockLockedB id then s.placed else s.placed ++ [⟨id, cur, dur⟩]
  let cur2 := jsMod (cur + dur) 24
  let cur3 :=
    if !st1.isWrappingEnabled ∧ !st1.allowOverlap then jsMin 24 cur2 else cur2
  { st := st1, placed := placed1, cur := cur3, rng := s.rng }

/-- `ShuffleManager.applyCompactStrategy` (lines 210-289). -/
def applyCompactStrategy (st : Timeline) (ids : List String) (rng : Rng) :
    Timeline :=
  let ids := sortByDurationDesc st ids
  let init : StratState :=
    { st := st, placed := st.getLockedBlocksAsPlaced, cur := 0, rng := rng }
  (ids.foldl compactStep init).st

/-- One iteration of the `applySpreadStrategy` block loop (lines 325-399). -/
def spreadStep (gap : ℚ) (s : StratState) (id : String) : StratState :=
  let st := s.st
  let dur := st.blockDuration id
  let attempted :=
    if !st.allowOverlap then
      if checkForTimeConflicts s.placed s.cur dur st.isWrappingEnabled then
        (quarterRescue st.isWrappingEnabled s.placed dur).getD s.cur
      else s.cur
    else s.cur
  let attempted :=
    if !st.isWrappingEnabled ∧ 24 < attempted + dur then
      (if !st.allowOverlap then (0:ℚ) else attempted)
    else attempted
  let st1 :=
    if st.blockLockedB id then st else stratUpdateStart st id attempted
  let placed1 :=
    if st1.blockLockedB id then s.placed
    else s.placed ++ [⟨id, attempted, dur⟩]
  let cur2 := jsMod (attempted + dur + gap) 24
  let cur3 := if !st1.isWrappingEnabled then jsMin 24 cur2 else cur2
  { st := st1, placed := placed1, cur := cur3, rng := s.rng }

/-- `ShuffleManager.applySpreadStrategy` (lines 295-403). -/
def applySpreadStrategy (st : Timeline) (ids : List String) (rng : Rng) :
    Timeline :=
  let totalDuration := (ids.map st.blockDuration).sum
  let availableTime : ℚ :=
    if st.isWrappingEnabled then 24 else jsMin 24 totalDuration
  let numberOfGaps : ℚ := if 1 < ids.length then (ids.length : ℚ) else 1
  let idealGapSize : ℚ :=
    if totalDuration < availableTime then
      jsMin 2 (max 0 ((availableTime - totalDuration) / numberOfGaps))
    else 0
  let fy := fisherYates ids rng
  let init : StratState :=
    { st := st, placed := st.getLockedBlocksAsPlaced, cur := 0, rng := fy.2 }
  (fy.1.foldl (spreadStep idealGapSize) init).st

/-- The duration category of the clustered strategy. -/
def durationCategory (dur : ℚ) : String :=
  if dur ≤ 0.5 then "short" else if dur ≤ 1.5 then "medium" else "long"

/-- The rescue scan of the clustered strategy (lines 473-494): advance by a
quarter hour mod 24 *before* each of at most 96 checks. -/
def clusteredScan (wrap allowOv : Bool) (placed : List PlacedBlock)
    (dur : ℚ) : ℕ → ℚ → Option ℚ
  | 0, _ => none
  | Nat.succ att, tryStart =>
    let t := jsMod (tryStart + 0.25) 24
    if !(checkForTimeConflicts placed t dur wrap)
        && (!wrap || decide (t + dur ≤ 24) || allowOv) then some t
    else clusteredScan wrap allowOv placed dur att t

/-- One iteration of the `applyClusteredStrategy` block loop
(lines 439-522); the extra component is `currentCategory`. -/
def clusteredStep (s : StratState × Option String) (id : String) :
    StratState × Option String :=
  let base := s.1
  let st := base.st
  let dur := st.blockDuration id
  let blockCategory := durationCategory dur
  let cur :=
    if s.2 ≠ none ∧ s.2 ≠ some blockCategory then jsMod (base.cur + 0.5) 24
    else base.cur
  let cur :=
    if !st.isWrappingEnabled ∧ 24 < cur + dur then
      (if !st.allowOverlap then (0:ℚ) else cur)
    else cur
  let cur :=
    if !st.allowOverlap then
      if checkForTimeConflicts base.placed cur dur st.isWrappingEnabled then
        (clusteredScan st.isWrappingEnabled st.allowOverlap base.placed
          dur 96 cur).getD 0
      else cur
    else cur
  let st1 := stratUpdateStart st id cur
  let placed1 :=
    if st1.blockLockedB id then base.placed
    else base.placed ++ [⟨id, cur, dur⟩]
  let cur2 := jsMod (cur + dur) 24
  let cur3 :=
    if !st1.isWrappingEnabled ∧ !st1.allowOverlap then jsMin 24 cur2 else cur2
  ({ st := st1, placed := placed1, cur := cur3, rng := base.rng },
    some blockCategory)

/-- `ShuffleManager.applyClusteredStrategy` (lines 409-526). -/
def applyClusteredStrategy (st : Timeline) (ids : List String) (rng : Rng) :
    Timeline :=
  let shortBlocks := ids.filter (fun id => st.blockDuration id ≤ 0.5)
  let mediumBlocks := ids.filter (fun id =>
    0.5 < st.blockDuration id ∧ st.blockDuration id ≤ 1.5)
  let longBlocks := ids.filter (fun id => 1.5 < st.blockDuration id)
  let f1 := fisherYates shortBlocks rng
  let f2 := fisherYates mediumBlocks f1.2
  let f3 := fisherYates longBlocks f2.2
  let orderedBlocks :=
    if f3.2.next.1 < 0.5 then f2.1 ++ f1.1 ++ f3.1
    else f3.1 ++ f2.1 ++ f1.1
  let init : StratState :=
    { st := st, placed := st.getLockedBlocksAsPlaced, cur := 0
      rng := f3.2.next.2 }
  (orderedBlocks.foldl clusteredStep (init, none)).1.st

/-! ### Time-of-day strategy (lines 532-780) -/

/-- The per-period bookkeeping of the time-of-day first pass: block lists
and remaining capacities of morning/afternoon/evening/night. -/
structure TodAcc where
  morning : List String
  afternoon : List String
  evening : List String
  night : List String
  rm : ℚ
  ra : ℚ
  re : ℚ
  rn : ℚ

/-- The first pass of `applyTimeOfDayStrategy` (lines 566-619): distribute a
block to a period.  The `periods[0]` pick of the oversized branch is the
head of the stable descending sort of the four periods by remaining time,
i.e. the first listed period of maximal remaining time. -/
def todAssign (st : Timeline) (acc : TodAcc) (id : String) : TodAcc :=
  let dur := st.blockDuration id
  let morningDuration : ℚ := 12 - 5
  let afternoonDuration : ℚ := 17 - 12
  let eveningDuration : ℚ := 22 - 17
  let nightDuration : ℚ := (24 - 22) + 5
  let isExtremelyLong := decide (max (max morningDuration afternoonDuration)
    (max eveningDuration nightDuration) < dur)
  if isExtremelyLong
      || (decide (acc.rm < dur) && decide (acc.ra < dur)
          && decide (acc.re < dur) && decide (acc.rn < dur)) then
    if acc.ra ≤ acc.rm ∧ acc.re ≤ acc.rm ∧ acc.rn ≤ acc.rm then
      { acc with morning := acc.morning ++ [id], rm := acc.rm - dur }
    else if acc.re ≤ acc.ra ∧ acc.rn ≤ acc.ra then
      { acc with afternoon := acc.afternoon ++ [id], ra := acc.ra - dur }
    else if acc.rn ≤ acc.re then
      { acc with evening := acc.evening ++ [id], re := acc.re - dur }
    else
      { acc with night := acc.night ++ [id], rn := acc.rn - dur }
  else if dur ≤ acc.rm then
    { acc with morning := acc.morning ++ [id], rm := acc.rm - dur }
  else if dur ≤ acc.ra then
    { acc with afternoon := acc.afternoon ++ [id], ra := acc.ra - dur }
  else if dur ≤ acc.re then
    { acc with evening := acc.evening ++ [id], re := acc.re - dur }
  else
    { acc with night := acc.night ++ [id], rn := acc.rn - dur }

/-- The conflict rescue search of `positionBlocksInPeriod` (lines 694-757). -/
def periodRescue (wrap _allowOv : Bool) (placed : List PlacedBlock)
    (dur periodStart periodDuration : ℚ) (crossesMidnight : Bool) :
    Option ℚ :=
  let conflictAt := fun (h : ℚ) => checkForTimeConflicts placed h dur wrap
  let searchEnd := periodStart + periodDuration
  let inPeriod : Option ℚ :=
    if crossesMidnight then
      if 24 < searchEnd then
        let sEnd := jsMod searchEnd 24
        let phase1 := (quarterRange periodStart 24).findSome? fun h =>
          if !(conflictAt h) && (wrap || decide (h + dur ≤ 24)) then some h
          else none
        match phase1 with
        | some h => some h
        | none =>
          (quarterRange 0 sEnd).findSome? fun h =>
            if !(conflictAt h) then some h else none
      else none
    else
      (quarterRange periodStart (searchEnd - dur)).findSome? fun h =>
        if !(conflictAt h) then some h else none
  match inPeriod with
  | some h => some h
  | none =>
    (quarterRange 0 24).findSome? fun h =>
      if !(conflictAt h) && (wrap || decide (h + dur ≤ 24)) then some h
      else none

/-- `ShuffleManager.positionBlocksInPeriod` (lines 649-780). -/
def periodStep (periodStart periodDuration gapSize : ℚ)
    (crossesMidnight : Bool) (s : Timeline × List PlacedBlock × ℚ)
    (id : String) : Timeline × List PlacedBlock × ℚ :=
  let st := s.1
  let placed := s.2.1
  let dur := st.blockDuration id
  let cur := if crossesMidnight ∧ 24 ≤ s.2.2 then jsMod s.2.2 24 else s.2.2
  let cur :=
    if !st.isWrappingEnabled ∧ 24 < cur + dur then (0:ℚ) else cur
  let cur :=
    if !st.allowOverlap then
      if checkForTimeConflicts placed cur dur st.isWrappingEnabled then
        (periodRescue st.isWrappingEnabled st.allowOverlap placed
          dur periodStart periodDuration crossesMidnight).getD periodStart
      else cur
    else cur
  let st1 := stratUpdateStart st id cur
  let placed1 :=
    if st1.blockLockedB id then placed else placed ++ [⟨id, cur, dur⟩]
  let cur2 := cur + dur + gapSize
  let cur3 :=
    if crossesMidnight ∧ 24 ≤ cur2 then jsMod cur2 24 else cur2
  (st1, placed1, cur3)

def positionBlocksInPeriod (st : Timeline) (placed : List PlacedBlock)
    (rng : Rng) (blocks : List String) (periodStart periodDuration : ℚ)
    (crossesMidnight : Bool) : Timeline × List PlacedBlock × Rng :=
  if blocks.isEmpty then (st, placed, rng)
  else
    let fy := fisherYates blocks rng
    let totalBlockDuration := (fy.1.map st.blockDuration).sum
    let gapSize : ℚ :=
      if totalBlockDuration < periodDuration then
        jsMin 1 ((periodDuration - totalBlockDuration) / (fy.1.length + 1))
      else 0
    let fin := fy.1.foldl
      (periodStep periodStart periodDuration gapSize crossesMidnight)
      (st, placed, periodStart + gapSize)
    (fin.1, fin.2.1, fy.2)

/-- `ShuffleManager.applyTimeOfDayStrategy` (lines 532-639). -/
def applyTimeOfDayStrategy (st : Timeline) (ids : List String) (rng : Rng) :
    Timeline :=
  if ids.isEmpty then st
  else
    let ids := sortByDurationDesc st ids
    let acc0 : TodAcc :=
      { morning := [], afternoon := [], evening := [], night := []
        rm := 12 - 5, ra := 17 - 12, re := 22 - 17, rn := (24 - 22) + 5 }
    let acc := ids.foldl (todAssign st) acc0
    let placed := st.getLockedBlocksAsPlaced
    let p1 := positionBlocksInPeriod st placed rng acc.morning 5 (12 - 5)
      false
    let p2 := positionBlocksInPeriod p1.1 p1.2.1 p1.2.2 acc.afternoon 12
      (17 - 12) false
    let p3 := positionBlocksInPeriod p2.1 p2.2.1 p2.2.2 acc.evening 17
      (22 - 17) false
    (positionBlocksInPeriod p3.1 p3.2.1 p3.2.2 acc.night 22 ((24 - 22) + 5)
      true).1

/-! ### Sequential layout helper and the tagging strategies -/

/-- `ShuffleManager.layoutBlocksSequentially(blockArray, gapSize)`
(lines 1163-1199). -/
def layoutStep (gapSize : ℚ) (s : Timeline × List PlacedBlock × ℚ)
    (id : String) : Timeline × List PlacedBlock × ℚ :=
  let st := s.1
  let placed := s.2.1
  let cur := s.2.2
  let dur := st.blockDuration id
  let validPosition :=
    findValidPosition st.isWrappingEnabled placed cur dur
  let st1 :=
    if st.blockLockedB id then st else stratUpdateStart st id validPosition
  let placed1 :=
    if st1.blockLockedB id then placed
    else placed ++ [⟨id, validPosition, dur⟩]
  let cur2 := jsMod (validPosition + dur + gapSize) 24
  let cur3 := if !st1.isWrappingEnabled then jsMin 24 cur2 else cur2
  (st1, placed1, cur3)

def layoutBlocksSequentially (st : Timeline) (ids : List String)
    (gapSize : ℚ) : Timeline :=
  (ids.foldl (layoutStep gapSize) (st, st.getLockedBlocksAsPlaced, 0)).1

/-- The tag-value rank of the priority sort
(`priorityOrder[p] || 2`, lines 985-994). -/
def priorityRank (t : Option String) : ℕ :=
  match t with
  | some "high" => 3
  | some "medium" => 2
  | some "low" => 1
  | _ => 2

/-- The random tag assignment pass of `applyPriorityStrategy`
(lines 974-982). -/
def assignPriorities (st : Timeline) (ids : List String) (rng : Rng) :
    Timeline × Rng :=
  ids.foldl (fun s id =>
    if (s.1.blockTag id .priorityK).isNone then
      let v := if s.2.next.1 < 0.3 then "high"
        else if s.2.next.1 < 0.8 then "medium" else "low"
      (s.1.setTag id .priorityK v, s.2.next.2)
    else s) (st, rng)

/-- `ShuffleManager.applyPriorityStrategy` (lines 972-998).  The JS
`Array.sort` with the comparator that returns `Math.random() - 0.5` on ties
produces an implementation-defined permutation within each priority class;
it is modelled as an oracle permutation (Fisher-Yates on the random stream)
followed by the stable sort on descending priority rank. -/
def applyPriorityStrategy (st : Timeline) (ids : List String) (rng : Rng) :
    Timeline :=
  let ar := assignPriorities st ids rng
  let ids1 := (fisherYates ids ar.2).1.insertionSort (fun a b =>
    priorityRank (ar.1.blockTag b .priorityK) ≤
      priorityRank (ar.1.blockTag a .priorityK))
  layoutBlocksSequentially ar.1 ids1 0.25

/-- A preferred time slot of the energy strategy (`{start, end}`; the
`preferred` labels are never read by the placement code and are omitted). -/
structure Slot where
  start : ℚ
  stop : ℚ
deriving Repr, DecidableEq

/-- `ShuffleManager.placeBlocksInSlots(blocks, preferredSlots, placedBlocks)`
(lines 1207-1257). -/
def slotStep (preferredSlots : List Slot) (s : Timeline × List PlacedBlock)
    (id : String) : Timeline × List PlacedBlock :=
  let st := s.1
  let placed := s.2
  let dur := st.blockDuration id
  let found := preferredSlots.findSome? fun slot =>
    if dur ≤ slot.stop - slot.start then
      (quarterRangeIncl slot.start (slot.stop - dur)).findSome? fun t =>
        if !(checkForTimeConflicts placed t dur st.isWrappingEnabled) then
          some t
        else none
    else none
  match found with
  | some time =>
    let st1 :=
      if st.blockLockedB id then st else stratUpdateStart st id time
    let placed1 :=
      if st1.blockLockedB id then placed else placed ++ [⟨id, time, dur⟩]
    (st1, placed1)
  | none =>
    let validPosition := findValidPosition st.isWrappingEnabled placed 0 dur
    let st1 :=
      if st.blockLockedB id then st
      else stratUpdateStart st id validPosition
    let placed1 :=
      if st1.blockLockedB id then placed
      else placed ++ [⟨id, validPosition, dur⟩]
    (st1, placed1)

def placeBlocksInSlots (st : Timeline) (ids : List String)
    (preferredSlots : List Slot) (placed : List PlacedBlock) :
    Timeline × List PlacedBlock :=
  ids.foldl (slotStep preferredSlots) (st, placed)

/-- The random tag assignment pass of `applyEnergyStrategy`
(lines 1006-1014). -/
def assignEnergies (st : Timeline) (ids : List String) (rng : Rng) :
    Timeline × Rng :=
  ids.foldl (fun s id =>
    if (s.1.blockTag id .energyK).isNone then
      let v := if s.2.next.1 < 0.25 then "high"
        else if s.2.next.1 < 0.75 then "medium" else "low"
      (s.1.setTag id .energyK v, s.2.next.2)
    else s) (st, rng)

/-- `ShuffleManager.applyEnergyStrategy` (lines 1004-1040). -/
def applyEnergyStrategy (st : Timeline) (ids : List String) (rng : Rng) :
    Timeline :=
  let st0 := (assignEnergies st ids rng).1
  let morningSlot : Slot := ⟨6, 10⟩
  let midMorningSlot : Slot := ⟨10, 14⟩
  let afternoonSlot : Slot := ⟨14, 18⟩
  let eveningSlot : Slot := ⟨18, 22⟩
  let highEnergyBlocks :=
    ids.filter (fun id => st0.blockTag id .energyK = some "high")
  let mediumEnergyBlocks :=
    ids.filter (fun id => st0.blockTag id .energyK = some "medium")
  let lowEnergyBlocks :=
    ids.filter (fun id => st0.blockTag id .energyK = some "low")
  let p1 := placeBlocksInSlots st0 highEnergyBlocks
    [morningSlot, midMorningSlot] st0.getLockedBlocksAsPlaced
  let p2 := placeBlocksInSlots p1.1 mediumEnergyBlocks
    [midMorningSlot, afternoonSlot, eveningSlot] p1.2
  (placeBlocksInSlots p2.1 lowEnergyBlocks
    [afternoonSlot, eveningSlot] p2.2).1

/-- JS `String.prototype.includes` (substring test). -/
def strIncludes (s sub : String) : Bool := decide (sub.data <:+: s.data)

/-- The five categories of the balanced strategy. -/
def balancedCategories : List String :=
  ["work", "personal", "health", "learning", "social"]

/-- The random tag assignment pass of `applyBalancedStrategy`
(lines 1048-1053).  An out-of-range oracle value leaves the JS property
`undefined`, i.e. the tag unset. -/
def assignCategories (st : Timeline) (ids : List String) (rng : Rng) :
    Timeline × Rng :=
  ids.foldl (fun s id =>
    if (s.1.blockTag id .categoryK).isNone then
      match balancedCategories[jsFloorNat (s.2.next.1 * 5)]? with
      | some c => (s.1.setTag id .categoryK c, s.2.next.2)
      | none => (s.1, s.2.next.2)
    else s) (st, rng)

/-- `ShuffleManager.applyBalancedStrategy` (lines 1046-1087). -/
def applyBalancedStrategy (st : Timeline) (ids : List String) (rng : Rng) :
    Timeline :=
  let ar := assignCategories st ids rng
  let groups0 := balancedCategories.map (fun c =>
    ids.filter (fun id => (ar.1.blockTag id .categoryK).getD "personal" = c))
  let groups := (groups0.foldl (fun acc g =>
    (acc.1 ++ [(fisherYates g acc.2).1], (fisherYates g acc.2).2))
    (([] : List (List String)), ar.2)).1
  let maxLength := (groups.map List.length).foldl max 0
  let balancedArray := (List.range maxLength).foldl (fun acc i =>
    acc ++ groups.filterMap (fun g => g[i]?)) []
  layoutBlocksSequentially ar.1 balancedArray 0.5

/-- The keyword tables of the theme strategy (lines 1095-1098). -/
def workKeywords : List String :=
  ["meeting", "work", "project", "call", "email", "office"]

def healthKeywords : List String :=
  ["exercise", "workout", "gym", "run", "yoga", "health"]

def personalKeywords : List String :=
  ["family", "shopping", "personal", "home", "chores"]

def learningKeywords : List String :=
  ["study", "learn", "read", "course", "training"]

/-- The tag assignment pass of `applyThemeStrategy` (lines 1100-1117):
keyword match on the lowercased title, else a uniformly random theme. -/
def assignThemes (st : Timeline) (ids : List String) (rng : Rng) :
    Timeline × Rng :=
  ids.foldl (fun s id =>
    if (s.1.blockTag id .themeK).isNone then
      let title := (s.1.blockTitle id).toLower
      if workKeywords.any (fun k => strIncludes title k) then
        (s.1.setTag id .themeK "work", s.2)
      else if healthKeywords.any (fun k => strIncludes title k) then
        (s.1.setTag id .themeK "health", s.2)
      else if learningKeywords.any (fun k => strIncludes title k) then
        (s.1.setTag id .themeK "learning", s.2)
      else if personalKeywords.any (fun k => strIncludes title k) then
        (s.1.setTag id .themeK "personal", s.2)
      else
        match (["work", "personal", "health", "learning"] :
            List String)[jsFloorNat (s.2.next.1 * 4)]? with
        | some t => (s.1.setTag id .themeK t, s.2.next.2)
        | none => (s.1, s.2.next.2)
    else s) (st, rng)

/-- The theme a block is grouped under (`block.theme || 'personal'` with the
fallback to the `personal` group for unknown themes, lines 1127-1134). -/
def themeGroupOf (st : Timeline) (id : String) : String :=
  let t := (st.blockTag id .themeK).getD "personal"
  if t = "work" ∨ t = "health" ∨ t = "learning" then t else "personal"

/-- `ShuffleManager.applyThemeStrategy` (lines 1093-1156). -/
def applyThemeStrategy (st : Timeline) (ids : List String) (rng : Rng) :
    Timeline :=
  let ar := assignThemes st ids rng
  let groupNames : List String := ["work", "personal", "health", "learning"]
  let groups0 := groupNames.map (fun c =>
    ids.filter (fun id => themeGroupOf ar.1 id = c))
  let groups := (groups0.foldl (fun acc g =>
    (acc.1 ++ [(fisherYates g acc.2).1], (fisherYates g acc.2).2))
    (([] : List (List String)), ar.2)).1
  let themeOrder : List String := ["work", "learning", "health", "personal"]
  let orderedBlocks := themeOrder.foldl (fun acc c =>
    match groupNames.indexOf? c with
    | some i => acc ++ (groups[i]?).getD []
    | none => acc) []
  layoutBlocksSequentially ar.1 orderedBlocks 0.75

/-- `ShuffleManager.executeStrategy(strategy)` (lines 33-93): filter out the
locked blocks and dispatch on the strategy name (unknown names fall back to
the random strategy); with no unlocked blocks the call is a no-op. -/
def executeStrategy (st : Timeline) (strategy : String) (rng : Rng) :
    Timeline :=
  let blockArray := (st.blocks.filter (fun b => !b.isLocked)).map Block.id
  if blockArray.isEmpty then st
  else if strategy = "compact" then applyCompactStrategy st blockArray rng
  else if strategy = "spread" then applySpreadStrategy st blockArray rng
  else if strategy = "clustered" then applyClusteredStrategy st blockArray rng
  else if strategy = "timeOfDay" then applyTimeOfDayStrategy st blockArray rng
  else if strategy = "priority" then applyPriorityStrategy st blockArray rng
  else if strategy = "energy" then applyEnergyStrategy st blockArray rng
  else if strategy = "balanced" then applyBalancedStrategy st blockArray rng
  else if strategy = "theme" then applyThemeStrategy st blockArray rng
  else applyRandomStrategy st blockArray rng

/-! # Verification

All definitions above are the embedding; everything below proves properties
of them.  Batteries marks the rational operations `@[irreducible]`, which
blocks `decide` on concrete states; the declarations that evaluate the
embedded code on concrete inputs restore the default reducibility in a local
section, so the elaborator can run them; symbolic proofs stay outside those
sections (with the operations reducible, a failing unification attempt can
descend into the rational arithmetic kernels and blow up). -/

/-- Fixture: a block with an opaque color and no tags, for concrete runs. -/
def wBlock (id title : String) (s d : ℚ) (lk : Bool) : Block :=
  { id := id, title := title, start := s, duration := d, color := "c"
    isLocked := lk, priority := none, energy := none, category := none
    theme := none }

/-- Fixture: a timeline state for concrete runs. -/
def mkTimeline (w a : Bool) (n : ℕ) (bs : List Block) : Timeline :=
  { blocks := bs, isWrappingEnabled := w, allowOverlap := a
    use24HourFormat := true, nextId := n }

/-! ## Evolution relation: what a shuffle step may do to the collection

Pointwise relation between the block lists before and after a mutation step:
ids and lock flags are untouched, and a locked block keeps its `start` and
`duration`. -/

def BlocksEvolve (bs bs' : List Block) : Prop :=
  List.Forall₂
    (fun b b' => b'.id = b.id ∧ b'.isLocked = b.isLocked ∧
      (b.isLocked = true → b'.start = b.start ∧ b'.duration = b.duration))
    bs bs'

/-- The complete constructor data `addBlock` builds (lines 218-224). -/
def addCompleteData (st : Timeline) (d : AddData) : BlockData :=
  { id := st.generateUniqueId, title := d.title, start := d.start
    duration := d.duration, color := hexToHsl d.color, isLocked := none }

/-- The state after a bare id generation (`Date.now()` consumed). -/
def bumpId (st : Timeline) : Timeline := { st with nextId := st.nextId + 1 }

/-- The state after a successful insertion of a new block. -/
def insertBlock (st : Timeline) (bl : Block) : Timeline :=
  { st with nextId := st.nextId + 1, blocks := mapSet st.blocks bl }

/-- Replacing the block list of a state. -/
def setBlocks (st : Timeline) (bs : List Block) : Timeline :=
  { st with blocks := bs }

/-! ## The operation sequences of C1 and C9 -/

/-- The `Math.random()` contract: every oracle value is non-negative. -/
def RngNonneg (r : Rng) : Prop := ∀ k, 0 ≤ r.vals k

/-- A call of the public mutating interface of the collection (the fuel of
`dup` bounds the conflict-avoidance recursion; `shuffle` carries its
`Math.random()` oracle). -/
inductive Op where
  | add (d : AddData)
  | update (id : String) (d : UpdateData)
  | dup (id : String) (fuel : ℕ)
  | shuffle (strategy : String) (rng : Rng)

/-- The operations C1 quantifies over (`addBlock`/`updateBlock`). -/
def Op.isEdit : Op → Bool
  | .add _ => true
  | .update _ _ => true
  | .dup _ _ => false
  | .shuffle _ _ => false

/-- The `Math.random()` contract for the oracle a call consumes. -/
def Op.rngOk : Op → Prop
  | .shuffle _ rng => RngNonneg rng
  | _ => True

/-- Execute one call, keeping the resulting state. -/
def applyOp (st : Timeline) : Op → Timeline
  | .add d => (st.addBlock d).1
  | .update id d => (st.updateBlock id d).1
  | .dup id fuel => (st.duplicateBlock id fuel).1
  | .shuffle strategy rng => executeStrategy st strategy rng

/-- Execute a call sequence. -/
def runOps (st : Timeline) (ops : List Op) : Timeline :=
  ops.foldl applyOp st

/-- No two distinct blocks of the collection overlap (under the state's own
wrap setting) — the C1 invariant. -/
def NoConflictPairs (st : Timeline) : Prop :=
  ∀ a ∈ st.blocks, ∀ b ∈ st.blocks, a.id ≠ b.id →
    blocksOverlap st.isWrappingEnabled a b = false

/-- No stored block uses one of the reserved synthetic test ids (true of all
reachable states: real ids come from `generateUniqueId`). -/
def NoTempIds (st : Timeline) : Prop :=
  ∀ b ∈ st.blocks, b.id ≠ "temp-test" ∧ b.id ≠ "temp-adjust"

/-- Every stored block has a non-negative start and positive duration — the
C9 invariant. -/
def StartsValid (st : Timeline) : Prop :=
  ∀ b ∈ st.blocks, 0 ≤ b.start ∧ 0 < b.duration

/-- All obstacle lists a strategy accumulates have non-negative starts and
durations. -/
def PlacedNonneg (l : List PlacedBlock) : Prop :=
  ∀ p ∈ l, 0 ≤ p.start ∧ 0 ≤ p.duration

/-- The C9 loop invariant of a strategy's placement fold: valid stored
geometry, overlap disallowed, a non-negative cursor and obstacle list, and a
non-negative oracle. -/
def StratInv (s : StratState) : Prop :=
  StartsValid s.st ∧ s.st.allowOverlap = false ∧ 0 ≤ s.cur ∧
  PlacedNonneg s.placed ∧ RngNonneg s.rng

/-- The operations C2 quantifies over (`updateBlock` and the shuffle
strategies). -/
def Op.isUpdateOrShuffle : Op → Bool
  | .update _ _ => true
  | .shuffle _ _ => true
  | _ => false

/-! ## C8: serialize/deserialize round trip -/

/-- The field validity the `Block` constructor enforces (and every stored
block of a reachable state satisfies). -/
def WFBlock (b : Block) : Prop :=
  b.id ≠ "" ∧ b.title ≠ "" ∧ 0 ≤ b.start ∧ 0 < b.duration ∧ b.color ≠ ""

instance (b : Block) : Decidable (WFBlock b) := by
  rw [WFBlock]; infer_instance

/-- A block with the four dynamic shuffle tags removed (what rebuilding a
block from its serialized form produces). -/
def tagsCleared (b : Block) : Block :=
  { b with priority := none, energy := none, category := none, theme := none }

/-- The C9 invariant of the sequential-layout and slot-placement folds. -/
def LayoutInv (s : Timeline × List PlacedBlock × ℚ) : Prop :=
  StartsValid s.1 ∧ s.1.allowOverlap = false ∧ PlacedNonneg s.2.1 ∧
  0 ≤ s.2.2

/-- The C9 invariant of the slot-placement fold. -/
def SlotInv (s : Timeline × List PlacedBlock) : Prop :=
  StartsValid s.1 ∧ s.1.allowOverlap = false ∧ PlacedNonneg s.2

lemma jsMod_eq_fract_mul (x y : ℚ) (hy : y ≠ 0) (h : 0 ≤ x / y) :
    jsMod x y = y * Int.fract (x / y) := by
  rw [jsMod, if_pos h, Int.fract, mul_sub, mul_div_cancel₀ _ hy]

lemma jsMod_nonneg (x y : ℚ) (hx : 0 ≤ x) (hy : 0 < y) : 0 ≤ jsMod x y := by
  have h : 0 ≤ x / y := div_nonneg hx hy.le
  rw [jsMod_eq_fract_mul x y hy.ne' h]
  exact mul_nonneg hy.le (Int.fract_nonneg _)

lemma jsMod_lt (x y : ℚ) (hx : 0 ≤ x) (hy : 0 < y) : jsMod x y < y := by
  have h : 0 ≤ x / y := div_nonneg hx hy.le
  rw [jsMod_eq_fract_mul x y hy.ne' h]
  calc y * Int.fract (x / y) < y * 1 := by
        exact (mul_lt_mul_left hy).mpr (Int.fract_lt_one _)
    _ = y := mul_one y

lemma jsMod_eq_self (x y : ℚ) (hx : 0 ≤ x) (hxy : x < y) : jsMod x y = x := by
  have hy : 0 < y := lt_of_le_of_lt hx hxy
  have h : 0 ≤ x / y := div_nonneg hx hy.le
  have h1 : x / y < 1 := (div_lt_one hy).mpr hxy
  have hf : ⌊x / y⌋ = 0 := Int.floor_eq_zero_iff.mpr ⟨h, h1⟩
  rw [jsMod, if_pos h, hf]
  push_cast
  ring

lemma jsMod_self (y : ℚ) (hy : 0 < y) : jsMod y y = 0 := by
  have h : (0:ℚ) ≤ y / y := div_nonneg hy.le hy.le
  rw [jsMod, if_pos h, div_self hy.ne']
  norm_num

lemma hexToHsl_ne_empty (hex : String) : hexToHsl hex ≠ "" := by
  intro h
  have := congrArg String.length h
  rw [hexToHsl] at this
  simp [String.length_append] at this
  exact absurd this.1.1 (by decide)

/-- Membership characterisation of `quarterRange`. -/
lemma mem_quarterRange {a b x : ℚ} :
    x ∈ quarterRange a b ↔ ∃ k : ℕ, x = a + k * (1/4) ∧ a + k * (1/4) < b := by
  simp only [quarterRange, List.mem_map, List.mem_range, Int.lt_toNat]
  constructor
  · rintro ⟨k, hk, rfl⟩
    have hk3 : ((k : ℤ) : ℚ) < (b - a) * 4 := Int.lt_ceil.mp hk
    push_cast at hk3
    exact ⟨k, rfl, by linarith⟩
  · rintro ⟨k, rfl, hlt⟩
    refine ⟨k, ?_, rfl⟩
    refine Int.lt_ceil.mpr ?_
    push_cast
    linarith

lemma mem_of_mem_listSwap {α : Type} {l : List α} {i j : ℕ} {x : α}
    (h : x ∈ listSwap l i j) : x ∈ l := by
  rw [listSwap] at h
  rcases hi : l[i]? with _ | a <;> rcases hj : l[j]? with _ | b <;>
    rw [hi, hj] at h <;> try exact h
  rcases List.mem_or_eq_of_mem_set h with h2 | rfl
  · rcases List.mem_or_eq_of_mem_set h2 with h3 | rfl
    · exact h3
    · exact List.getElem?_mem hj
  · exact List.getElem?_mem hi

lemma mem_of_mem_fisherYatesGo {α : Type} :
    ∀ (l : List α) (r : Rng) (n : ℕ) {x : α},
      x ∈ (fisherYatesGo l r n).1 → x ∈ l := by
  intro l r n
  induction n generalizing l r with
  | zero => intro x h; exact h
  | succ i ih =>
    intro x h
    rw [fisherYatesGo] at h
    exact mem_of_mem_listSwap (ih _ _ h)

lemma mem_of_mem_fisherYates {α : Type} {l : List α} {r : Rng} {x : α}
    (h : x ∈ (fisherYates l r).1) : x ∈ l :=
  mem_of_mem_fisherYatesGo l r (l.length - 1) h

/-! ## Map lemmas -/

lemma find?_map_replace (bs : List Block) (b : Block) (id : String)
    (h : id ≠ b.id) :
    (bs.map (fun x => if x.id = b.id then b else x)).find?
        (fun c => c.id = id) =
      bs.find? (fun c => c.id = id) := by
  induction bs with
  | nil => rfl
  | cons y ys ih =>
    rw [List.map_cons]
    by_cases hy : y.id = b.id
    · rw [if_pos hy]
      rw [List.find?_cons_of_neg _ (by simp [Ne.symm h]),
        List.find?_cons_of_neg _ (by simp [hy, Ne.symm h]), ih]
    · rw [if_neg hy]
      by_cases hyid : y.id = id
      · rw [List.find?_cons_of_pos _ (by simp [hyid]),
          List.find?_cons_of_pos _ (by simp [hyid])]
      · rw [List.find?_cons_of_neg _ (by simp [hyid]),
          List.find?_cons_of_neg _ (by simp [hyid]), ih]

lemma find?_map_replace_self (bs : List Block) (b : Block)
    (h : bs.any (fun x => x.id = b.id) = true) :
    (bs.map (fun x => if x.id = b.id then b else x)).find?
        (fun c => c.id = b.id) = some b := by
  induction bs with
  | nil => cases h
  | cons y ys ih =>
    rw [List.map_cons]
    by_cases hy : y.id = b.id
    · rw [if_pos hy, List.find?_cons_of_pos _ (by simp)]
    · rw [if_neg hy, List.find?_cons_of_neg _ (by simp [hy])]
      rw [List.any_cons] at h
      have h2 : ys.any (fun x => x.id = b.id) = true := by
        rcases Bool.or_eq_true_iff.mp h with h3 | h3
        · exact absurd (of_decide_eq_true h3) hy
        · exact h3
      exact ih h2

lemma mapGet_mapSet_self (bs : List Block) (b : Block) :
    mapGet (mapSet bs b) b.id = some b := by
  rw [mapSet]
  split
  case isTrue h => exact find?_map_replace_self bs b h
  case isFalse h =>
    rw [mapGet, List.find?_append]
    have h1 : bs.find? (fun c => c.id = b.id) = none := by
      rw [List.find?_eq_none]
      intro x hx
      simp only [decide_eq_true_eq]
      intro heq
      rw [List.any_eq_true] at h
      exact h ⟨x, hx, by simp [heq]⟩
    rw [h1]
    simp [List.find?]

lemma mapGet_mapSet_ne (bs : List Block) (b : Block) (id : String)
    (h : id ≠ b.id) : mapGet (mapSet bs b) id = mapGet bs id := by
  rw [mapSet]
  split
  case isTrue _ => exact find?_map_replace bs b id h
  case isFalse _ =>
    rw [mapGet, mapGet, List.find?_append]
    have h1 : List.find? (fun c => c.id = id) [b] = none := by
      simp [List.find?, Ne.symm h]
    rw [h1]
    simp

/-! ## Structural lemmas for the core operations -/

lemma Block.make_eq_some {d : BlockData} {b : Block}
    (h : Block.make d = some b) :
    b.id = d.id ∧ b.title = d.title ∧ b.start = d.start ∧
    b.duration = d.duration ∧ b.color = d.color ∧
    b.isLocked = d.isLocked.getD false ∧
    d.id ≠ "" ∧ d.title ≠ "" ∧ 0 ≤ d.start ∧ 0 < d.duration ∧
    d.color ≠ "" ∧ b.priority = none ∧ b.energy = none ∧
    b.category = none ∧ b.theme = none := by
  rw [Block.make] at h
  split_ifs at h with h1 h2 h3 h4 h5
  injection h with h6
  subst h6
  push_neg at h3 h4
  exact ⟨rfl, rfl, rfl, rfl, rfl, rfl, h1, h2, h3, h4, h5,
    rfl, rfl, rfl, rfl⟩

lemma Block.make_isSome {d : BlockData} (h1 : d.id ≠ "") (h2 : d.title ≠ "")
    (h3 : 0 ≤ d.start) (h4 : 0 < d.duration) (h5 : d.color ≠ "") :
    Block.make d = some
      { id := d.id, title := d.title, start := d.start
        duration := d.duration, color := d.color
        isLocked := d.isLocked.getD false
        priority := none, energy := none, category := none
        theme := none } := by
  rw [Block.make, if_neg h1, if_neg h2, if_neg (not_lt.mpr h3),
    if_neg (not_le.mpr h4), if_neg h5]

lemma adjustStart_ok_fields (st : Timeline) :
    ∀ (fuel : ℕ) (d nd : BlockData),
      st.adjustStartToAvoidConflicts fuel d = .ok nd →
      nd.id = d.id ∧ nd.title = d.title ∧ nd.duration = d.duration ∧
      nd.color = d.color ∧ nd.isLocked = d.isLocked := by
  intro fuel
  induction fuel with
  | zero => intro d nd h; cases h
  | succ n ih =>
    intro d nd h
    rw [Timeline.adjustStartToAvoidConflicts] at h
    split at h
    · cases h
    · split at h
      · have hf := ih _ _ h
        exact ⟨hf.1, hf.2.1, hf.2.2.1, hf.2.2.2.1, hf.2.2.2.2⟩
      · injection h with h2
        subst h2
        exact ⟨rfl, rfl, rfl, rfl, rfl⟩

lemma BlocksEvolve.refl (bs : List Block) : BlocksEvolve bs bs :=
  List.forall₂_same.mpr (fun _ _ => ⟨rfl, rfl, fun _ => ⟨rfl, rfl⟩⟩)

lemma BlocksEvolve.trans {a b c : List Block} (h1 : BlocksEvolve a b)
    (h2 : BlocksEvolve b c) : BlocksEvolve a c := by
  induction h1 generalizing c with
  | nil => cases h2; exact List.Forall₂.nil
  | @cons x y xs ys hxy _ ih =>
    cases h2 with
    | cons hyz h2' =>
      refine List.Forall₂.cons ?_ (ih h2')
      obtain ⟨hid1, hlk1, hsd1⟩ := hxy
      obtain ⟨hid2, hlk2, hsd2⟩ := hyz
      refine ⟨hid2.trans hid1, hlk2.trans hlk1, fun hl => ?_⟩
      obtain ⟨hs1, hd1⟩ := hsd1 hl
      obtain ⟨hs2, hd2⟩ := hsd2 (hlk1.trans hl)
      exact ⟨hs2.trans hs1, hd2.trans hd1⟩

lemma BlocksEvolve.ids_eq {bs bs' : List Block} (h : BlocksEvolve bs bs') :
    bs'.map Block.id = bs.map Block.id := by
  induction h with
  | nil => rfl
  | cons hxy _ ih => simp [ih, hxy.1]

lemma BlocksEvolve.locked_mem {bs bs' : List Block} (h : BlocksEvolve bs bs')
    {b : Block} (hb : b ∈ bs) (hl : b.isLocked = true) :
    ∃ b' ∈ bs', b'.id = b.id ∧ b'.isLocked = true ∧
      b'.start = b.start ∧ b'.duration = b.duration := by
  induction h with
  | nil => cases hb
  | @cons x y xs ys hxy _ ih =>
    rcases List.mem_cons.mp hb with rfl | hb
    · exact ⟨y, List.mem_cons_self _ _, hxy.1, hxy.2.1.trans hl,
        (hxy.2.2 hl).1, (hxy.2.2 hl).2⟩
    · obtain ⟨b', hb', hprops⟩ := ih hb
      exact ⟨b', List.mem_cons_of_mem _ hb', hprops⟩

lemma mem_of_find?_id {bs : List Block} {id : String} {b : Block}
    (h : mapGet bs id = some b) : b ∈ bs ∧ b.id = id := by
  rw [mapGet] at h
  refine ⟨List.mem_of_find?_eq_some h, ?_⟩
  have := List.find?_some h
  simpa using this

/-- Replacing the (unique) block found under an id by a block with the same
id and lock flag — and, if that block is locked, the same start/duration —
is an evolution step.  This is the shape of every collection write the
shuffle code performs. -/
lemma blocksEvolve_mapSet (bs : List Block) (b nb : Block)
    (hnd : (bs.map Block.id).Nodup)
    (hfind : mapGet bs b.id = some b)
    (hid : nb.id = b.id) (hlk : nb.isLocked = b.isLocked)
    (hlocked : b.isLocked = true →
      nb.start = b.start ∧ nb.duration = b.duration) :
    BlocksEvolve bs (mapSet bs nb) := by
  have hmem : b ∈ bs := (mem_of_find?_id hfind).1
  have hany : bs.any (fun x => x.id = nb.id) = true := by
    rw [List.any_eq_true]
    exact ⟨b, hmem, by simp [hid]⟩
  rw [mapSet, if_pos hany]
  rw [BlocksEvolve, List.forall₂_map_right_iff]
  refine List.forall₂_same.mpr (fun x hx => ?_)
  by_cases hxid : x.id = nb.id
  · have hxb : x = b := by
      have hinj := List.inj_on_of_nodup_map hnd
      exact @hinj x hx b hmem (by rw [hxid, hid])
    subst hxb
    rw [if_pos hxid]
    exact ⟨hid, hlk, hlocked⟩
  · rw [if_neg hxid]
    exact ⟨rfl, rfl, fun _ => ⟨rfl, rfl⟩⟩

/-- `updateBlock` never changes the settings or the id list, and never
touches a locked block: its state change is an evolution step. -/
lemma updateBlock_evolves (st : Timeline) (id : String) (data : UpdateData)
    (hnd : (st.blocks.map Block.id).Nodup) :
    BlocksEvolve st.blocks (st.updateBlock id data).1.blocks ∧
    (st.updateBlock id data).1.isWrappingEnabled = st.isWrappingEnabled ∧
    (st.updateBlock id data).1.allowOverlap = st.allowOverlap ∧
    (st.updateBlock id data).1.nextId = st.nextId := by
  rw [Timeline.updateBlock]
  cases hg : mapGet st.blocks id with
  | none => exact ⟨BlocksEvolve.refl _, rfl, rfl, rfl⟩
  | some b =>
    dsimp only
    by_cases hl : b.isLocked
    · rw [if_pos hl]
      exact ⟨BlocksEvolve.refl _, rfl, rfl, rfl⟩
    · rw [if_neg hl]
      have hbid : b.id = id := (mem_of_find?_id hg).2
      have happly : ∀ data' : UpdateData,
          BlocksEvolve st.blocks (mapSet st.blocks (b.update data')) := by
        intro data'
        refine blocksEvolve_mapSet st.blocks b (b.update data') hnd
          (hbid ▸ hg) rfl rfl (fun hlk => absurd hlk (by simp [hl]))
      split
      · split
        · exact ⟨BlocksEvolve.refl _, rfl, rfl, rfl⟩
        · split
          · exact ⟨BlocksEvolve.refl _, rfl, rfl, rfl⟩
          · exact ⟨happly _, rfl, rfl, rfl⟩
      · exact ⟨happly _, rfl, rfl, rfl⟩

lemma Block.setTagField_fields (b : Block) (k : TagKind) (v : String) :
    (b.setTagField k v).id = b.id ∧ (b.setTagField k v).isLocked = b.isLocked
    ∧ (b.setTagField k v).start = b.start ∧
    (b.setTagField k v).duration = b.duration := by
  cases k <;> exact ⟨rfl, rfl, rfl, rfl⟩

lemma setTag_evolves (st : Timeline) (id : String) (kind : TagKind)
    (v : String) (hnd : (st.blocks.map Block.id).Nodup) :
    BlocksEvolve st.blocks (st.setTag id kind v).blocks ∧
    (st.setTag id kind v).isWrappingEnabled = st.isWrappingEnabled ∧
    (st.setTag id kind v).allowOverlap = st.allowOverlap := by
  rw [Timeline.setTag]
  cases hg : mapGet st.blocks id with
  | none => exact ⟨BlocksEvolve.refl _, rfl, rfl⟩
  | some b =>
    have hbid : b.id = id := (mem_of_find?_id hg).2
    obtain ⟨hi, hl, hs, hd⟩ := b.setTagField_fields kind v
    refine ⟨blocksEvolve_mapSet st.blocks b _ hnd (hbid ▸ hg) hi hl
      (fun _ => ⟨hs, hd⟩), rfl, rfl⟩

lemma setBlockStart_evolves (st : Timeline) (id : String) (x : ℚ)
    (hnd : (st.blocks.map Block.id).Nodup)
    (hunlocked : ∀ b, mapGet st.blocks id = some b → b.isLocked = false) :
    BlocksEvolve st.blocks (st.setBlockStart id x).blocks ∧
    (st.setBlockStart id x).isWrappingEnabled = st.isWrappingEnabled ∧
    (st.setBlockStart id x).allowOverlap = st.allowOverlap := by
  rw [Timeline.setBlockStart]
  cases hg : mapGet st.blocks id with
  | none => exact ⟨BlocksEvolve.refl _, rfl, rfl⟩
  | some b =>
    have hbid : b.id = id := (mem_of_find?_id hg).2
    refine ⟨blocksEvolve_mapSet st.blocks b _ hnd (hbid ▸ hg) rfl rfl
      (fun hlk => absurd (hunlocked b hg) (by simp [hlk])), rfl, rfl⟩

/-- `mapGet` transport along an evolution: a lookup in the evolved list finds
a block with the same id and lock flag as the original lookup. -/
lemma BlocksEvolve.mapGet_some {bs bs' : List Block}
    (h : BlocksEvolve bs bs') (id : String) {b' : Block}
    (hg : mapGet bs' id = some b') :
    ∃ b, mapGet bs id = some b ∧ b'.isLocked = b.isLocked := by
  induction h with
  | nil => cases hg
  | @cons x y xs ys hxy _ ih =>
    rw [mapGet] at hg ⊢
    by_cases hx : x.id = id
    · rw [List.find?_cons_of_pos _ (by simp [hx])]
      rw [List.find?_cons_of_pos _ (by simp [hxy.1, hx])] at hg
      injection hg with hg
      exact ⟨x, rfl, hg ▸ hxy.2.1⟩
    · rw [List.find?_cons_of_neg _ (by simp [hx])]
      rw [List.find?_cons_of_neg _ (by simp [hxy.1, hx])] at hg
      exact ih hg

/-- An id of the unlocked filter denotes an unlocked block, also after any
evolution of the collection. -/
lemma unlocked_id_stays_unlocked {st₀ : Timeline} {st : Timeline}
    (hnd : (st₀.blocks.map Block.id).Nodup)
    (hev : BlocksEvolve st₀.blocks st.blocks) {id : String}
    (hid : id ∈ (st₀.blocks.filter (fun b => !b.isLocked)).map Block.id) :
    ∀ b, mapGet st.blocks id = some b → b.isLocked = false := by
  intro b hg
  obtain ⟨u, hu, hlku⟩ := hev.mapGet_some id hg
  obtain ⟨w, hw, hwid⟩ := List.mem_map.mp hid
  obtain ⟨hwmem, hwunlocked⟩ := List.mem_filter.mp hw
  have humem : u ∈ st₀.blocks := (mem_of_find?_id hu).1
  have huid : u.id = id := (mem_of_find?_id hu).2
  have huw : u = w := by
    have hinj := List.inj_on_of_nodup_map hnd
    exact @hinj u humem w hwmem (by rw [huid, hwid])
  rw [hlku, huw]
  simpa using hwunlocked

/-- Generic invariant preservation along a strategy's block fold. -/
lemma foldl_inv {σ β : Type} (inv : σ → Prop) (step : σ → β → σ)
    (l : List β) (Q : β → Prop) (hl : ∀ x ∈ l, Q x) (s0 : σ) (h0 : inv s0)
    (hstep : ∀ s x, Q x → inv s → inv (step s x)) :
    inv (l.foldl step s0) := by
  induction l generalizing s0 with
  | nil => exact h0
  | cons y ys ih =>
    exact ih (fun x hx => hl x (List.mem_cons_of_mem _ hx)) _
      (hstep s0 y (hl y (List.mem_cons_self _ _)) h0)

/-! ## C10: duplicated blocks are unlocked -/

/-- C10.  `Block.duplicate` omits `isLocked`, the constructor defaults a
missing `isLocked` to `false`, and hence `duplicateBlock` always inserts an
unlocked copy, whatever the lock state of the original. -/
theorem duplicateBlock_produces_unlocked :
    (∀ (b : Block) (newId : String),
      (b.duplicateData newId).isLocked = none) ∧
    (∀ (d : BlockData) (b : Block), d.isLocked = none →
      Block.make d = some b → b.isLocked = false) ∧
    (∀ (st : Timeline) (id : String) (fuel : ℕ) (st' : Timeline)
        (nid : String), st.duplicateBlock id fuel = (st', .ok nid) →
      ∃ nb, mapGet st'.blocks nid = some nb ∧ nb.isLocked = false) := by
  refine ⟨fun _ _ => rfl, ?_, ?_⟩
  · intro d b hnone hmk
    have := (Block.make_eq_some hmk).2.2.2.2.2.1
    rw [this, hnone]
    rfl
  · intro st id fuel st' nid h
    rw [Timeline.duplicateBlock] at h
    cases hg : mapGet st.blocks id with
    | none => rw [hg] at h; cases h
    | some orig =>
      rw [hg] at h
      dsimp only at h
      rcases hadj : (if (!st.allowOverlap) = true then
          Timeline.adjustStartToAvoidConflicts
            { st with nextId := st.nextId + 1 } fuel
            (orig.duplicateData (st.generateUniqueId))
        else AdjustResult.ok (orig.duplicateData (st.generateUniqueId)))
        with nd | _ | _
      all_goals rw [hadj] at h
      all_goals dsimp only at h
      · have hndLocked : nd.isLocked = none := by
          split at hadj
          · exact (adjustStart_ok_fields _ fuel _ nd hadj).2.2.2.2
          · injection hadj with h2; rw [← h2]; rfl
        cases hmk : Block.make nd with
        | none => rw [hmk] at h; cases h
        | some newBlock =>
          rw [hmk] at h
          dsimp only at h
          have hfields := Block.make_eq_some hmk
          have hnidEq : nid = st.generateUniqueId := by
            have := congrArg Prod.snd h
            simpa using this.symm
          have hndid : nd.id = st.generateUniqueId := by
            split at hadj
            · exact (adjustStart_ok_fields _ fuel _ nd hadj).1
            · injection hadj with h2; rw [← h2]; rfl
          have hst' : st' =
              { st with nextId := st.nextId + 1
                        blocks := mapSet st.blocks newBlock } := by
            have := congrArg Prod.fst h
            simpa using this.symm
          refine ⟨newBlock, ?_, ?_⟩
          · rw [hst']
            have : newBlock.id = nid := by
              rw [hfields.1, hndid, hnidEq]
            rw [← this]
            exact mapGet_mapSet_self _ _
          · rw [hfields.2.2.2.2.2.1, hndLocked]
            rfl
      · cases h
      · cases h

section
attribute [local semireducible] Rat.add Rat.sub Rat.mul Rat.inv
  Rat.ofScientific

/-- Witness for C10 at a concrete locked block: the duplicate of the locked
`block_0` is inserted unlocked. -/
theorem duplicateBlock_produces_unlocked_witness :
    ∃ nb, mapGet (((mkTimeline false false 1
        [wBlock "block_0" "a" 0 1 true]).duplicateBlock
        "block_0" 5).1).blocks "block_1" = some nb ∧ nb.isLocked = false :=
  duplicateBlock_produces_unlocked.2.2
    (mkTimeline false false 1 [wBlock "block_0" "a" 0 1 true]) "block_0" 5
    ((mkTimeline false false 1
      [wBlock "block_0" "a" 0 1 true]).duplicateBlock "block_0" 5).1
    "block_1" (by decide)

end

/-! ## C7: rejected calls are all-or-nothing -/

/-- Shape of an `updateBlock` outcome as a pair: failure and exception leave
the state untouched; otherwise the result is `true`. -/
lemma updateBlock_shape (st : Timeline) (id : String) (data : UpdateData) :
    st.updateBlock id data = (st, .fls) ∨
    st.updateBlock id data = (st, .threw) ∨
    (st.updateBlock id data).2 = .tru := by
  rw [Timeline.updateBlock]
  cases hg : mapGet st.blocks id with
  | none => exact Or.inl rfl
  | some b =>
    dsimp only
    by_cases hl : b.isLocked
    · rw [if_pos hl]; exact Or.inl rfl
    · rw [if_neg hl]
      split
      · split
        · exact Or.inr (Or.inl rfl)
        · split
          · exact Or.inl rfl
          · exact Or.inr (Or.inr rfl)
      · exact Or.inr (Or.inr rfl)

/-- Shape of an `addBlock` outcome: a throw or rejection only bumps the id
counter; a success inserts exactly the validated block, which passed the
conflict check (or overlap was allowed). -/
lemma addBlock_shape (st : Timeline) (d : AddData) :
    ((st.addBlock d).1 = bumpId st ∧
      ((st.addBlock d).2 = .threw ∨ (st.addBlock d).2 = .rejected)) ∨
    (∃ bl, Block.make (addCompleteData st d) = some bl ∧
      (st.allowOverlap = true ∨ st.hasConflict bl none = false) ∧
      st.addBlock d = (insertBlock st bl, .ok st.generateUniqueId)) := by
  rw [Timeline.addBlock]
  dsimp only
  cases hm : Block.make (addCompleteData st d) with
  | none =>
    rw [show (Block.make { id := st.generateUniqueId, title := d.title, start := d.start, duration := d.duration, color := hexToHsl d.color, isLocked := none } : Option Block) = Block.make (addCompleteData st d) from rfl, hm]
    exact Or.inl ⟨rfl, Or.inl rfl⟩
  | some bl =>
    rw [show (Block.make { id := st.generateUniqueId, title := d.title, start := d.start, duration := d.duration, color := hexToHsl d.color, isLocked := none } : Option Block) = Block.make (addCompleteData st d) from rfl, hm]
    dsimp only
    split
    · exact Or.inl ⟨rfl, Or.inr rfl⟩
    · next hcond =>
      right
      refine ⟨bl, rfl, ?_, rfl⟩
      have h2 := eq_false_of_ne_true hcond
      rcases Bool.and_eq_false_iff.mp h2 with h3 | h3
      · exact Or.inl (by simpa using h3)
      · exact Or.inr h3

/-- C7.  A rejected `addBlock` (`null` return) leaves the block collection
and every setting unchanged, and a failed `updateBlock` (`false` return —
unknown id, locked block, or conflict) returns the state exactly as it was.
(The id-generation counter, which models the wall clock consumed by
`generateUniqueId`, is not part of the collection.) -/
theorem rejected_calls_leave_prior_state :
    (∀ (st : Timeline) (d : AddData), (st.addBlock d).2 = .rejected →
      (st.addBlock d).1.blocks = st.blocks ∧
      (st.addBlock d).1.isWrappingEnabled = st.isWrappingEnabled ∧
      (st.addBlock d).1.allowOverlap = st.allowOverlap ∧
      (st.addBlock d).1.use24HourFormat = st.use24HourFormat) ∧
    (∀ (st : Timeline) (id : String) (d : UpdateData),
      (st.updateBlock id d).2 = .fls → (st.updateBlock id d).1 = st) := by
  constructor
  · intro st d h
    rcases addBlock_shape st d with ⟨h1, _⟩ | ⟨bl, _, _, hpair⟩
    · rw [h1]
      exact ⟨rfl, rfl, rfl, rfl⟩
    · rw [hpair] at h
      cases h
  · intro st id d h
    rcases updateBlock_shape st id d with hp | hp | hp
    · rw [hp]
    · rw [hp] at h
      cases h
    · rw [h] at hp
      cases hp

section
attribute [local semireducible] Rat.add Rat.sub Rat.mul Rat.inv
  Rat.ofScientific

/-- Witness for C7: adding `{start 1, duration 1}` to a timeline already
holding `[0, 2)` is rejected and changes nothing; a conflicting update of
`block_1` is refused and changes nothing. -/
theorem rejected_calls_leave_prior_state_witness :
    (((mkTimeline false false 1 [wBlock "block_0" "a" 0 2 false]).addBlock
        ⟨"b", 1, 1, "#ff0000"⟩).1.blocks =
      [wBlock "block_0" "a" 0 2 false]) ∧
    (((mkTimeline false false 2 [wBlock "block_0" "a" 0 2 false,
        wBlock "block_1" "b" 3 1 false]).updateBlock
        "block_1" ⟨none, some 1, none, none⟩).1 =
      mkTimeline false false 2 [wBlock "block_0" "a" 0 2 false,
        wBlock "block_1" "b" 3 1 false]) :=
  ⟨(rejected_calls_leave_prior_state.1 _ _ (by decide)).1,
    rejected_calls_leave_prior_state.2 _ "block_1" _ (by decide)⟩

end

/-! ## C5: two wrapping ranges always overlap -/

/-- C5.  With wrap allowed, whenever both ranges wrap past midnight (their
normalized, midnight-corrected ends are ≤ their normalized starts), both
overlap predicates return `true`: `timeRangesOverlap` by its both-wrap
shortcut, and `blocksOverlap` by its both-wrap shortcut (or the ≥24h-duration
special case). -/
theorem bothwrap_ranges_always_overlap :
    (∀ s1 e1 s2 e2 : ℚ,
      (if jsMod e1 24 = 0 then 24 else jsMod e1 24) ≤ jsMod s1 24 →
      (if jsMod e2 24 = 0 then 24 else jsMod e2 24) ≤ jsMod s2 24 →
      timeRangesOverlap s1 e1 s2 e2 true = true) ∧
    (∀ a b : Block,
      jsMod (jsMod (a.start * 60) 1440 + a.duration * 60) 1440 ≤
        jsMod (a.start * 60) 1440 →
      jsMod (jsMod (b.start * 60) 1440 + b.duration * 60) 1440 ≤
        jsMod (b.start * 60) 1440 →
      blocksOverlap true a b = true) := by
  constructor
  · intro s1 e1 s2 e2 h1 h2
    simp only [timeRangesOverlap, decide_eq_true h1, decide_eq_true h2]
    simp
  · intro a b h1 h2
    by_cases hd : 24 ≤ a.duration ∨ 24 ≤ b.duration
    · simp only [blocksOverlap]
      simp [hd]
    · simp only [blocksOverlap]
      simp [hd, h1, h2]

section
attribute [local semireducible] Rat.add Rat.sub Rat.mul Rat.inv
  Rat.ofScientific

/-- Witness for C5: the ranges 23→25 and 22→26 (both crossing midnight) and
the blocks `{start 23, duration 2}`, `{start 22, duration 3}`. -/
theorem bothwrap_ranges_always_overlap_witness :
    timeRangesOverlap 23 25 22 26 true = true ∧
    blocksOverlap true
      ⟨"a", "t", 23, 2, "c", false, none, none, none, none⟩
      ⟨"b", "t", 22, 3, "c", false, none, none, none, none⟩ = true :=
  ⟨bothwrap_ranges_always_overlap.1 23 25 22 26 (by decide) (by decide),
    bothwrap_ranges_always_overlap.2 _ _ (by decide) (by decide)⟩

/-! ## C6: the two overlap predicates are not equal, but agree in-day -/

/-- Counterexample to C6.  The two overlap primitives differ: with wrap
enabled, `blocksOverlap` uses an inclusive comparison (`bStart <= aEnd`)
where `timeRangesOverlap` is strict, so the wrapped block 23→25 against
1→2 yields `true` vs `false`; with wrap disabled, `blocksOverlap` uses raw
(unnormalized) times where `timeRangesOverlap` normalizes mod 24, so
25→26 against 1→2 yields `false` vs `true`. -/
theorem overlap_predicates_differ :
    (blocksOverlap true (wBlock "a" "t" 23 2 false)
        (wBlock "b" "t" 1 1 false) = true ∧
      timeRangesOverlap 23 (23 + 2) 1 (1 + 1) true = false) ∧
    (blocksOverlap false (wBlock "a" "t" 25 1 false)
        (wBlock "b" "t" 1 1 false) = false ∧
      timeRangesOverlap 25 (25 + 1) 1 (1 + 1) false = true) := by
  decide

end

/-- C6 as amended.  The overlap primitive used by the shuffle strategies
agrees with the one used by single-block edits whenever wrap is disabled and
both blocks lie within the day (`0 ≤ start`, `start + duration ≤ 24`,
`duration > 0`); with wrap enabled, or for blocks overhanging hour 24, the
two predicates can disagree (see `overlap_predicates_differ`). -/
theorem overlap_predicates_agree_nonwrap (a b : Block)
    (ha1 : 0 ≤ a.start) (ha2 : a.start + a.duration ≤ 24)
    (ha3 : 0 < a.duration)
    (hb1 : 0 ≤ b.start) (hb2 : b.start + b.duration ≤ 24)
    (hb3 : 0 < b.duration) :
    blocksOverlap false a b =
      timeRangesOverlap a.start (a.start + a.duration) b.start
        (b.start + b.duration) false := by
  have haS : a.start < 24 := by linarith
  have hbS : b.start < 24 := by linarith
  have hsa : jsMod a.start 24 = a.start := jsMod_eq_self _ _ ha1 haS
  have hsb : jsMod b.start 24 = b.start := jsMod_eq_self _ _ hb1 hbS
  have hea : (if jsMod (a.start + a.duration) 24 = 0 then (24:ℚ)
      else jsMod (a.start + a.duration) 24) = a.start + a.duration := by
    rcases lt_or_eq_of_le ha2 with h | h
    · rw [jsMod_eq_self _ _ (by linarith) h]
      rw [if_neg (by intro h0; linarith)]
    · rw [h, jsMod_self 24 (by norm_num), if_pos rfl]
  have heb : (if jsMod (b.start + b.duration) 24 = 0 then (24:ℚ)
      else jsMod (b.start + b.duration) 24) = b.start + b.duration := by
    rcases lt_or_eq_of_le hb2 with h | h
    · rw [jsMod_eq_self _ _ (by linarith) h]
      rw [if_neg (by intro h0; linarith)]
    · rw [h, jsMod_self 24 (by norm_num), if_pos rfl]
  rw [blocksOverlap, timeRangesOverlap]
  simp only [hsa, hsb, hea, heb]
  have hwa : decide (a.start + a.duration ≤ a.start) = false :=
    decide_eq_false (by intro h; linarith)
  have hwb : decide (b.start + b.duration ≤ b.start) = false :=
    decide_eq_false (by intro h; linarith)
  simp only [hwa, hwb]
  simp

section
attribute [local semireducible] Rat.add Rat.sub Rat.mul Rat.inv
  Rat.ofScientific

/-- Witness for the amended C6 at in-day blocks `[1,3)` and `[2,5)`. -/
theorem overlap_predicates_agree_nonwrap_witness :
    blocksOverlap false (wBlock "a" "t" 1 2 false)
        (wBlock "b" "t" 2 3 false) =
      timeRangesOverlap (wBlock "a" "t" 1 2 false).start
        ((wBlock "a" "t" 1 2 false).start + (wBlock "a" "t" 1 2 false).duration)
        (wBlock "b" "t" 2 3 false).start
        ((wBlock "b" "t" 2 3 false).start +
          (wBlock "b" "t" 2 3 false).duration) false :=
  overlap_predicates_agree_nonwrap _ _ (by decide) (by decide) (by decide)
    (by decide) (by decide) (by decide)

end

/-! ## Support lemmas for the collection invariants (C1, C9) -/

/-- `blocksOverlap` reads only `start` and `duration` of its arguments. -/
lemma blocksOverlap_congr_left {w : Bool} {a a' b : Block}
    (hs : a'.start = a.start) (hd : a'.duration = a.duration) :
    blocksOverlap w a' b = blocksOverlap w a b := by
  rw [blocksOverlap, blocksOverlap, hs, hd]

/-- `blocksOverlap` is symmetric. -/
lemma blocksOverlap_comm (w : Bool) (a b : Block) :
    blocksOverlap w a b = blocksOverlap w b a := by
  cases w with
  | false =>
    simp only [blocksOverlap, Bool.not_false, if_true, decide_eq_decide]
    constructor
    · rintro ⟨h1, h2⟩; exact ⟨h2, h1⟩
    · rintro ⟨h1, h2⟩; exact ⟨h2, h1⟩
  | true =>
    simp only [blocksOverlap, Bool.not_true]
    set sa := jsMod (a.start * 60) 1440
    set sb := jsMod (b.start * 60) 1440
    set ea := jsMod (sa + a.duration * 60) 1440
    set eb := jsMod (sb + b.duration * 60) 1440
    simp only [Bool.false_eq_true, if_false]
    by_cases hd : 24 ≤ a.duration ∨ 24 ≤ b.duration
    · rw [if_pos hd, if_pos (Or.symm hd)]
    · rw [if_neg hd, if_neg (fun h => hd (Or.symm h))]
      by_cases haw : ea ≤ sa <;> by_cases hbw : eb ≤ sb
      · rw [if_neg (fun h => h.1 haw), if_pos ⟨haw, hbw⟩,
          if_neg (fun h => h.1 hbw), if_pos ⟨hbw, haw⟩]
      · rw [if_neg (fun h => h.1 haw), if_neg (fun h => hbw h.2),
          if_pos haw, if_neg (fun h => h.2 haw), if_neg (fun h => hbw h.1),
          if_neg hbw]
      · rw [if_neg (fun h => h.2 hbw), if_neg (fun h => haw h.1),
          if_neg haw, if_neg (fun h => h.1 hbw), if_neg (fun h => haw h.2),
          if_pos hbw]
      · rw [if_pos ⟨haw, hbw⟩, if_pos ⟨hbw, haw⟩, decide_eq_decide]
        constructor
        · rintro ⟨h1, h2⟩; exact ⟨h2, h1⟩
        · rintro ⟨h1, h2⟩; exact ⟨h2, h1⟩

/-- Extraction from a false `hasConflict`: every non-skipped stored block is
overlap-free against the tested block. -/
lemma hasConflict_false_pairwise {st : Timeline} {block : Block}
    {excludeId : Option String} (hov : st.allowOverlap = false)
    (h : st.hasConflict block excludeId = false) :
    ∀ eb ∈ st.blocks, ¬(excludeId = some eb.id) → eb.id ≠ block.id →
      blocksOverlap st.isWrappingEnabled block eb = false := by
  intro eb hmem hskip1 hskip2
  rw [Timeline.hasConflict] at h
  split at h
  · next hcond =>
    rcases Bool.or_eq_true_iff.mp hcond with hov2 | hemp
    · rw [hov] at hov2; cases hov2
    · rw [List.isEmpty_iff.mp hemp] at hmem
      cases hmem
  · have h2 := List.any_eq_false.mp h eb hmem
    rw [if_neg (not_or.mpr ⟨hskip1, hskip2⟩)] at h2
    exact Bool.eq_false_iff.mpr h2

/-- Membership in a `mapSet` result comes from the old list or is the new
block. -/
lemma mem_mapSet_cases {bs : List Block} {b x : Block}
    (h : x ∈ mapSet bs b) : x ∈ bs ∨ x = b := by
  rw [mapSet] at h
  split at h
  · obtain ⟨y, hy, hxy⟩ := List.mem_map.mp h
    by_cases hid : y.id = b.id
    · rw [if_pos hid] at hxy; exact Or.inr hxy.symm
    · rw [if_neg hid] at hxy; exact Or.inl (hxy ▸ hy)
  · rcases List.mem_append.mp h with h2 | h2
    · exact Or.inl h2
    · simpa using Or.inr (List.mem_singleton.mp h2)

/-- A generated id is never one of the temporary test ids. -/
lemma generated_id_not_temp (s : String) :
    ("block_" ++ s) ≠ "temp-test" ∧ ("block_" ++ s) ≠ "temp-adjust" := by
  constructor <;>
  · intro h
    have h2 := congrArg String.data h
    rw [String.data_append] at h2
    have h3 : "block_".data = ['b', 'l', 'o', 'c', 'k', '_'] := rfl
    rw [h3] at h2
    simp at h2

lemma updColorConv_fields (data : UpdateData) :
    (updColorConv data).start = data.start ∧
    (updColorConv data).duration = data.duration ∧
    (updColorConv data).title = data.title := by
  rw [updColorConv]
  cases data.color with
  | none => exact ⟨rfl, rfl, rfl⟩
  | some c =>
    dsimp only
    split <;> exact ⟨rfl, rfl, rfl⟩

lemma startChangedB_false {data : UpdateData} {b : Block}
    (h : startChangedB data b = false) : data.start.getD b.start = b.start := by
  rw [startChangedB] at h
  cases hc : data.start with
  | none => rfl
  | some s =>
    rw [hc] at h
    simp only [decide_eq_false_iff_not, not_not] at h
    simp [h]

lemma durationChangedB_false {data : UpdateData} {b : Block}
    (h : durationChangedB data b = false) :
    data.duration.getD b.duration = b.duration := by
  rw [durationChangedB] at h
  cases hc : data.duration with
  | none => rfl
  | some d =>
    rw [hc] at h
    simp only [decide_eq_false_iff_not, not_not] at h
    simp [h]

/-- Shape of an `updateBlock` outcome with overlap disallowed: either the
state is untouched, or the (unlocked, existing) target is replaced in place
by a block with the same id whose geometry either did not change or was
vetted conflict-free through the `temp-test` block. -/
lemma updateBlock_conflict_shape (st : Timeline) (id : String)
    (data : UpdateData) (hov : st.allowOverlap = false) :
    (st.updateBlock id data).1 = st ∨
    ∃ b b', mapGet st.blocks id = some b ∧ b.isLocked = false ∧
      b'.id = b.id ∧ b'.isLocked = b.isLocked ∧
      (st.updateBlock id data).1 = setBlocks st (mapSet st.blocks b') ∧
      ((b'.start = b.start ∧ b'.duration = b.duration) ∨
        (∃ tb, Block.make (testData b data) = some tb ∧
          st.hasConflict tb (some id) = false ∧
          tb.start = b'.start ∧ tb.duration = b'.duration ∧
          tb.id = "temp-test")) := by
  rw [Timeline.updateBlock]
  cases hg : mapGet st.blocks id with
  | none => left; rfl
  | some b =>
    dsimp only
    by_cases hl : b.isLocked
    · rw [if_pos hl]; left; rfl
    · rw [if_neg hl]
      obtain ⟨hcs, hcd, _⟩ := updColorConv_fields data
      have hb'id : (b.update (updColorConv data)).id = b.id := rfl
      have hb'lk : (b.update (updColorConv data)).isLocked = b.isLocked := rfl
      have hb's : (b.update (updColorConv data)).start =
          (updColorConv data).start.getD b.start := rfl
      have hb'd : (b.update (updColorConv data)).duration =
          (updColorConv data).duration.getD b.duration := rfl
      by_cases hch : (startChangedB data b || durationChangedB data b) = true
      · rw [if_pos (by rw [hov]; simpa using hch)]
        cases hmk : Block.make (testData b data) with
        | none => left; rfl
        | some tb =>
          dsimp only
          by_cases hcf : st.hasConflict tb (some id) = true
          · rw [if_pos hcf]; left; rfl
          · rw [if_neg hcf]
            right
            refine ⟨b, b.update (updColorConv data), rfl,
              Bool.eq_false_iff.mpr hl, hb'id, hb'lk, rfl,
              Or.inr ⟨tb, hmk, Bool.eq_false_iff.mpr hcf, ?_, ?_, ?_⟩⟩
            · rw [hb's, hcs]
              exact ((Block.make_eq_some hmk).2.2.1).symm ▸ rfl
            · rw [hb'd, hcd]
              exact ((Block.make_eq_some hmk).2.2.2.1).symm ▸ rfl
            · exact (Block.make_eq_some hmk).1
      · rw [if_neg (by rw [hov]; simpa using hch)]
        right
        have hboth := Bool.or_eq_false_iff.mp (Bool.eq_false_iff.mpr hch)
        refine ⟨b, b.update (updColorConv data), rfl,
          Bool.eq_false_iff.mpr hl, hb'id, hb'lk, rfl, Or.inl ⟨?_, ?_⟩⟩
        · rw [hb's, hcs]
          exact startChangedB_false hboth.1
        · rw [hb'd, hcd]
          exact durationChangedB_false hboth.2

/-- Shape of a `duplicateBlock` outcome: unknown id leaves the state; a
failed adjustment only bumps the id counter; success inserts a block built
by the constructor. -/
lemma duplicateBlock_state_shape (st : Timeline) (id : String) (fuel : ℕ) :
    (st.duplicateBlock id fuel).1 = st ∨
    (st.duplicateBlock id fuel).1 = bumpId st ∨
    ∃ nb nd, Block.make nd = some nb ∧
      (st.duplicateBlock id fuel).1 = insertBlock st nb := by
  rw [Timeline.duplicateBlock]
  cases hg : mapGet st.blocks id with
  | none => left; rfl
  | some orig =>
    dsimp only
    split
    · exact Or.inr (Or.inl rfl)
    · exact Or.inr (Or.inl rfl)
    · next nd _ =>
      cases hmk : Block.make nd with
      | none => exact Or.inr (Or.inl rfl)
      | some nb => exact Or.inr (Or.inr ⟨nb, nd, hmk, rfl⟩)

/-- `updateBlock` never changes the settings. -/
lemma updateBlock_settings (st : Timeline) (id : String) (data : UpdateData) :
    (st.updateBlock id data).1.allowOverlap = st.allowOverlap ∧
    (st.updateBlock id data).1.isWrappingEnabled = st.isWrappingEnabled ∧
    (st.updateBlock id data).1.use24HourFormat = st.use24HourFormat ∧
    (st.updateBlock id data).1.nextId = st.nextId := by
  rw [Timeline.updateBlock]
  cases hg : mapGet st.blocks id with
  | none => exact ⟨rfl, rfl, rfl, rfl⟩
  | some b =>
    dsimp only
    split
    · exact ⟨rfl, rfl, rfl, rfl⟩
    · split
      · split
        · exact ⟨rfl, rfl, rfl, rfl⟩
        · split
          · exact ⟨rfl, rfl, rfl, rfl⟩
          · exact ⟨rfl, rfl, rfl, rfl⟩
      · exact ⟨rfl, rfl, rfl, rfl⟩

lemma RngNonneg.next {r : Rng} (h : RngNonneg r) :
    0 ≤ r.next.1 ∧ RngNonneg r.next.2 := ⟨h r.k, fun k => h k⟩

lemma addBlock_preserves (st : Timeline) (d : AddData)
    (hov : st.allowOverlap = false) (hnc : NoConflictPairs st)
    (htmp : NoTempIds st) :
    NoConflictPairs (st.addBlock d).1 ∧ NoTempIds (st.addBlock d).1 ∧
    (st.addBlock d).1.allowOverlap = false := by
  rcases addBlock_shape st d with ⟨h1, _⟩ | ⟨bl, hmk, hc, hpair⟩
  · rw [h1]
    exact ⟨hnc, htmp, hov⟩
  · have h1 : (st.addBlock d).1 = insertBlock st bl := by rw [hpair]
    rw [h1]
    have hcf : st.hasConflict bl none = false := by
      rcases hc with hc | hc
      · rw [hov] at hc; cases hc
      · exact hc
    have hblid : bl.id = "block_" ++ toString st.nextId :=
      (Block.make_eq_some hmk).1
    refine ⟨?_, ?_, hov⟩
    · intro a ha b hb hab
      rcases mem_mapSet_cases ha with ha' | rfl <;>
        rcases mem_mapSet_cases hb with hb' | rfl
      · exact hnc a ha' b hb' hab
      · rw [blocksOverlap_comm]
        exact hasConflict_false_pairwise hov hcf a ha' (by simp) hab
      · exact hasConflict_false_pairwise hov hcf b hb' (by simp)
          (fun he => hab he.symm)
      · exact absurd rfl hab
    · intro b hb
      rcases mem_mapSet_cases hb with hb' | rfl
      · exact htmp b hb'
      · rw [hblid]
        exact generated_id_not_temp _

lemma updateBlock_preserves (st : Timeline) (id : String) (data : UpdateData)
    (hov : st.allowOverlap = false) (hnc : NoConflictPairs st)
    (htmp : NoTempIds st) :
    NoConflictPairs (st.updateBlock id data).1 ∧
    NoTempIds (st.updateBlock id data).1 ∧
    (st.updateBlock id data).1.allowOverlap = false := by
  rcases updateBlock_conflict_shape st id data hov with h1 |
    ⟨b, b', hg, hlk, hbid, hblk, hstate, hgeo⟩
  · rw [h1]
    exact ⟨hnc, htmp, hov⟩
  · have hbmem : b ∈ st.blocks := (mem_of_find?_id hg).1
    have hbidc : b.id = id := (mem_of_find?_id hg).2
    rw [hstate]
    have hpair : ∀ a ∈ st.blocks, a.id ≠ b'.id →
        blocksOverlap st.isWrappingEnabled b' a = false := by
      intro a ha haid
      rcases hgeo with ⟨hs, hd⟩ | ⟨tb, hmk, hcf, hts, htd, htid⟩
      · rw [blocksOverlap_congr_left hs hd]
        rw [blocksOverlap_comm]
        exact hnc a ha b hbmem (fun he => haid (he.trans hbid.symm))
      · rw [blocksOverlap_congr_left hts.symm htd.symm]
        refine hasConflict_false_pairwise hov hcf a ha ?_ ?_
        · intro he
          injection he with he2
          exact haid (he2.symm.trans (hbidc.symm.trans hbid.symm))
        · intro he
          exact (htmp a ha).1 (he.trans htid)
    refine ⟨?_, ?_, hov⟩
    · intro a ha c hc hac
      rcases mem_mapSet_cases ha with ha' | rfl <;>
        rcases mem_mapSet_cases hc with hc' | rfl
      · exact hnc a ha' c hc' hac
      · rw [blocksOverlap_comm]
        exact hpair a ha' hac
      · exact hpair c hc' (fun he => hac he.symm)
      · exact absurd rfl hac
    · intro c hc
      rcases mem_mapSet_cases hc with hc' | rfl
      · exact htmp c hc'
      · rw [show c.id = b.id from hbid]
        exact htmp b hbmem

/-- C1.  Starting from any conflict-free collection with `allowOverlap`
off (in particular the fresh empty timeline), any sequence of
`addBlock`/`updateBlock` calls leaves the collection conflict-free: every
pair of distinct blocks fails `blocksOverlap`, and `hasConflict` reports
`false` for every stored block. -/
theorem no_overlap_invariant (st₀ : Timeline) (ops : List Op)
    (hov : st₀.allowOverlap = false)
    (hedit : ∀ op ∈ ops, op.isEdit = true)
    (hnc : NoConflictPairs st₀) (htmp : NoTempIds st₀) :
    NoConflictPairs (runOps st₀ ops) ∧
    ∀ a ∈ (runOps st₀ ops).blocks,
      (runOps st₀ ops).hasConflict a none = false := by
  suffices h : NoConflictPairs (runOps st₀ ops) ∧
      NoTempIds (runOps st₀ ops) ∧ (runOps st₀ ops).allowOverlap = false by
    refine ⟨h.1, ?_⟩
    intro a ha
    rw [Timeline.hasConflict]
    split
    · rfl
    · refine List.any_eq_false.mpr ?_
      intro eb hmem
      by_cases hskip : (none : Option String) = some eb.id ∨ eb.id = a.id
      · rw [if_pos hskip]; simp
      · rw [if_neg hskip]
        push_neg at hskip
        rw [h.1 a ha eb hmem (fun he => hskip.2 he.symm)]
        simp
  induction ops generalizing st₀ with
  | nil => exact ⟨hnc, htmp, hov⟩
  | cons op ops ih =>
    rw [runOps, List.foldl_cons]
    have hstep : NoConflictPairs (applyOp st₀ op) ∧
        NoTempIds (applyOp st₀ op) ∧ (applyOp st₀ op).allowOverlap = false := by
      cases op with
      | add d => exact addBlock_preserves st₀ d hov hnc htmp
      | update id d => exact updateBlock_preserves st₀ id d hov hnc htmp
      | dup id fuel =>
        exact absurd (hedit _ (List.mem_cons_self _ _)) (by simp [Op.isEdit])
      | shuffle strategy rng =>
        exact absurd (hedit _ (List.mem_cons_self _ _)) (by simp [Op.isEdit])
    exact ih (applyOp st₀ op) hstep.2.2
      (fun o ho => hedit o (List.mem_cons_of_mem _ ho)) hstep.1 hstep.2.1

section
attribute [local semireducible] Rat.add Rat.sub Rat.mul Rat.inv
  Rat.ofScientific

/-- Witness for C1: from the empty timeline, add `[0,2)`, then a conflicting
`[1,1)` (rejected), then `[3,1)`; the final collection is pairwise
conflict-free. -/
theorem no_overlap_invariant_witness :
    NoConflictPairs (runOps emptyTimeline
      [Op.add ⟨"a", 0, 2, "#ff0000"⟩, Op.add ⟨"b", 1, 1, "#00ff00"⟩,
        Op.add ⟨"c", 3, 1, "#0000ff"⟩]) :=
  (no_overlap_invariant emptyTimeline _ rfl (by decide)
    (fun a ha => absurd ha (by simp [emptyTimeline]))
    (fun b hb => absurd hb (by simp [emptyTimeline]))).1

end

/-! ## Support lemmas for the start-range invariant (C9) -/

lemma startsValid_mapSet {bs : List Block}
    (h : ∀ c ∈ bs, 0 ≤ c.start ∧ 0 < c.duration) {b : Block}
    (hs : 0 ≤ b.start) (hd : 0 < b.duration) :
    ∀ c ∈ mapSet bs b, 0 ≤ c.start ∧ 0 < c.duration := fun c hc =>
  (mem_mapSet_cases hc).elim (h c) (fun he => he ▸ ⟨hs, hd⟩)

lemma addBlock_startsValid (st : Timeline) (d : AddData)
    (hsv : StartsValid st) : StartsValid (st.addBlock d).1 := by
  rcases addBlock_shape st d with ⟨h1, _⟩ | ⟨bl, hmk, _, hpair⟩
  · rw [h1]; exact hsv
  · have h1 : (st.addBlock d).1 = insertBlock st bl := by rw [hpair]
    rw [h1]
    obtain ⟨_, _, hs, hd, _, _, _, _, hs0, hd0, _⟩ := Block.make_eq_some hmk
    exact startsValid_mapSet hsv (hs ▸ hs0) (hd ▸ hd0)

lemma updateBlock_startsValid (st : Timeline) (id : String)
    (data : UpdateData) (hov : st.allowOverlap = false)
    (hsv : StartsValid st) : StartsValid (st.updateBlock id data).1 := by
  rcases updateBlock_conflict_shape st id data hov with h1 |
    ⟨b, b', hg, _, _, _, hstate, hgeo⟩
  · rw [h1]; exact hsv
  · rw [hstate]
    have hb := hsv b (mem_of_find?_id hg).1
    rcases hgeo with ⟨hs, hd⟩ | ⟨tb, hmk, _, hts, htd, _⟩
    · exact startsValid_mapSet hsv (hs ▸ hb.1) (hd ▸ hb.2)
    · obtain ⟨_, _, hs, hd, _, _, _, _, hs0, hd0, _⟩ :=
        Block.make_eq_some hmk
      exact startsValid_mapSet hsv (hts ▸ hs ▸ hs0) (htd ▸ hd ▸ hd0)

lemma duplicateBlock_startsValid (st : Timeline) (id : String) (fuel : ℕ)
    (hsv : StartsValid st) : StartsValid (st.duplicateBlock id fuel).1 := by
  rcases duplicateBlock_state_shape st id fuel with h1 | h1 | ⟨nb, nd, hmk, h1⟩
  · rw [h1]; exact hsv
  · rw [h1]; exact hsv
  · rw [h1]
    obtain ⟨_, _, hs, hd, _, _, _, _, hs0, hd0, _⟩ := Block.make_eq_some hmk
    exact startsValid_mapSet hsv (hs ▸ hs0) (hd ▸ hd0)

lemma setTag_startsValid (st : Timeline) (id : String) (kind : TagKind)
    (v : String) (hsv : StartsValid st) : StartsValid (st.setTag id kind v) := by
  rw [Timeline.setTag]
  cases hg : mapGet st.blocks id with
  | none => exact hsv
  | some b =>
    have hb := hsv b (mem_of_find?_id hg).1
    obtain ⟨_, _, hs, hd⟩ := b.setTagField_fields kind v
    exact startsValid_mapSet hsv (hs ▸ hb.1) (hd ▸ hb.2)

lemma setBlockStart_startsValid (st : Timeline) (id : String) (x : ℚ)
    (hx : 0 ≤ x) (hsv : StartsValid st) :
    StartsValid (st.setBlockStart id x) := by
  rw [Timeline.setBlockStart]
  cases hg : mapGet st.blocks id with
  | none => exact hsv
  | some b =>
    have hb := hsv b (mem_of_find?_id hg).1
    exact startsValid_mapSet hsv hx hb.2

lemma setTag_settings (st : Timeline) (id : String) (kind : TagKind)
    (v : String) :
    (st.setTag id kind v).allowOverlap = st.allowOverlap ∧
    (st.setTag id kind v).isWrappingEnabled = st.isWrappingEnabled := by
  rw [Timeline.setTag]
  cases mapGet st.blocks id with
  | none => exact ⟨rfl, rfl⟩
  | some b => exact ⟨rfl, rfl⟩

lemma setBlockStart_settings (st : Timeline) (id : String) (x : ℚ) :
    (st.setBlockStart id x).allowOverlap = st.allowOverlap ∧
    (st.setBlockStart id x).isWrappingEnabled = st.isWrappingEnabled := by
  rw [Timeline.setBlockStart]
  cases mapGet st.blocks id with
  | none => exact ⟨rfl, rfl⟩
  | some b => exact ⟨rfl, rfl⟩

lemma blockStart_nonneg {st : Timeline} (hsv : StartsValid st)
    (id : String) : 0 ≤ st.blockStart id := by
  rw [Timeline.blockStart]
  cases hg : mapGet st.blocks id with
  | none => simp
  | some b => simpa using (hsv b (mem_of_find?_id hg).1).1

lemma blockDuration_nonneg {st : Timeline} (hsv : StartsValid st)
    (id : String) : 0 ≤ st.blockDuration id := by
  rw [Timeline.blockDuration]
  cases hg : mapGet st.blocks id with
  | none => simp
  | some b => simpa using (hsv b (mem_of_find?_id hg).1).2.le

lemma nonneg_ite {c : Prop} [Decidable c] {a b : ℚ} (ha : 0 ≤ a)
    (hb : 0 ≤ b) : 0 ≤ if c then a else b := by
  split <;> assumption

lemma nonneg_jsMin {a b : ℚ} (ha : 0 ≤ a) (hb : 0 ≤ b) : 0 ≤ jsMin a b :=
  le_min ha hb

lemma nonneg_jsMin24 {x : ℚ} (hx : 0 ≤ x) : 0 ≤ jsMin 24 x :=
  le_min (by norm_num) hx

lemma jsMod24_nonneg {x : ℚ} (hx : 0 ≤ x) : 0 ≤ jsMod x 24 :=
  jsMod_nonneg _ _ hx (by norm_num)

lemma quarterRange_nonneg {a b x : ℚ} (ha : 0 ≤ a)
    (hx : x ∈ quarterRange a b) : 0 ≤ x := by
  obtain ⟨k, rfl, _⟩ := mem_quarterRange.mp hx
  positivity

lemma quarterRangeIncl_nonneg {a b x : ℚ} (ha : 0 ≤ a)
    (hx : x ∈ quarterRangeIncl a b) : 0 ≤ x := by
  simp only [quarterRangeIncl, List.mem_map, List.mem_range] at hx
  obtain ⟨k, _, rfl⟩ := hx
  positivity

lemma exists_of_findSome {α β : Type} {f : α → Option β} {b : β} :
    ∀ {l : List α}, l.findSome? f = some b → ∃ a ∈ l, f a = some b := by
  intro l
  induction l with
  | nil => intro h; cases h
  | cons x xs ih =>
    intro h
    rw [List.findSome?_cons] at h
    cases hf : f x with
    | some y =>
      rw [hf] at h
      exact ⟨x, List.mem_cons_self _ _, hf.trans h⟩
    | none =>
      rw [hf] at h
      obtain ⟨a, ha, hfa⟩ := ih h
      exact ⟨a, List.mem_cons_of_mem _ ha, hfa⟩

lemma quarterRescue_nonneg {wrap : Bool} {placed : List PlacedBlock}
    {dur h : ℚ} (hq : quarterRescue wrap placed dur = some h) : 0 ≤ h := by
  rw [quarterRescue] at hq
  obtain ⟨x, hxmem, hx⟩ := exists_of_findSome hq
  have h0 : (0:ℚ) ≤ x := quarterRange_nonneg le_rfl hxmem
  by_cases hc : (!checkForTimeConflicts placed x dur wrap) = true
  · rw [if_pos hc] at hx; injection hx with hx; exact hx ▸ h0
  · rw [if_neg hc] at hx; cases hx

lemma findValidPosition_nonneg {wrap : Bool} {placed : List PlacedBlock}
    {pref dur : ℚ} (hp : 0 ≤ pref) :
    0 ≤ findValidPosition wrap placed pref dur := by
  rw [findValidPosition]
  split
  · exact hp
  · cases hg : (quarterRange 0 24).findSome? (fun hour =>
      if !(checkForTimeConflicts placed hour dur wrap)
          && (wrap || decide (hour + dur ≤ 24)) then
        some hour
      else none) with
    | none => exact hp
    | some h =>
      obtain ⟨x, hxmem, hx⟩ := exists_of_findSome hg
      have h0 : (0:ℚ) ≤ x := quarterRange_nonneg le_rfl hxmem
      by_cases hc : (!(checkForTimeConflicts placed x dur wrap)
          && (wrap || decide (x + dur ≤ 24))) = true
      · rw [if_pos hc] at hx; injection hx with hx; exact hx ▸ h0
      · rw [if_neg hc] at hx; cases hx

lemma randomScan_nonneg {wrap allowOv : Bool} {placed : List PlacedBlock}
    {selfId : String} {dur : ℚ} :
    ∀ {fuel : ℕ} {cur pos : ℚ}, 0 ≤ cur →
      randomScan wrap allowOv placed selfId dur fuel cur = some pos →
      0 ≤ pos := by
  intro fuel
  induction fuel with
  | zero => intro cur pos _ h; cases h
  | succ n ih =>
    intro cur pos hcur h
    rw [randomScan] at h
    split at h <;> split at h <;>
      first
        | (injection h with h2; exact h2 ▸ hcur)
        | exact ih (jsMod_nonneg _ _ (by linarith) (by norm_num)) h

lemma clusteredScan_nonneg {wrap allowOv : Bool} {placed : List PlacedBlock}
    {dur : ℚ} :
    ∀ {fuel : ℕ} {cur pos : ℚ}, 0 ≤ cur →
      clusteredScan wrap allowOv placed dur fuel cur = some pos →
      0 ≤ pos := by
  intro fuel
  induction fuel with
  | zero => intro cur pos _ h; cases h
  | succ n ih =>
    intro cur pos hcur h
    rw [clusteredScan] at h
    have ht : (0:ℚ) ≤ jsMod (cur + 0.25) 24 :=
      jsMod_nonneg _ _ (by linarith) (by norm_num)
    split at h
    · injection h with h2; exact h2 ▸ ht
    · exact ih ht h

lemma getLockedBlocksAsPlaced_nonneg {st : Timeline} (hsv : StartsValid st) :
    PlacedNonneg st.getLockedBlocksAsPlaced := by
  intro p hp
  rw [Timeline.getLockedBlocksAsPlaced] at hp
  obtain ⟨b, hb, rfl⟩ := List.mem_map.mp hp
  have hbm := (List.mem_filter.mp hb).1
  exact ⟨(hsv b hbm).1, (hsv b hbm).2.le⟩

lemma gapTimePoints_nonneg {wrap : Bool} {placed : List PlacedBlock}
    (hpl : PlacedNonneg placed) :
    ∀ p ∈ gapTimePoints wrap placed, 0 ≤ p.time := by
  rw [gapTimePoints]
  have hfold : ∀ p ∈ placed.foldl
      (fun acc block =>
        let blockStart := jsMod block.start 24
        let blockEnd0 := jsMod (block.start + block.duration) 24
        let blockEnd :=
          if blockEnd0 = 0 ∧ 0 < block.duration then 24 else blockEnd0
        acc ++ [⟨blockStart, .start⟩, ⟨blockEnd, .stop⟩])
      ([] : List TimePoint), 0 ≤ p.time := by
    refine foldl_inv (fun acc : List TimePoint => ∀ p ∈ acc, (0:ℚ) ≤ p.time)
      _ placed
      (fun b => 0 ≤ b.start ∧ 0 ≤ b.duration) hpl [] (by simp) ?_
    intro acc blk hQ hacc p hp
    dsimp only at hp
    rcases List.mem_append.mp hp with hp | hp
    · exact hacc p hp
    · rcases List.mem_cons.mp hp with rfl | hp
      · exact jsMod_nonneg _ _ hQ.1 (by norm_num)
      · rcases List.mem_cons.mp hp with rfl | hp
        · dsimp only
          refine nonneg_ite (by norm_num) ?_
          exact jsMod_nonneg _ _ (by linarith [hQ.1, hQ.2]) (by norm_num)
        · cases hp
  dsimp only
  have happ : ∀ (l : List TimePoint) (q : TimePoint), 0 ≤ q.time →
      (∀ p ∈ l, (0:ℚ) ≤ p.time) → ∀ p ∈ l ++ [q], (0:ℚ) ≤ p.time := by
    intro l q hq hl p hp
    rcases List.mem_append.mp hp with hp | hp
    · exact hl p hp
    · rcases List.mem_cons.mp hp with rfl | hp
      · exact hq
      · cases hp
  split
  · split <;> split <;>
      first
        | exact hfold
        | exact happ _ ⟨24, .boundary⟩ (by norm_num) hfold
        | exact happ _ ⟨0, .boundary⟩ (by norm_num) hfold
        | exact happ _ ⟨24, .boundary⟩ (by norm_num)
            (happ _ ⟨0, .boundary⟩ (by norm_num) hfold)
  · exact hfold

lemma sweepFold_gaps_nonneg :
    ∀ (tp : List TimePoint), (∀ p ∈ tp, (0:ℚ) ≤ p.time) →
      ∀ s0 : SweepState, (∀ g ∈ s0.gaps, 0 ≤ g.start) → 0 ≤ s0.lastTime →
      (∀ g ∈ (tp.foldl sweepStep s0).gaps, 0 ≤ g.start) ∧
        0 ≤ (tp.foldl sweepStep s0).lastTime := by
  intro tp
  induction tp with
  | nil => intro _ s0 hg hl; exact ⟨hg, hl⟩
  | cons q qs ih =>
    intro htp s0 hg hl
    rw [List.foldl_cons]
    refine ih (fun p hp => htp p (List.mem_cons_of_mem _ hp)) _ ?_
      (htp q (List.mem_cons_self _ _))
    intro g hgm
    rw [sweepStep] at hgm
    dsimp only at hgm
    revert hgm
    split
    · intro hgm
      rcases List.mem_append.mp hgm with hgm | hgm
      · exact hg g hgm
      · rcases List.mem_cons.mp hgm with rfl | hgm
        · exact hl
        · cases hgm
    · intro hgm
      exact hg g hgm

lemma sweptGaps_nonneg {wrap : Bool} {tp : List TimePoint}
    (htp : ∀ p ∈ tp, (0:ℚ) ≤ p.time) :
    ∀ g ∈ sweptGaps wrap tp, 0 ≤ g.start := by
  have hsw := sweepFold_gaps_nonneg tp htp
    { gaps := [], openBlocks := 0, lastTime := 0 } (by simp) le_rfl
  rw [sweptGaps.eq_def]
  cases tp with
  | nil => dsimp only; exact hsw.1
  | cons p0 rest =>
    dsimp only
    intro g hgm
    revert hgm
    split
    · split
      · intro hgm
        rcases List.mem_append.mp hgm with hgm | hgm
        · exact hsw.1 g hgm
        · rcases List.mem_cons.mp hgm with rfl | hgm
          · exact htp _ (List.getLast_mem _)
          · cases hgm
      · intro hgm; exact hsw.1 g hgm
    · intro hgm; exact hsw.1 g hgm

lemma bestGapFallback_nonneg (wrap : Bool) (placed : List PlacedBlock)
    (dur : ℚ) : 0 ≤ bestGapFallback wrap placed dur := by
  rw [bestGapFallback]
  cases hg : ((List.range 24).map (fun n : ℕ => (n:ℚ))).findSome? (fun hour =>
    let hasConflict := checkForTimeConflicts placed hour dur wrap
    let exceedsTimeline := !wrap && decide (24 < hour + dur)
    if !hasConflict && !exceedsTimeline then some hour else none) with
  | none => norm_num
  | some h =>
    obtain ⟨x, hxmem, hx⟩ := exists_of_findSome hg
    have hx0 : (0:ℚ) ≤ x := by
      simp only [List.mem_map, List.mem_range] at hxmem
      obtain ⟨n, _, rfl⟩ := hxmem
      positivity
    dsimp only at hx
    revert hx
    split
    · intro hx
      injection hx with hx
      exact hx ▸ hx0
    · intro hx; cases hx

lemma findBestGap_nonneg {wrap : Bool} {placed : List PlacedBlock} {dur : ℚ}
    (hpl : PlacedNonneg placed) : 0 ≤ findBestGap wrap placed dur := by
  rw [findBestGap]
  split
  · norm_num
  · dsimp only
    have hpts : ∀ p ∈ (gapTimePoints wrap placed).insertionSort
        (fun p q => p.time ≤ q.time), (0:ℚ) ≤ p.time := by
      intro p hp
      exact gapTimePoints_nonneg hpl p
        ((List.perm_insertionSort _ _).mem_iff.mp hp)
    have hgaps := @sweptGaps_nonneg wrap _ hpts
    cases hsel : (((sweptGaps wrap ((gapTimePoints wrap placed).insertionSort
        (fun p q => p.time ≤ q.time))).filter
        (fun g => dur ≤ g.duration)).insertionSort
        (fun g h => g.duration ≤ h.duration)) with
    | nil => exact bestGapFallback_nonneg wrap placed dur
    | cons g gs =>
      refine hgaps g ?_
      have hmem : g ∈ (((sweptGaps wrap
          ((gapTimePoints wrap placed).insertionSort
            (fun p q => p.time ≤ q.time))).filter
          (fun g => dur ≤ g.duration)).insertionSort
          (fun g h => g.duration ≤ h.duration)) := by
        rw [hsel]; exact List.mem_cons_self _ _
      exact (List.mem_filter.mp
        ((List.perm_insertionSort _ _).mem_iff.mp hmem)).1

lemma placedNonneg_append {l : List PlacedBlock} {p : PlacedBlock}
    (hl : PlacedNonneg l) (hs : 0 ≤ p.start) (hd : 0 ≤ p.duration) :
    PlacedNonneg (l ++ [p]) := by
  intro q hq
  rcases List.mem_append.mp hq with hq | hq
  · exact hl q hq
  · rcases List.mem_cons.mp hq with rfl | hq
    · exact ⟨hs, hd⟩
    · cases hq

lemma stratUpdateStart_startsValid (st : Timeline) (id : String) (x : ℚ)
    (hov : st.allowOverlap = false) (hsv : StartsValid st) :
    StartsValid (stratUpdateStart st id x) := by
  rw [stratUpdateStart]
  exact updateBlock_startsValid _ _ _ hov hsv

lemma stratUpdateStart_settings (st : Timeline) (id : String) (x : ℚ) :
    (stratUpdateStart st id x).allowOverlap = st.allowOverlap ∧
    (stratUpdateStart st id x).isWrappingEnabled = st.isWrappingEnabled := by
  rw [stratUpdateStart]
  exact ⟨(updateBlock_settings _ _ _).1, (updateBlock_settings _ _ _).2.1⟩

section
attribute [local irreducible] jsMod jsMin findBestGap quarterRescue
  checkForTimeConflicts stratUpdateStart clusteredScan randomScan
  findValidPosition periodRescue durationCategory

lemma quarterRescueGetD_nonneg {wrap : Bool} {placed : List PlacedBlock}
    {dur d : ℚ} (hd : 0 ≤ d) : 0 ≤ (quarterRescue wrap placed dur).getD d := by
  cases hq : quarterRescue wrap placed dur with
  | some h => exact quarterRescue_nonneg hq
  | none => exact hd

lemma clusteredScanGetD_nonneg {wrap ov : Bool} {placed : List PlacedBlock}
    {dur c : ℚ} (hc : 0 ≤ c) :
    0 ≤ (clusteredScan wrap ov placed dur 96 c).getD 0 := by
  cases hq : clusteredScan wrap ov placed dur 96 c with
  | some t => exact clusteredScan_nonneg hc hq
  | none => exact le_rfl

lemma startsValid_ite {c : Prop} [Decidable c] {st st' : Timeline}
    (h1 : StartsValid st) (h2 : StartsValid st') :
    StartsValid (if c then st else st') := by
  split <;> assumption

lemma allowOverlapFalse_ite {c : Prop} [Decidable c] {st st' : Timeline}
    (h1 : st.allowOverlap = false) (h2 : st'.allowOverlap = false) :
    (if c then st else st').allowOverlap = false := by
  split <;> assumption

lemma placedNonneg_ite (c : Prop) [Decidable c] {l : List PlacedBlock}
    {p : PlacedBlock} (hl : PlacedNonneg l) (hs : 0 ≤ p.start)
    (hd : 0 ≤ p.duration) : PlacedNonneg (if c then l else l ++ [p]) := by
  split
  · exact hl
  · exact placedNonneg_append hl hs hd

lemma compactStep_inv (s : StratState) (id : String) (h : StratInv s) :
    StratInv (compactStep s id) := by
  obtain ⟨hsv, hov, hcur, hpl, hrng⟩ := h
  have hdur := blockDuration_nonneg hsv id
  rw [compactStep]
  set D := s.st.blockDuration id with hD
  set C1 := (if (!s.st.isWrappingEnabled) = true ∧ 24 < s.cur + D then
      if (!s.st.allowOverlap) = true then
        findBestGap s.st.isWrappingEnabled s.placed D
      else s.cur
    else s.cur) with hC1
  set CUR := (if (!s.st.allowOverlap) = true then
      if checkForTimeConflicts s.placed C1 D s.st.isWrappingEnabled = true then
        (quarterRescue s.st.isWrappingEnabled s.placed D).getD 0
      else C1
    else C1) with hCUR
  have hC1n : (0:ℚ) ≤ C1 := by
    rw [hC1]
    exact nonneg_ite (nonneg_ite (findBestGap_nonneg hpl) hcur) hcur
  have hCn : (0:ℚ) ≤ CUR := by
    rw [hCUR]
    exact nonneg_ite (nonneg_ite (quarterRescueGetD_nonneg le_rfl) hC1n) hC1n
  exact ⟨stratUpdateStart_startsValid _ _ _ hov hsv,
    (stratUpdateStart_settings _ _ _).1.trans hov,
    nonneg_ite (nonneg_jsMin24 (jsMod24_nonneg (add_nonneg hCn hdur)))
      (jsMod24_nonneg (add_nonneg hCn hdur)),
    placedNonneg_ite _ hpl hCn hdur, hrng⟩

lemma spreadStep_inv (gap : ℚ) (hgap : 0 ≤ gap) (s : StratState)
    (id : String) (h : StratInv s) : StratInv (spreadStep gap s id) := by
  obtain ⟨hsv, hov, hcur, hpl, hrng⟩ := h
  have hdur := blockDuration_nonneg hsv id
  rw [spreadStep]
  set D := s.st.blockDuration id with hD
  set A0 := (if (!s.st.allowOverlap) = true then
      if checkForTimeConflicts s.placed s.cur D s.st.isWrappingEnabled =
          true then
        (quarterRescue s.st.isWrappingEnabled s.placed D).getD s.cur
      else s.cur
    else s.cur) with hA0
  set ATT := (if (!s.st.isWrappingEnabled) = true ∧ 24 < A0 + D then
      if (!s.st.allowOverlap) = true then (0:ℚ) else A0
    else A0) with hATT
  have hA0n : (0:ℚ) ≤ A0 := by
    rw [hA0]
    exact nonneg_ite (nonneg_ite (quarterRescueGetD_nonneg hcur) hcur) hcur
  have hAn : (0:ℚ) ≤ ATT := by
    rw [hATT]
    exact nonneg_ite (nonneg_ite le_rfl hA0n) hA0n
  exact ⟨startsValid_ite hsv (stratUpdateStart_startsValid _ _ _ hov hsv),
    allowOverlapFalse_ite hov ((stratUpdateStart_settings _ _ _).1.trans hov),
    nonneg_ite
      (nonneg_jsMin24 (jsMod24_nonneg (add_nonneg (add_nonneg hAn hdur) hgap)))
      (jsMod24_nonneg (add_nonneg (add_nonneg hAn hdur) hgap)),
    placedNonneg_ite _ hpl hAn hdur, hrng⟩

lemma clusteredStep_inv (s : StratState × Option String) (id : String)
    (h : StratInv s.1) : StratInv (clusteredStep s id).1 := by
  obtain ⟨hsv, hov, hcur, hpl, hrng⟩ := h
  have hdur := blockDuration_nonneg hsv id
  rw [clusteredStep]
  set D := s.1.st.blockDuration id with hD
  set B0 := (if s.2 ≠ none ∧ s.2 ≠ some (durationCategory D) then
      jsMod (s.1.cur + 0.5) 24
    else s.1.cur) with hB0
  set B1 := (if (!s.1.st.isWrappingEnabled) = true ∧ 24 < B0 + D then
      if (!s.1.st.allowOverlap) = true then (0:ℚ) else B0
    else B0) with hB1
  set CUR := (if (!s.1.st.allowOverlap) = true then
      if checkForTimeConflicts s.1.placed B1 D s.1.st.isWrappingEnabled =
          true then
        (clusteredScan s.1.st.isWrappingEnabled s.1.st.allowOverlap s.1.placed
          D 96 B1).getD 0
      else B1
    else B1) with hCUR
  have hB0n : (0:ℚ) ≤ B0 := by
    rw [hB0]
    exact nonneg_ite (jsMod24_nonneg (add_nonneg hcur (by norm_num))) hcur
  have hB1n : (0:ℚ) ≤ B1 := by
    rw [hB1]
    exact nonneg_ite (nonneg_ite le_rfl hB0n) hB0n
  have hCn : (0:ℚ) ≤ CUR := by
    rw [hCUR]
    exact nonneg_ite (nonneg_ite (clusteredScanGetD_nonneg hB1n) hB1n) hB1n
  exact ⟨stratUpdateStart_startsValid _ _ _ hov hsv,
    (stratUpdateStart_settings _ _ _).1.trans hov,
    nonneg_ite (nonneg_jsMin24 (jsMod24_nonneg (add_nonneg hCn hdur)))
      (jsMod24_nonneg (add_nonneg hCn hdur)),
    placedNonneg_ite _ hpl hCn hdur, hrng⟩

lemma rngNonneg_ite {c : Prop} [Decidable c] {r r' : Rng}
    (h1 : RngNonneg r) (h2 : RngNonneg r') : RngNonneg (if c then r else r') := by
  split <;> assumption

lemma randomStep_inv (s : StratState) (idx : ℕ) (id : String)
    (h : StratInv s) : StratInv (randomStep s idx id) := by
  obtain ⟨hsv, hov, hcur, hpl, hrng⟩ := h
  have hdur := blockDuration_nonneg hsv id
  rw [randomStep]
  set D := s.st.blockDuration id with hD
  set RP := (if 0 < idx then
      if s.rng.next.1 < 0.3 then
        (jsMod (s.cur + s.rng.next.2.next.1 * 1.5) 24, s.rng.next.2.next.2)
      else (s.cur, s.rng.next.2)
    else (s.cur, s.rng)) with hRP
  set CUR2 := (if (!s.st.isWrappingEnabled) = true ∧ 24 < RP.1 + D then
      if (!s.st.allowOverlap) = true then (0:ℚ) else RP.1
    else RP.1) with hC2
  have hRP1 : (0:ℚ) ≤ RP.1 := by
    rw [hRP, apply_ite Prod.fst, apply_ite Prod.fst]
    exact nonneg_ite (nonneg_ite (jsMod24_nonneg (add_nonneg hcur
      (mul_nonneg hrng.next.2.next.1 (by norm_num)))) hcur) hcur
  have hRP2 : RngNonneg RP.2 := by
    rw [hRP, apply_ite Prod.snd, apply_ite Prod.snd]
    exact rngNonneg_ite (rngNonneg_ite hrng.next.2.next.2 hrng.next.2) hrng
  have hC2n : (0:ℚ) ≤ CUR2 := by
    rw [hC2]
    exact nonneg_ite (nonneg_ite le_rfl hRP1) hRP1
  cases hr : randomScan s.st.isWrappingEnabled s.st.allowOverlap s.placed id
      D 24 CUR2 with
  | some pos =>
    have hpos : (0:ℚ) ≤ pos := randomScan_nonneg hC2n hr
    have hsv1 : StartsValid (s.st.setBlockStart id pos) :=
      setBlockStart_startsValid _ _ _ hpos hsv
    have hov1 : (s.st.setBlockStart id pos).allowOverlap = false :=
      (setBlockStart_settings _ _ _).1.trans hov
    have hsv2 : StartsValid (if (s.st.setBlockStart id pos).blockLockedB id =
        true then s.st.setBlockStart id pos
      else stratUpdateStart (s.st.setBlockStart id pos) id pos) :=
      startsValid_ite hsv1 (stratUpdateStart_startsValid _ _ _ hov1 hsv1)
    exact ⟨hsv2,
      allowOverlapFalse_ite hov1
        ((stratUpdateStart_settings _ _ _).1.trans hov1),
      nonneg_ite
        (nonneg_jsMin24 (jsMod24_nonneg
          (add_nonneg (blockStart_nonneg hsv2 id) hdur)))
        (jsMod24_nonneg (add_nonneg (blockStart_nonneg hsv2 id) hdur)),
      placedNonneg_ite _ hpl hpos hdur, hRP2⟩
  | none =>
    have hsv1 : StartsValid (if s.st.blockLockedB id = true then s.st
        else stratUpdateStart s.st id CUR2) :=
      startsValid_ite hsv (stratUpdateStart_startsValid _ _ _ hov hsv)
    exact ⟨hsv1,
      allowOverlapFalse_ite hov
        ((stratUpdateStart_settings _ _ _).1.trans hov),
      nonneg_ite
        (nonneg_jsMin24 (jsMod24_nonneg
          (add_nonneg (blockStart_nonneg hsv1 id) hdur)))
        (jsMod24_nonneg (add_nonneg (blockStart_nonneg hsv1 id) hdur)),
      placedNonneg_ite _ hpl hC2n hdur, hRP2⟩

lemma vals_fisherYatesGo {α : Type} :
    ∀ (n : ℕ) (l : List α) (r : Rng),
      ((fisherYatesGo l r n).2).vals = r.vals := by
  intro n
  induction n with
  | zero => intro l r; rfl
  | succ i ih => intro l r; exact ih _ r.next.2

lemma fisherYates_rngNonneg {α : Type} {l : List α} {r : Rng}
    (h : RngNonneg r) : RngNonneg (fisherYates l r).2 := by
  intro k
  rw [fisherYates, vals_fisherYatesGo]
  exact h k

lemma assignPriorities_inv (st : Timeline) (ids : List String) (rng : Rng)
    (hsv : StartsValid st) (hov : st.allowOverlap = false) :
    StartsValid (assignPriorities st ids rng).1 ∧
    (assignPriorities st ids rng).1.allowOverlap = false := by
  rw [assignPriorities]
  exact foldl_inv
    (fun s : Timeline × Rng => StartsValid s.1 ∧ s.1.allowOverlap = false)
    _ ids (fun _ => True) (fun _ _ => trivial) (st, rng) ⟨hsv, hov⟩
    (fun s id _ hs => by
      dsimp only
      split
      · exact ⟨setTag_startsValid _ _ _ _ hs.1,
          (setTag_settings _ _ _ _).1.trans hs.2⟩
      · exact hs)

lemma assignEnergies_inv (st : Timeline) (ids : List String) (rng : Rng)
    (hsv : StartsValid st) (hov : st.allowOverlap = false) :
    StartsValid (assignEnergies st ids rng).1 ∧
    (assignEnergies st ids rng).1.allowOverlap = false := by
  rw [assignEnergies]
  exact foldl_inv
    (fun s : Timeline × Rng => StartsValid s.1 ∧ s.1.allowOverlap = false)
    _ ids (fun _ => True) (fun _ _ => trivial) (st, rng) ⟨hsv, hov⟩
    (fun s id _ hs => by
      dsimp only
      split
      · exact ⟨setTag_startsValid _ _ _ _ hs.1,
          (setTag_settings _ _ _ _).1.trans hs.2⟩
      · exact hs)

lemma assignCategories_inv (st : Timeline) (ids : List String) (rng : Rng)
    (hsv : StartsValid st) (hov : st.allowOverlap = false) :
    StartsValid (assignCategories st ids rng).1 ∧
    (assignCategories st ids rng).1.allowOverlap = false := by
  rw [assignCategories]
  exact foldl_inv
    (fun s : Timeline × Rng => StartsValid s.1 ∧ s.1.allowOverlap = false)
    _ ids (fun _ => True) (fun _ _ => trivial) (st, rng) ⟨hsv, hov⟩
    (fun s id _ hs => by
      dsimp only
      repeat' split
      all_goals
        first
          | exact ⟨setTag_startsValid _ _ _ _ hs.1,
              (setTag_settings _ _ _ _).1.trans hs.2⟩
          | exact ⟨hs.1, hs.2⟩
          | exact hs)

lemma assignThemes_inv (st : Timeline) (ids : List String) (rng : Rng)
    (hsv : StartsValid st) (hov : st.allowOverlap = false) :
    StartsValid (assignThemes st ids rng).1 ∧
    (assignThemes st ids rng).1.allowOverlap = false := by
  rw [assignThemes]
  exact foldl_inv
    (fun s : Timeline × Rng => StartsValid s.1 ∧ s.1.allowOverlap = false)
    _ ids (fun _ => True) (fun _ _ => trivial) (st, rng) ⟨hsv, hov⟩
    (fun s id _ hs => by
      dsimp only
      repeat' split
      all_goals
        first
          | exact ⟨setTag_startsValid _ _ _ _ hs.1,
              (setTag_settings _ _ _ _).1.trans hs.2⟩
          | exact ⟨hs.1, hs.2⟩
          | exact hs)

lemma layoutStep_inv (gapSize : ℚ) (hgap : 0 ≤ gapSize)
    (s : Timeline × List PlacedBlock × ℚ) (id : String) (h : LayoutInv s) :
    LayoutInv (layoutStep gapSize s id) := by
  obtain ⟨hsv, hov, hpl, hcur⟩ := h
  have hdur := blockDuration_nonneg hsv id
  have hvp : (0:ℚ) ≤ findValidPosition s.1.isWrappingEnabled s.2.1 s.2.2
      (s.1.blockDuration id) := findValidPosition_nonneg hcur
  rw [layoutStep]
  exact ⟨startsValid_ite hsv (stratUpdateStart_startsValid _ _ _ hov hsv),
    allowOverlapFalse_ite hov ((stratUpdateStart_settings _ _ _).1.trans hov),
    placedNonneg_ite _ hpl hvp hdur,
    nonneg_ite (nonneg_jsMin24 (jsMod24_nonneg
      (add_nonneg (add_nonneg hvp hdur) hgap)))
      (jsMod24_nonneg (add_nonneg (add_nonneg hvp hdur) hgap))⟩

lemma layoutBlocksSequentially_startsValid (st : Timeline)
    (ids : List String) (gapSize : ℚ) (hgap : 0 ≤ gapSize)
    (hsv : StartsValid st) (hov : st.allowOverlap = false) :
    StartsValid (layoutBlocksSequentially st ids gapSize) ∧
    (layoutBlocksSequentially st ids gapSize).allowOverlap = false := by
  rw [layoutBlocksSequentially]
  have h := foldl_inv LayoutInv (layoutStep gapSize) ids (fun _ => True)
    (fun _ _ => trivial) (st, st.getLockedBlocksAsPlaced, 0)
    ⟨hsv, hov, getLockedBlocksAsPlaced_nonneg hsv, le_rfl⟩
    (fun s x _ hs => layoutStep_inv gapSize hgap s x hs)
  exact ⟨h.1, h.2.1⟩

lemma slotFound_nonneg {slots : List Slot} {placed : List PlacedBlock}
    {dur : ℚ} {wrap : Bool} {time : ℚ}
    (hslots : ∀ sl ∈ slots, 0 ≤ sl.start)
    (hf : slots.findSome? (fun slot =>
      if dur ≤ slot.stop - slot.start then
        (quarterRangeIncl slot.start (slot.stop - dur)).findSome? (fun t =>
          if !(checkForTimeConflicts placed t dur wrap) then some t else none)
      else none) = some time) : 0 ≤ time := by
  obtain ⟨sl, hmem, heq⟩ := exists_of_findSome hf
  revert heq
  split
  · intro heq
    obtain ⟨t, htmem, ht⟩ := exists_of_findSome heq
    revert ht
    split
    · intro ht
      injection ht with ht
      exact ht ▸ quarterRangeIncl_nonneg (hslots sl hmem) htmem
    · intro ht; cases ht
  · intro heq; cases heq

lemma slotStep_inv (slots : List Slot)
    (hslots : ∀ sl ∈ slots, 0 ≤ sl.start)
    (s : Timeline × List PlacedBlock) (id : String) (h : SlotInv s) :
    SlotInv (slotStep slots s id) := by
  obtain ⟨hsv, hov, hpl⟩ := h
  have hdur := blockDuration_nonneg hsv id
  rw [slotStep]
  cases hfnd : slots.findSome? (fun slot =>
    if s.1.blockDuration id ≤ slot.stop - slot.start then
      (quarterRangeIncl slot.start
        (slot.stop - s.1.blockDuration id)).findSome? (fun t =>
          if !(checkForTimeConflicts s.2 t (s.1.blockDuration id)
              s.1.isWrappingEnabled) then some t else none)
    else none) with
  | some time =>
    have htime : (0:ℚ) ≤ time := slotFound_nonneg hslots hfnd
    exact ⟨startsValid_ite hsv (stratUpdateStart_startsValid _ _ _ hov hsv),
      allowOverlapFalse_ite hov
        ((stratUpdateStart_settings _ _ _).1.trans hov),
      placedNonneg_ite _ hpl htime hdur⟩
  | none =>
    have hvp : (0:ℚ) ≤ findValidPosition s.1.isWrappingEnabled s.2 0
        (s.1.blockDuration id) := findValidPosition_nonneg le_rfl
    exact ⟨startsValid_ite hsv (stratUpdateStart_startsValid _ _ _ hov hsv),
      allowOverlapFalse_ite hov
        ((stratUpdateStart_settings _ _ _).1.trans hov),
      placedNonneg_ite _ hpl hvp hdur⟩

lemma placeBlocksInSlots_inv (st : Timeline) (ids : List String)
    (slots : List Slot) (placed : List PlacedBlock)
    (hslots : ∀ sl ∈ slots, 0 ≤ sl.start) (hsv : StartsValid st)
    (hov : st.allowOverlap = false) (hpl : PlacedNonneg placed) :
    SlotInv (placeBlocksInSlots st ids slots placed) := by
  rw [placeBlocksInSlots]
  exact foldl_inv SlotInv (slotStep slots) ids (fun _ => True)
    (fun _ _ => trivial) (st, placed) ⟨hsv, hov, hpl⟩
    (fun s x _ hs => slotStep_inv slots hslots s x hs)

lemma findSome_qr_nonneg {a b : ℚ} {g : ℚ → Bool} {h : ℚ} (ha : 0 ≤ a)
    (hf : (quarterRange a b).findSome? (fun x =>
      if g x = true then some x else none) = some h) : 0 ≤ h := by
  obtain ⟨x, hx, he⟩ := exists_of_findSome hf
  revert he
  split
  · intro he
    injection he with he
    exact he ▸ quarterRange_nonneg ha hx
  · intro he; cases he

lemma periodRescue_nonneg {wrap ov : Bool} {placed : List PlacedBlock}
    {dur periodStart periodDuration : ℚ} {cm : Bool} {h : ℚ}
    (hps : 0 ≤ periodStart)
    (hres : periodRescue wrap ov placed dur periodStart periodDuration cm =
      some h) : 0 ≤ h := by
  rw [periodRescue] at hres
  dsimp only at hres
  split at hres
  · next h2 heq =>
    injection hres with hres
    subst hres
    revert heq
    split
    · split
      · intro heq
        split at heq
        · next h3 heq2 =>
          injection heq with heq
          exact heq ▸ findSome_qr_nonneg hps heq2
        · exact findSome_qr_nonneg le_rfl heq
      · intro heq; cases heq
    · intro heq
      exact findSome_qr_nonneg hps heq
  · exact findSome_qr_nonneg le_rfl hres

lemma periodRescueGetD_nonneg {wrap ov : Bool} {placed : List PlacedBlock}
    {dur ps pd : ℚ} {cm : Bool} (hps : 0 ≤ ps) :
    0 ≤ (periodRescue wrap ov placed dur ps pd cm).getD ps := by
  cases hq : periodRescue wrap ov placed dur ps pd cm with
  | some h => exact periodRescue_nonneg hps hq
  | none => exact hps

lemma periodStep_inv (ps pd gap : ℚ) (cm : Bool) (hps : 0 ≤ ps)
    (hgap : 0 ≤ gap) (s : Timeline × List PlacedBlock × ℚ) (id : String)
    (h : LayoutInv s) : LayoutInv (periodStep ps pd gap cm s id) := by
  obtain ⟨hsv, hov, hpl, hcur⟩ := h
  have hdur := blockDuration_nonneg hsv id
  rw [periodStep]
  set D := s.1.blockDuration id with hD
  set W1 := (if cm = true ∧ 24 ≤ s.2.2 then jsMod s.2.2 24 else s.2.2)
    with hW1
  set W2 := (if (!s.1.isWrappingEnabled) = true ∧ 24 < W1 + D then (0:ℚ)
    else W1) with hW2
  set W3 := (if (!s.1.allowOverlap) = true then
      if checkForTimeConflicts s.2.1 W2 D s.1.isWrappingEnabled = true then
        (periodRescue s.1.isWrappingEnabled s.1.allowOverlap s.2.1 D ps pd
          cm).getD ps
      else W2
    else W2) with hW3
  have hW1n : (0:ℚ) ≤ W1 := by
    rw [hW1]
    exact nonneg_ite (jsMod24_nonneg hcur) hcur
  have hW2n : (0:ℚ) ≤ W2 := by
    rw [hW2]
    exact nonneg_ite le_rfl hW1n
  have hW3n : (0:ℚ) ≤ W3 := by
    rw [hW3]
    exact nonneg_ite (nonneg_ite (periodRescueGetD_nonneg hps) hW2n) hW2n
  exact ⟨stratUpdateStart_startsValid _ _ _ hov hsv,
    (stratUpdateStart_settings _ _ _).1.trans hov,
    placedNonneg_ite _ hpl hW3n hdur,
    nonneg_ite (jsMod24_nonneg (add_nonneg (add_nonneg hW3n hdur) hgap))
      (add_nonneg (add_nonneg hW3n hdur) hgap)⟩

lemma positionBlocksInPeriod_inv (st : Timeline)
    (placed : List PlacedBlock) (rng : Rng) (blocks : List String)
    (ps pd : ℚ) (cm : Bool) (hsv : StartsValid st)
    (hov : st.allowOverlap = false) (hpl : PlacedNonneg placed)
    (hps : 0 ≤ ps) :
    StartsValid (positionBlocksInPeriod st placed rng blocks ps pd cm).1 ∧
    (positionBlocksInPeriod st placed rng blocks ps pd
      cm).1.allowOverlap = false ∧
    PlacedNonneg (positionBlocksInPeriod st placed rng blocks ps pd
      cm).2.1 := by
  rw [positionBlocksInPeriod]
  split
  · exact ⟨hsv, hov, hpl⟩
  · dsimp only
    set GAP := (if ((fisherYates blocks rng).1.map st.blockDuration).sum <
        pd then
      jsMin 1 ((pd - ((fisherYates blocks rng).1.map st.blockDuration).sum) /
        ((fisherYates blocks rng).1.length + 1))
    else (0:ℚ)) with hGAP
    have hgap : (0:ℚ) ≤ GAP := by
      rw [hGAP]
      split
      · next hlt =>
        exact nonneg_jsMin (by norm_num)
          (div_nonneg (by linarith) (by positivity))
      · exact le_rfl
    have h := foldl_inv LayoutInv (periodStep ps pd GAP cm)
      (fisherYates blocks rng).1 (fun _ => True) (fun _ _ => trivial)
      (st, placed, ps + GAP) ⟨hsv, hov, hpl, add_nonneg hps hgap⟩
      (fun s x _ hs => periodStep_inv ps pd GAP cm hps hgap s x hs)
    exact ⟨h.1, h.2.1, h.2.2.1⟩

lemma applyRandomStrategy_startsValid (st : Timeline) (ids : List String)
    (rng : Rng) (hov : st.allowOverlap = false) (hsv : StartsValid st)
    (hr : RngNonneg rng) : StartsValid (applyRandomStrategy st ids rng) ∧
    (applyRandomStrategy st ids rng).allowOverlap = false := by
  rw [applyRandomStrategy]
  have h := foldl_inv StratInv (fun s p => randomStep s p.1 p.2)
    (fisherYates ids rng).1.enum (fun _ => True) (fun _ _ => trivial)
    { st := st, placed := st.getLockedBlocksAsPlaced, cur := 0
      rng := (fisherYates ids rng).2 }
    ⟨hsv, hov, le_rfl, getLockedBlocksAsPlaced_nonneg hsv,
      fisherYates_rngNonneg hr⟩
    (fun s x _ hs => randomStep_inv s x.1 x.2 hs)
  exact ⟨h.1, h.2.1⟩

lemma applyCompactStrategy_startsValid (st : Timeline) (ids : List String)
    (rng : Rng) (hov : st.allowOverlap = false) (hsv : StartsValid st)
    (hr : RngNonneg rng) : StartsValid (applyCompactStrategy st ids rng) ∧
    (applyCompactStrategy st ids rng).allowOverlap = false := by
  rw [applyCompactStrategy]
  have h := foldl_inv StratInv compactStep (sortByDurationDesc st ids)
    (fun _ => True) (fun _ _ => trivial)
    { st := st, placed := st.getLockedBlocksAsPlaced, cur := 0, rng := rng }
    ⟨hsv, hov, le_rfl, getLockedBlocksAsPlaced_nonneg hsv, hr⟩
    (fun s x _ hs => compactStep_inv s x hs)
  exact ⟨h.1, h.2.1⟩

lemma applySpreadStrategy_startsValid (st : Timeline) (ids : List String)
    (rng : Rng) (hov : st.allowOverlap = false) (hsv : StartsValid st)
    (hr : RngNonneg rng) : StartsValid (applySpreadStrategy st ids rng) ∧
    (applySpreadStrategy st ids rng).allowOverlap = false := by
  rw [applySpreadStrategy]
  set GAP := (if (ids.map st.blockDuration).sum <
      (if st.isWrappingEnabled = true then (24:ℚ)
        else jsMin 24 (ids.map st.blockDuration).sum) then
    jsMin 2 (max 0 (((if st.isWrappingEnabled = true then (24:ℚ)
        else jsMin 24 (ids.map st.blockDuration).sum) -
      (ids.map st.blockDuration).sum) /
      (if 1 < ids.length then (ids.length : ℚ) else 1)))
  else (0:ℚ)) with hGAP
  have hgap : (0:ℚ) ≤ GAP := by
    rw [hGAP]
    exact nonneg_ite (nonneg_jsMin (by norm_num) (le_max_left _ _)) le_rfl
  have h := foldl_inv StratInv (spreadStep GAP) (fisherYates ids rng).1
    (fun _ => True) (fun _ _ => trivial)
    { st := st, placed := st.getLockedBlocksAsPlaced, cur := 0
      rng := (fisherYates ids rng).2 }
    ⟨hsv, hov, le_rfl, getLockedBlocksAsPlaced_nonneg hsv,
      fisherYates_rngNonneg hr⟩
    (fun s x _ hs => spreadStep_inv GAP hgap s x hs)
  exact ⟨h.1, h.2.1⟩

lemma applyClusteredStrategy_startsValid (st : Timeline)
    (ids : List String) (rng : Rng) (hov : st.allowOverlap = false)
    (hsv : StartsValid st) (hr : RngNonneg rng) :
    StartsValid (applyClusteredStrategy st ids rng) ∧
    (applyClusteredStrategy st ids rng).allowOverlap = false := by
  rw [applyClusteredStrategy]
  set F1 := fisherYates (ids.filter (fun id => st.blockDuration id ≤ 0.5))
    rng with hF1
  set F2 := fisherYates (ids.filter (fun id =>
    0.5 < st.blockDuration id ∧ st.blockDuration id ≤ 1.5)) F1.2 with hF2
  set F3 := fisherYates (ids.filter (fun id => 1.5 < st.blockDuration id))
    F2.2 with hF3
  have r1 : RngNonneg F1.2 := by
    rw [hF1]; exact fisherYates_rngNonneg hr
  have r2 : RngNonneg F2.2 := by
    rw [hF2]; exact fisherYates_rngNonneg r1
  have r3 : RngNonneg F3.2 := by
    rw [hF3]; exact fisherYates_rngNonneg r2
  have h := foldl_inv (fun p : StratState × Option String => StratInv p.1)
    clusteredStep
    (if F3.2.next.1 < 0.5 then F2.1 ++ F1.1 ++ F3.1
      else F3.1 ++ F2.1 ++ F1.1)
    (fun _ => True) (fun _ _ => trivial)
    ({ st := st, placed := st.getLockedBlocksAsPlaced, cur := 0
       rng := F3.2.next.2 }, none)
    ⟨hsv, hov, le_rfl, getLockedBlocksAsPlaced_nonneg hsv,
      (RngNonneg.next r3).2⟩
    (fun s x _ hs => clusteredStep_inv s x hs)
  exact ⟨h.1, h.2.1⟩

lemma applyTimeOfDayStrategy_startsValid (st : Timeline)
    (ids : List String) (rng : Rng) (hov : st.allowOverlap = false)
    (hsv : StartsValid st) :
    StartsValid (applyTimeOfDayStrategy st ids rng) ∧
    (applyTimeOfDayStrategy st ids rng).allowOverlap = false := by
  rw [applyTimeOfDayStrategy]
  split
  · exact ⟨hsv, hov⟩
  · dsimp only
    set ACC := ((sortByDurationDesc st ids).foldl (todAssign st)
      { morning := [], afternoon := [], evening := [], night := []
        rm := 12 - 5, ra := 17 - 12, re := 22 - 17
        rn := (24 - 22) + 5 }) with hACC
    set P1 := positionBlocksInPeriod st st.getLockedBlocksAsPlaced rng
      ACC.morning 5 (12 - 5) false with hP1
    set P2 := positionBlocksInPeriod P1.1 P1.2.1 P1.2.2 ACC.afternoon 12
      (17 - 12) false with hP2
    set P3 := positionBlocksInPeriod P2.1 P2.2.1 P2.2.2 ACC.evening 17
      (22 - 17) false with hP3
    have h1 := positionBlocksInPeriod_inv st st.getLockedBlocksAsPlaced rng
      ACC.morning 5 (12 - 5) false hsv hov
      (getLockedBlocksAsPlaced_nonneg hsv) (by norm_num)
    rw [← hP1] at h1
    have h2 := positionBlocksInPeriod_inv P1.1 P1.2.1 P1.2.2 ACC.afternoon
      12 (17 - 12) false h1.1 h1.2.1 h1.2.2 (by norm_num)
    rw [← hP2] at h2
    have h3 := positionBlocksInPeriod_inv P2.1 P2.2.1 P2.2.2 ACC.evening
      17 (22 - 17) false h2.1 h2.2.1 h2.2.2 (by norm_num)
    rw [← hP3] at h3
    have h4 := positionBlocksInPeriod_inv P3.1 P3.2.1 P3.2.2 ACC.night 22
      ((24 - 22) + 5) true h3.1 h3.2.1 h3.2.2 (by norm_num)
    exact ⟨h4.1, h4.2.1⟩

lemma applyPriorityStrategy_startsValid (st : Timeline)
    (ids : List String) (rng : Rng) (hov : st.allowOverlap = false)
    (hsv : StartsValid st) :
    StartsValid (applyPriorityStrategy st ids rng) ∧
    (applyPriorityStrategy st ids rng).allowOverlap = false := by
  rw [applyPriorityStrategy]
  have h := assignPriorities_inv st ids rng hsv hov
  exact layoutBlocksSequentially_startsValid _ _ _ (by norm_num) h.1 h.2

lemma applyEnergyStrategy_startsValid (st : Timeline) (ids : List String)
    (rng : Rng) (hov : st.allowOverlap = false) (hsv : StartsValid st) :
    StartsValid (applyEnergyStrategy st ids rng) ∧
    (applyEnergyStrategy st ids rng).allowOverlap = false := by
  rw [applyEnergyStrategy]
  have h0 := assignEnergies_inv st ids rng hsv hov
  set E0 := (assignEnergies st ids rng).1 with hE0
  set P1 := placeBlocksInSlots E0
    (ids.filter (fun id => E0.blockTag id .energyK = some "high"))
    [⟨6, 10⟩, ⟨10, 14⟩] E0.getLockedBlocksAsPlaced with hP1
  set P2 := placeBlocksInSlots P1.1
    (ids.filter (fun id => E0.blockTag id .energyK = some "medium"))
    [⟨10, 14⟩, ⟨14, 18⟩, ⟨18, 22⟩] P1.2 with hP2
  have hs1 : ∀ sl ∈ ([⟨6, 10⟩, ⟨10, 14⟩] : List Slot), 0 ≤ sl.start := by
    intro sl hsl
    rcases List.mem_cons.mp hsl with rfl | hsl
    · norm_num
    rcases List.mem_cons.mp hsl with rfl | hsl
    · norm_num
    cases hsl
  have hs2 : ∀ sl ∈ ([⟨10, 14⟩, ⟨14, 18⟩, ⟨18, 22⟩] : List Slot),
      0 ≤ sl.start := by
    intro sl hsl
    rcases List.mem_cons.mp hsl with rfl | hsl
    · norm_num
    rcases List.mem_cons.mp hsl with rfl | hsl
    · norm_num
    rcases List.mem_cons.mp hsl with rfl | hsl
    · norm_num
    cases hsl
  have hs3 : ∀ sl ∈ ([⟨14, 18⟩, ⟨18, 22⟩] : List Slot), 0 ≤ sl.start := by
    intro sl hsl
    rcases List.mem_cons.mp hsl with rfl | hsl
    · norm_num
    rcases List.mem_cons.mp hsl with rfl | hsl
    · norm_num
    cases hsl
  have h1 := placeBlocksInSlots_inv E0
    (ids.filter (fun id => E0.blockTag id .energyK = some "high"))
    [⟨6, 10⟩, ⟨10, 14⟩] E0.getLockedBlocksAsPlaced hs1 h0.1 h0.2
    (getLockedBlocksAsPlaced_nonneg h0.1)
  rw [← hP1] at h1
  have h2 := placeBlocksInSlots_inv P1.1
    (ids.filter (fun id => E0.blockTag id .energyK = some "medium"))
    [⟨10, 14⟩, ⟨14, 18⟩, ⟨18, 22⟩] P1.2 hs2 h1.1 h1.2.1 h1.2.2
  rw [← hP2] at h2
  have h3 := placeBlocksInSlots_inv P2.1
    (ids.filter (fun id => E0.blockTag id .energyK = some "low"))
    [⟨14, 18⟩, ⟨18, 22⟩] P2.2 hs3 h2.1 h2.2.1 h2.2.2
  exact ⟨h3.1, h3.2.1⟩

lemma applyBalancedStrategy_startsValid (st : Timeline)
    (ids : List String) (rng : Rng) (hov : st.allowOverlap = false)
    (hsv : StartsValid st) :
    StartsValid (applyBalancedStrategy st ids rng) ∧
    (applyBalancedStrategy st ids rng).allowOverlap = false := by
  rw [applyBalancedStrategy]
  have h := assignCategories_inv st ids rng hsv hov
  exact layoutBlocksSequentially_startsValid _ _ _ (by norm_num) h.1 h.2

lemma applyThemeStrategy_startsValid (st : Timeline) (ids : List String)
    (rng : Rng) (hov : st.allowOverlap = false) (hsv : StartsValid st) :
    StartsValid (applyThemeStrategy st ids rng) ∧
    (applyThemeStrategy st ids rng).allowOverlap = false := by
  rw [applyThemeStrategy]
  have h := assignThemes_inv st ids rng hsv hov
  exact layoutBlocksSequentially_startsValid _ _ _ (by norm_num) h.1 h.2

lemma executeStrategy_startsValid (st : Timeline) (strategy : String)
    (rng : Rng) (hov : st.allowOverlap = false) (hsv : StartsValid st)
    (hr : RngNonneg rng) : StartsValid (executeStrategy st strategy rng) ∧
    (executeStrategy st strategy rng).allowOverlap = false := by
  rw [executeStrategy]
  split_ifs
  · exact ⟨hsv, hov⟩
  · exact applyCompactStrategy_startsValid _ _ _ hov hsv hr
  · exact applySpreadStrategy_startsValid _ _ _ hov hsv hr
  · exact applyClusteredStrategy_startsValid _ _ _ hov hsv hr
  · exact applyTimeOfDayStrategy_startsValid _ _ _ hov hsv
  · exact applyPriorityStrategy_startsValid _ _ _ hov hsv
  · exact applyEnergyStrategy_startsValid _ _ _ hov hsv
  · exact applyBalancedStrategy_startsValid _ _ _ hov hsv
  · exact applyThemeStrategy_startsValid _ _ _ hov hsv
  · exact applyRandomStrategy_startsValid _ _ _ hov hsv hr

end

lemma addBlock_settings (st : Timeline) (d : AddData) :
    (st.addBlock d).1.allowOverlap = st.allowOverlap ∧
    (st.addBlock d).1.isWrappingEnabled = st.isWrappingEnabled := by
  rcases addBlock_shape st d with ⟨h1, _⟩ | ⟨bl, _, _, hpair⟩
  · rw [h1]; exact ⟨rfl, rfl⟩
  · have h1 : (st.addBlock d).1 = insertBlock st bl := by rw [hpair]
    rw [h1]; exact ⟨rfl, rfl⟩

lemma duplicateBlock_settings (st : Timeline) (id : String) (fuel : ℕ) :
    (st.duplicateBlock id fuel).1.allowOverlap = st.allowOverlap ∧
    (st.duplicateBlock id fuel).1.isWrappingEnabled =
      st.isWrappingEnabled := by
  rcases duplicateBlock_state_shape st id fuel with h1 | h1 | ⟨nb, nd, _, h1⟩
  · rw [h1]; exact ⟨rfl, rfl⟩
  · rw [h1]; exact ⟨rfl, rfl⟩
  · rw [h1]; exact ⟨rfl, rfl⟩

lemma applyOp_startsValid (st : Timeline) (op : Op)
    (hov : st.allowOverlap = false) (hrok : op.rngOk)
    (hsv : StartsValid st) :
    StartsValid (applyOp st op) ∧ (applyOp st op).allowOverlap = false := by
  cases op with
  | add d =>
    exact ⟨addBlock_startsValid st d hsv,
      (addBlock_settings st d).1.trans hov⟩
  | update id d =>
    exact ⟨updateBlock_startsValid st id d hov hsv,
      (updateBlock_settings st id d).1.trans hov⟩
  | dup id fuel =>
    exact ⟨duplicateBlock_startsValid st id fuel hsv,
      (duplicateBlock_settings st id fuel).1.trans hov⟩
  | shuffle strategy rng =>
    exact executeStrategy_startsValid st strategy rng hov hsv hrok

lemma runOps_startsValid : ∀ (ops : List Op) (st : Timeline),
    st.allowOverlap = false → (∀ op ∈ ops, op.rngOk) → StartsValid st →
    StartsValid (runOps st ops) ∧ (runOps st ops).allowOverlap = false := by
  intro ops
  induction ops with
  | nil => exact fun st h1 _ h2 => ⟨h2, h1⟩
  | cons op ops ih =>
    intro st h1 hrok h2
    rw [runOps, List.foldl_cons]
    have hstep := applyOp_startsValid st op h1
      (hrok op (List.mem_cons_self _ _)) h2
    exact ih (applyOp st op) hstep.2
      (fun o ho => hrok o (List.mem_cons_of_mem _ ho)) hstep.1

/-- C9 (amended).  With `allowOverlap` off and `Math.random()` honouring
its non-negativity contract, every sequence of `addBlock`, `updateBlock`,
`duplicateBlock` and shuffle-strategy calls keeps every stored block's
start non-negative (with a positive duration); the upper bound
`start < 24` of the original claim is not enforced anywhere (see
`start_range_counterexample`). -/
theorem start_nonneg_invariant (st₀ : Timeline) (ops : List Op)
    (hov : st₀.allowOverlap = false) (hrok : ∀ op ∈ ops, op.rngOk)
    (hsv : StartsValid st₀) : StartsValid (runOps st₀ ops) :=
  (runOps_startsValid ops st₀ hov hrok hsv).1

section
attribute [local semireducible] Rat.add Rat.sub Rat.mul Rat.inv
  Rat.ofScientific

/-- Counterexample to C9 as stated.  `addBlock` accepts a start of 30
(no value is taken mod 24 and no upper bound is checked), and with
`allowOverlap` on, `updateBlock` applies a negative start unvalidated. -/
theorem start_range_counterexample :
    (∃ b ∈ ((emptyTimeline.addBlock ⟨"t", 30, 1, "#fff"⟩).1).blocks,
      ¬(b.start < 24)) ∧
    (∃ b ∈ ((mkTimeline false true 1
        [wBlock "b0" "t" 1 1 false]).updateBlock "b0"
        ⟨none, some (-5), none, none⟩).1.blocks, ¬(0 ≤ b.start)) := by
  decide

/-- Witness for the amended C9: an `addBlock`, a compact shuffle with the
constant oracle 1/2, and a `duplicateBlock`, starting from the empty
timeline. -/
theorem start_nonneg_invariant_witness :
    StartsValid (runOps emptyTimeline
      [Op.add ⟨"t1", 1, 2, "#abc"⟩,
        Op.shuffle "compact" ⟨fun _ => 1/2, 0⟩, Op.dup "block_0" 3]) :=
  start_nonneg_invariant emptyTimeline _ rfl
    (by
      intro op hop
      rcases List.mem_cons.mp hop with rfl | hop
      · trivial
      rcases List.mem_cons.mp hop with rfl | hop
      · intro k; norm_num
      rcases List.mem_cons.mp hop with rfl | hop
      · trivial
      cases hop)
    (fun b hb => absurd hb (by simp [emptyTimeline]))

end

/-! ## Support lemmas for locked-block immutability (C2) -/

lemma evolve_ite {c : Prop} [Decidable c] {bs : List Block}
    {a b : Timeline} (h1 : BlocksEvolve bs a.blocks)
    (h2 : BlocksEvolve bs b.blocks) :
    BlocksEvolve bs (if c then a else b).blocks := by
  split <;> assumption

lemma nodup_of_evolve {st₀ st : Timeline}
    (hnd : (st₀.blocks.map Block.id).Nodup)
    (hE : BlocksEvolve st₀.blocks st.blocks) :
    (st.blocks.map Block.id).Nodup := hE.ids_eq.symm ▸ hnd

lemma evolve_stratUpdateStart {st₀ st : Timeline}
    (hnd : (st₀.blocks.map Block.id).Nodup)
    (hE : BlocksEvolve st₀.blocks st.blocks) (id : String) (x : ℚ) :
    BlocksEvolve st₀.blocks (stratUpdateStart st id x).blocks := by
  rw [stratUpdateStart]
  exact hE.trans (updateBlock_evolves st id _ (nodup_of_evolve hnd hE)).1

lemma evolve_setTag {st₀ st : Timeline}
    (hnd : (st₀.blocks.map Block.id).Nodup)
    (hE : BlocksEvolve st₀.blocks st.blocks) (id : String) (kind : TagKind)
    (v : String) : BlocksEvolve st₀.blocks (st.setTag id kind v).blocks :=
  hE.trans (setTag_evolves st id kind v (nodup_of_evolve hnd hE)).1

lemma evolve_setBlockStart {st₀ st : Timeline}
    (hnd : (st₀.blocks.map Block.id).Nodup)
    (hE : BlocksEvolve st₀.blocks st.blocks) {id : String}
    (hid : id ∈ (st₀.blocks.filter (fun b => !b.isLocked)).map Block.id)
    (x : ℚ) : BlocksEvolve st₀.blocks (st.setBlockStart id x).blocks :=
  hE.trans (setBlockStart_evolves st id x (nodup_of_evolve hnd hE)
    (unlocked_id_stays_unlocked hnd hE hid)).1

lemma compactStep_evolves {st₀ : Timeline}
    (hnd : (st₀.blocks.map Block.id).Nodup) (s : StratState) (id : String)
    (hE : BlocksEvolve st₀.blocks s.st.blocks) :
    BlocksEvolve st₀.blocks (compactStep s id).st.blocks := by
  rw [compactStep]
  exact evolve_stratUpdateStart hnd hE _ _

lemma spreadStep_evolves {st₀ : Timeline} (gap : ℚ)
    (hnd : (st₀.blocks.map Block.id).Nodup) (s : StratState) (id : String)
    (hE : BlocksEvolve st₀.blocks s.st.blocks) :
    BlocksEvolve st₀.blocks (spreadStep gap s id).st.blocks := by
  rw [spreadStep]
  exact evolve_ite hE (evolve_stratUpdateStart hnd hE _ _)

lemma clusteredStep_evolves {st₀ : Timeline}
    (hnd : (st₀.blocks.map Block.id).Nodup)
    (s : StratState × Option String) (id : String)
    (hE : BlocksEvolve st₀.blocks s.1.st.blocks) :
    BlocksEvolve st₀.blocks (clusteredStep s id).1.st.blocks := by
  rw [clusteredStep]
  exact evolve_stratUpdateStart hnd hE _ _

lemma randomStep_evolves {st₀ : Timeline}
    (hnd : (st₀.blocks.map Block.id).Nodup) (s : StratState) (idx : ℕ)
    {id : String}
    (hid : id ∈ (st₀.blocks.filter (fun b => !b.isLocked)).map Block.id)
    (hE : BlocksEvolve st₀.blocks s.st.blocks) :
    BlocksEvolve st₀.blocks (randomStep s idx id).st.blocks := by
  rw [randomStep]
  split
  · have ev1 := evolve_setBlockStart hnd hE hid
    exact evolve_ite (ev1 _) (evolve_stratUpdateStart hnd (ev1 _) _ _)
  · exact evolve_ite hE (evolve_stratUpdateStart hnd hE _ _)

lemma layoutStep_evolves {st₀ : Timeline} (gap : ℚ)
    (hnd : (st₀.blocks.map Block.id).Nodup)
    (s : Timeline × List PlacedBlock × ℚ) (id : String)
    (hE : BlocksEvolve st₀.blocks s.1.blocks) :
    BlocksEvolve st₀.blocks (layoutStep gap s id).1.blocks := by
  rw [layoutStep]
  exact evolve_ite hE (evolve_stratUpdateStart hnd hE _ _)

lemma slotStep_evolves {st₀ : Timeline} (slots : List Slot)
    (hnd : (st₀.blocks.map Block.id).Nodup)
    (s : Timeline × List PlacedBlock) (id : String)
    (hE : BlocksEvolve st₀.blocks s.1.blocks) :
    BlocksEvolve st₀.blocks (slotStep slots s id).1.blocks := by
  rw [slotStep]
  split
  · exact evolve_ite hE (evolve_stratUpdateStart hnd hE _ _)
  · exact evolve_ite hE (evolve_stratUpdateStart hnd hE _ _)

lemma periodStep_evolves {st₀ : Timeline} (ps pd gap : ℚ) (cm : Bool)
    (hnd : (st₀.blocks.map Block.id).Nodup)
    (s : Timeline × List PlacedBlock × ℚ) (id : String)
    (hE : BlocksEvolve st₀.blocks s.1.blocks) :
    BlocksEvolve st₀.blocks (periodStep ps pd gap cm s id).1.blocks := by
  rw [periodStep]
  exact evolve_stratUpdateStart hnd hE _ _

lemma mem_of_mem_enumFrom {α : Type} {x : ℕ × α} :
    ∀ {n : ℕ} {l : List α}, x ∈ l.enumFrom n → x.2 ∈ l := by
  intro n l
  induction l generalizing n with
  | nil => intro h; cases h
  | cons a as ih =>
    intro h
    rcases List.mem_cons.mp h with rfl | h
    · exact List.mem_cons_self _ _
    · exact List.mem_cons_of_mem _ (ih h)

lemma applyRandomStrategy_evolves (st : Timeline) (ids : List String)
    (rng : Rng) (hnd : (st.blocks.map Block.id).Nodup)
    (hids : ∀ id ∈ ids,
      id ∈ (st.blocks.filter (fun b => !b.isLocked)).map Block.id) :
    BlocksEvolve st.blocks (applyRandomStrategy st ids rng).blocks := by
  rw [applyRandomStrategy]
  exact foldl_inv
    (fun s : StratState => BlocksEvolve st.blocks s.st.blocks)
    (fun s p => randomStep s p.1 p.2) (fisherYates ids rng).1.enum
    (fun p => p.2 ∈ (st.blocks.filter (fun b => !b.isLocked)).map Block.id)
    (fun p hp => hids p.2 (mem_of_mem_fisherYates (mem_of_mem_enumFrom hp)))
    { st := st, placed := st.getLockedBlocksAsPlaced, cur := 0
      rng := (fisherYates ids rng).2 }
    (BlocksEvolve.refl _)
    (fun s x hQ hE => @randomStep_evolves st hnd s x.1 x.2 hQ hE)

lemma applyCompactStrategy_evolves (st : Timeline) (ids : List String)
    (rng : Rng) (hnd : (st.blocks.map Block.id).Nodup) :
    BlocksEvolve st.blocks (applyCompactStrategy st ids rng).blocks := by
  rw [applyCompactStrategy]
  exact foldl_inv
    (fun s : StratState => BlocksEvolve st.blocks s.st.blocks)
    compactStep (sortByDurationDesc st ids) (fun _ => True)
    (fun _ _ => trivial)
    { st := st, placed := st.getLockedBlocksAsPlaced, cur := 0, rng := rng }
    (BlocksEvolve.refl _)
    (fun s x _ hE => compactStep_evolves hnd s x hE)

lemma applySpreadStrategy_evolves (st : Timeline) (ids : List String)
    (rng : Rng) (hnd : (st.blocks.map Block.id).Nodup) :
    BlocksEvolve st.blocks (applySpreadStrategy st ids rng).blocks := by
  rw [applySpreadStrategy]
  exact foldl_inv
    (fun s : StratState => BlocksEvolve st.blocks s.st.blocks)
    (spreadStep _) (fisherYates ids rng).1 (fun _ => True)
    (fun _ _ => trivial)
    { st := st, placed := st.getLockedBlocksAsPlaced, cur := 0
      rng := (fisherYates ids rng).2 }
    (BlocksEvolve.refl _)
    (fun s x _ hE => spreadStep_evolves _ hnd s x hE)

lemma applyClusteredStrategy_evolves (st : Timeline) (ids : List String)
    (rng : Rng) (hnd : (st.blocks.map Block.id).Nodup) :
    BlocksEvolve st.blocks (applyClusteredStrategy st ids rng).blocks := by
  rw [applyClusteredStrategy]
  exact foldl_inv
    (fun p : StratState × Option String =>
      BlocksEvolve st.blocks p.1.st.blocks)
    clusteredStep _ (fun _ => True) (fun _ _ => trivial) _
    (BlocksEvolve.refl _)
    (fun s x _ hE => clusteredStep_evolves hnd s x hE)

lemma layoutBlocksSequentially_evolves (st : Timeline) (ids : List String)
    (gap : ℚ) (hnd : (st.blocks.map Block.id).Nodup) :
    BlocksEvolve st.blocks (layoutBlocksSequentially st ids gap).blocks := by
  rw [layoutBlocksSequentially]
  exact foldl_inv
    (fun s : Timeline × List PlacedBlock × ℚ =>
      BlocksEvolve st.blocks s.1.blocks)
    (layoutStep gap) ids (fun _ => True) (fun _ _ => trivial)
    (st, st.getLockedBlocksAsPlaced, 0) (BlocksEvolve.refl _)
    (fun s x _ hE => layoutStep_evolves gap hnd s x hE)

lemma placeBlocksInSlots_evolves (st : Timeline) (ids : List String)
    (slots : List Slot) (placed : List PlacedBlock)
    (hnd : (st.blocks.map Block.id).Nodup) :
    BlocksEvolve st.blocks (placeBlocksInSlots st ids slots placed).1.blocks
    := by
  rw [placeBlocksInSlots]
  exact foldl_inv
    (fun s : Timeline × List PlacedBlock =>
      BlocksEvolve st.blocks s.1.blocks)
    (slotStep slots) ids (fun _ => True) (fun _ _ => trivial) (st, placed)
    (BlocksEvolve.refl _)
    (fun s x _ hE => slotStep_evolves slots hnd s x hE)

lemma assignPriorities_evolves (st : Timeline) (ids : List String)
    (rng : Rng) (hnd : (st.blocks.map Block.id).Nodup) :
    BlocksEvolve st.blocks (assignPriorities st ids rng).1.blocks := by
  rw [assignPriorities]
  exact foldl_inv
    (fun s : Timeline × Rng => BlocksEvolve st.blocks s.1.blocks)
    _ ids (fun _ => True) (fun _ _ => trivial) (st, rng)
    (BlocksEvolve.refl _)
    (fun s id _ hE => by
      dsimp only
      split
      · exact evolve_setTag hnd hE _ _ _
      · exact hE)

lemma assignEnergies_evolves (st : Timeline) (ids : List String)
    (rng : Rng) (hnd : (st.blocks.map Block.id).Nodup) :
    BlocksEvolve st.blocks (assignEnergies st ids rng).1.blocks := by
  rw [assignEnergies]
  exact foldl_inv
    (fun s : Timeline × Rng => BlocksEvolve st.blocks s.1.blocks)
    _ ids (fun _ => True) (fun _ _ => trivial) (st, rng)
    (BlocksEvolve.refl _)
    (fun s id _ hE => by
      dsimp only
      split
      · exact evolve_setTag hnd hE _ _ _
      · exact hE)

lemma assignCategories_evolves (st : Timeline) (ids : List String)
    (rng : Rng) (hnd : (st.blocks.map Block.id).Nodup) :
    BlocksEvolve st.blocks (assignCategories st ids rng).1.blocks := by
  rw [assignCategories]
  exact foldl_inv
    (fun s : Timeline × Rng => BlocksEvolve st.blocks s.1.blocks)
    _ ids (fun _ => True) (fun _ _ => trivial) (st, rng)
    (BlocksEvolve.refl _)
    (fun s id _ hE => by
      dsimp only
      repeat' split
      all_goals
        first
          | exact evolve_setTag hnd hE _ _ _
          | exact hE)

lemma assignThemes_evolves (st : Timeline) (ids : List String)
    (rng : Rng) (hnd : (st.blocks.map Block.id).Nodup) :
    BlocksEvolve st.blocks (assignThemes st ids rng).1.blocks := by
  rw [assignThemes]
  exact foldl_inv
    (fun s : Timeline × Rng => BlocksEvolve st.blocks s.1.blocks)
    _ ids (fun _ => True) (fun _ _ => trivial) (st, rng)
    (BlocksEvolve.refl _)
    (fun s id _ hE => by
      dsimp only
      repeat' split
      all_goals
        first
          | exact evolve_setTag hnd hE _ _ _
          | exact hE)

lemma positionBlocksInPeriod_evolves (st : Timeline)
    (placed : List PlacedBlock) (rng : Rng) (blocks : List String)
    (ps pd : ℚ) (cm : Bool) (hnd : (st.blocks.map Block.id).Nodup) :
    BlocksEvolve st.blocks
      (positionBlocksInPeriod st placed rng blocks ps pd cm).1.blocks := by
  rw [positionBlocksInPeriod]
  split
  · exact BlocksEvolve.refl _
  · dsimp only
    exact foldl_inv
      (fun s : Timeline × List PlacedBlock × ℚ =>
        BlocksEvolve st.blocks s.1.blocks)
      (periodStep ps pd _ cm) (fisherYates blocks rng).1 (fun _ => True)
      (fun _ _ => trivial) (st, placed, ps + _) (BlocksEvolve.refl _)
      (fun s x _ hE => periodStep_evolves ps pd _ cm hnd s x hE)

lemma applyTimeOfDayStrategy_evolves (st : Timeline) (ids : List String)
    (rng : Rng) (hnd : (st.blocks.map Block.id).Nodup) :
    BlocksEvolve st.blocks (applyTimeOfDayStrategy st ids rng).blocks := by
  rw [applyTimeOfDayStrategy]
  split
  · exact BlocksEvolve.refl _
  · dsimp only
    set ACC := ((sortByDurationDesc st ids).foldl (todAssign st)
      { morning := [], afternoon := [], evening := [], night := []
        rm := 12 - 5, ra := 17 - 12, re := 22 - 17
        rn := (24 - 22) + 5 }) with hACC
    set P1 := positionBlocksInPeriod st st.getLockedBlocksAsPlaced rng
      ACC.morning 5 (12 - 5) false with hP1
    set P2 := positionBlocksInPeriod P1.1 P1.2.1 P1.2.2 ACC.afternoon 12
      (17 - 12) false with hP2
    set P3 := positionBlocksInPeriod P2.1 P2.2.1 P2.2.2 ACC.evening 17
      (22 - 17) false with hP3
    have e1 := positionBlocksInPeriod_evolves st st.getLockedBlocksAsPlaced
      rng ACC.morning 5 (12 - 5) false hnd
    rw [← hP1] at e1
    have e2 := positionBlocksInPeriod_evolves P1.1 P1.2.1 P1.2.2
      ACC.afternoon 12 (17 - 12) false (nodup_of_evolve hnd e1)
    rw [← hP2] at e2
    have e12 := e1.trans e2
    have e3 := positionBlocksInPeriod_evolves P2.1 P2.2.1 P2.2.2
      ACC.evening 17 (22 - 17) false (nodup_of_evolve hnd e12)
    rw [← hP3] at e3
    have e123 := e12.trans e3
    exact e123.trans (positionBlocksInPeriod_evolves P3.1 P3.2.1 P3.2.2
      ACC.night 22 ((24 - 22) + 5) true (nodup_of_evolve hnd e123))

lemma applyPriorityStrategy_evolves (st : Timeline) (ids : List String)
    (rng : Rng) (hnd : (st.blocks.map Block.id).Nodup) :
    BlocksEvolve st.blocks (applyPriorityStrategy st ids rng).blocks := by
  rw [applyPriorityStrategy]
  have a := assignPriorities_evolves st ids rng hnd
  exact a.trans
    (layoutBlocksSequentially_evolves _ _ _ (nodup_of_evolve hnd a))

lemma applyEnergyStrategy_evolves (st : Timeline) (ids : List String)
    (rng : Rng) (hnd : (st.blocks.map Block.id).Nodup) :
    BlocksEvolve st.blocks (applyEnergyStrategy st ids rng).blocks := by
  rw [applyEnergyStrategy]
  have a := assignEnergies_evolves st ids rng hnd
  set E0 := (assignEnergies st ids rng).1 with hE0
  set P1 := placeBlocksInSlots E0
    (ids.filter (fun id => E0.blockTag id .energyK = some "high"))
    [⟨6, 10⟩, ⟨10, 14⟩] E0.getLockedBlocksAsPlaced with hP1
  set P2 := placeBlocksInSlots P1.1
    (ids.filter (fun id => E0.blockTag id .energyK = some "medium"))
    [⟨10, 14⟩, ⟨14, 18⟩, ⟨18, 22⟩] P1.2 with hP2
  have e1 := placeBlocksInSlots_evolves E0
    (ids.filter (fun id => E0.blockTag id .energyK = some "high"))
    [⟨6, 10⟩, ⟨10, 14⟩] E0.getLockedBlocksAsPlaced (nodup_of_evolve hnd a)
  rw [← hP1] at e1
  have a1 := a.trans e1
  have e2 := placeBlocksInSlots_evolves P1.1
    (ids.filter (fun id => E0.blockTag id .energyK = some "medium"))
    [⟨10, 14⟩, ⟨14, 18⟩, ⟨18, 22⟩] P1.2 (nodup_of_evolve hnd a1)
  rw [← hP2] at e2
  have a2 := a1.trans e2
  exact a2.trans (placeBlocksInSlots_evolves P2.1
    (ids.filter (fun id => E0.blockTag id .energyK = some "low"))
    [⟨14, 18⟩, ⟨18, 22⟩] P2.2 (nodup_of_evolve hnd a2))

lemma applyBalancedStrategy_evolves (st : Timeline) (ids : List String)
    (rng : Rng) (hnd : (st.blocks.map Block.id).Nodup) :
    BlocksEvolve st.blocks (applyBalancedStrategy st ids rng).blocks := by
  rw [applyBalancedStrategy]
  have a := assignCategories_evolves st ids rng hnd
  exact a.trans
    (layoutBlocksSequentially_evolves _ _ _ (nodup_of_evolve hnd a))

lemma applyThemeStrategy_evolves (st : Timeline) (ids : List String)
    (rng : Rng) (hnd : (st.blocks.map Block.id).Nodup) :
    BlocksEvolve st.blocks (applyThemeStrategy st ids rng).blocks := by
  rw [applyThemeStrategy]
  have a := assignThemes_evolves st ids rng hnd
  exact a.trans
    (layoutBlocksSequentially_evolves _ _ _ (nodup_of_evolve hnd a))

lemma executeStrategy_evolves (st : Timeline) (strategy : String)
    (rng : Rng) (hnd : (st.blocks.map Block.id).Nodup) :
    BlocksEvolve st.blocks (executeStrategy st strategy rng).blocks := by
  rw [executeStrategy]
  split_ifs
  · exact BlocksEvolve.refl _
  · exact applyCompactStrategy_evolves _ _ _ hnd
  · exact applySpreadStrategy_evolves _ _ _ hnd
  · exact applyClusteredStrategy_evolves _ _ _ hnd
  · exact applyTimeOfDayStrategy_evolves _ _ _ hnd
  · exact applyPriorityStrategy_evolves _ _ _ hnd
  · exact applyEnergyStrategy_evolves _ _ _ hnd
  · exact applyBalancedStrategy_evolves _ _ _ hnd
  · exact applyThemeStrategy_evolves _ _ _ hnd
  · exact applyRandomStrategy_evolves _ _ _ hnd (fun id h => h)

/-- C2.  Every sequence of `updateBlock` calls and shuffle strategies
leaves each locked block intact: a block with its id is still present,
still locked, and has the same start and duration.  The distinct-ids
hypothesis is the `Map` representation invariant of the collection
(`this.blocks = new Map()` keyed by block id holds at most one entry per
id), so it is satisfied by every collection state the program can hold. -/
theorem locked_blocks_immutable (st₀ : Timeline) (ops : List Op)
    (hnd : (st₀.blocks.map Block.id).Nodup)
    (hops : ∀ op ∈ ops, op.isUpdateOrShuffle = true) :
    ∀ b ∈ st₀.blocks, b.isLocked = true →
      ∃ b' ∈ (runOps st₀ ops).blocks, b'.id = b.id ∧ b'.isLocked = true ∧
        b'.start = b.start ∧ b'.duration = b.duration := by
  have key : ∀ (l : List Op) (st : Timeline),
      (st.blocks.map Block.id).Nodup →
      (∀ op ∈ l, op.isUpdateOrShuffle = true) →
      BlocksEvolve st.blocks (l.foldl applyOp st).blocks := by
    intro l
    induction l with
    | nil => exact fun st _ _ => BlocksEvolve.refl _
    | cons op t ih =>
      intro st hnd0 hl
      have h1 : BlocksEvolve st.blocks (applyOp st op).blocks := by
        have hop := hl op (List.mem_cons_self _ _)
        cases op with
        | add d => exact Bool.noConfusion hop
        | update id d => exact (updateBlock_evolves st id d hnd0).1
        | dup id fuel => exact Bool.noConfusion hop
        | shuffle strategy rng =>
          exact executeStrategy_evolves st strategy rng hnd0
      exact h1.trans (ih (applyOp st op) (nodup_of_evolve hnd0 h1)
        (fun o ho => hl o (List.mem_cons_of_mem _ ho)))
  intro b hb hlk
  exact (key ops st₀ hnd hops).locked_mem hb hlk

section
attribute [local semireducible] Rat.add Rat.sub Rat.mul Rat.inv
  Rat.ofScientific

/-- Witness for C2: a state with an unlocked and a locked block, an
`updateBlock` on the unlocked one and a compact shuffle; the locked block
survives with its start and duration. -/
theorem locked_blocks_immutable_witness :
    ∃ b' ∈ (runOps (mkTimeline false false 2
        [wBlock "block_0" "a" 1 1 false, wBlock "block_1" "b" 5 2 true])
        [Op.update "block_0" ⟨none, some 2, none, none⟩,
          Op.shuffle "compact" ⟨fun _ => 1/2, 0⟩]).blocks,
      b'.id = "block_1" ∧ b'.isLocked = true ∧ b'.start = 5 ∧
        b'.duration = 2 :=
  locked_blocks_immutable _ _ (by decide)
    (fun op hop => by
      rcases List.mem_cons.mp hop with rfl | hop
      · rfl
      rcases List.mem_cons.mp hop with rfl | hop
      · rfl
      cases hop)
    (wBlock "block_1" "b" 5 2 true)
    (List.mem_cons_of_mem _ (List.mem_cons_self _ _)) rfl

end

lemma make_serializeData (b : Block) (h : WFBlock b) :
    Block.make b.serializeData = some (tagsCleared b) := by
  rw [Block.make]
  simp only [Block.serializeData]
  rw [if_neg h.1, if_neg h.2.1, if_neg (not_lt.mpr h.2.2.1),
    if_neg (not_le.mpr h.2.2.2.1), if_neg h.2.2.2.2]
  rfl

lemma mapSet_append {bs : List Block} {b : Block}
    (h : b.id ∉ bs.map Block.id) : mapSet bs b = bs ++ [b] := by
  rw [mapSet, if_neg]
  simp only [List.any_eq_true, decide_eq_true_eq, not_exists, not_and]
  intro x hx heq
  exact h (heq ▸ List.mem_map_of_mem Block.id hx)

lemma deserialize_go (bs : List Block) :
    ∀ (acc : Timeline), (∀ b ∈ bs, WFBlock b) →
    (∀ b ∈ bs, b.id ∉ acc.blocks.map Block.id) →
    (bs.map Block.id).Nodup →
    (bs.map Block.serializeData).foldlM
      (fun acc bd => (Block.make bd).map
        fun b => { acc with blocks := mapSet acc.blocks b }) acc
    = some { acc with blocks := acc.blocks ++ bs.map tagsCleared } := by
  induction bs with
  | nil => intro acc _ _ _; simp
  | cons b t ih =>
    intro acc hwf hni hnd
    rw [List.map_cons, List.foldlM_cons,
      make_serializeData b (hwf b (List.mem_cons_self _ _))]
    simp only [Option.map_some', Option.bind_eq_bind, Option.some_bind]
    rw [@mapSet_append acc.blocks (tagsCleared b)
      (hni b (List.mem_cons_self _ _))]
    rw [ih _ (fun x hx => hwf x (List.mem_cons_of_mem _ hx))
      (fun x hx => by
        simp only [List.map_append, List.mem_append, List.map_cons,
          List.map_nil, List.mem_singleton]
        rintro (hmem | heq)
        · exact hni x (List.mem_cons_of_mem _ hx) hmem
        · have hb : b.id ∉ t.map Block.id :=
            (List.nodup_cons.mp (by simpa using hnd)).1
          exact hb (heq ▸ List.mem_map_of_mem Block.id hx))
      (List.nodup_cons.mp (by simpa using hnd)).2]
    simp [List.append_assoc]

/-- C8 (amended).  On a state whose blocks carry constructor-valid fields
and pairwise-distinct ids (true of every reachable state), `deserialize`
after `serialize` succeeds and reproduces the collection exactly: the same
block list (each entry keeping its id, title, start, duration, color and
locked flag, with only the four dynamic shuffle tags dropped) and the same
wrap/overlap/time-format settings.  On arbitrary states the round trip can
instead throw or lose blocks (`roundtrip_counterexample`). -/
theorem serialize_roundtrip (st : Timeline)
    (hwf : ∀ b ∈ st.blocks, WFBlock b)
    (hnd : (st.blocks.map Block.id).Nodup) :
    st.deserialize st.serialize =
      some { st with blocks := st.blocks.map tagsCleared } := by
  rw [Timeline.deserialize, Timeline.serialize]
  dsimp only
  rw [deserialize_go st.blocks _ hwf (by simp) hnd]
  simp

section
attribute [local semireducible] Rat.add Rat.sub Rat.mul Rat.inv
  Rat.ofScientific

/-- Counterexample to C8 as stated ("for every Timeline Collection
state").  A stored block with an empty title serializes fine but the
`Block` constructor throws while deserializing, so the round trip dies
part-way instead of reproducing the collection; and two stored blocks
sharing an id collapse into one on reload (the `Map` keys on id). -/
theorem roundtrip_counterexample :
    ((mkTimeline false false 1 [wBlock "x" "" 1 1 false]).deserialize
      (mkTimeline false false 1 [wBlock "x" "" 1 1 false]).serialize
      = none) ∧
    (((mkTimeline false false 3
        [wBlock "x" "a" 1 1 false, wBlock "x" "b" 5 2 false]).deserialize
        (mkTimeline false false 3
          [wBlock "x" "a" 1 1 false,
            wBlock "x" "b" 5 2 false]).serialize).map
      (fun res => res.blocks.length) = some 1) := by
  decide

/-- Witness for the amended C8: a two-block state with valid fields and
distinct ids reloads to exactly itself (tags cleared). -/
theorem serialize_roundtrip_witness :
    Timeline.deserialize
      (mkTimeline true false 7
        [wBlock "block_0" "a" 1 2 true, wBlock "block_1" "b" 5 1 false])
      (Timeline.serialize (mkTimeline true false 7
        [wBlock "block_0" "a" 1 2 true, wBlock "block_1" "b" 5 1 false]))
    = some { (mkTimeline true false 7
        [wBlock "block_0" "a" 1 2 true, wBlock "block_1" "b" 5 1 false])
        with blocks :=
          [wBlock "block_0" "a" 1 2 true,
            wBlock "block_1" "b" 5 1 false].map tagsCleared } :=
  serialize_roundtrip _ (by decide) (by decide)

end

/-! ## C4: termination of the search loops -/

lemma gapTimePoints_length (wrap : Bool) (placed : List PlacedBlock) :
    (gapTimePoints wrap placed).length ≤ 2 * placed.length + 2 := by
  have key : ∀ (l : List PlacedBlock) (acc : List TimePoint),
      (l.foldl (fun acc block =>
        acc ++ [⟨jsMod block.start 24, .start⟩,
          ⟨if jsMod (block.start + block.duration) 24 = 0 ∧
              0 < block.duration then 24
            else jsMod (block.start + block.duration) 24, .stop⟩])
        acc).length = acc.length + 2 * l.length := by
    intro l
    induction l with
    | nil => intro acc; simp
    | cons b t ih =>
      intro acc
      rw [List.foldl_cons, ih]
      simp only [List.length_append, List.length_cons, List.length_nil]
      omega
  rw [gapTimePoints]
  split
  · dsimp only
    split <;> split <;>
      simp only [List.length_append, List.length_cons, List.length_nil,
        key] <;>
      omega
  · rw [key, List.length_nil]
    omega

/-- On the full-day-obstacle timeline, the conflict-avoidance recursion
exhausts any fuel: every quarter-hour start conflicts, so the JS original
never terminates. -/
lemma adjust_fullday_outOfFuel :
    ∀ (fuel : ℕ) (d : BlockData), d.title ≠ "" → d.color ≠ "" →
      0 < d.duration → 0 ≤ d.start → d.start < 24 →
      Timeline.adjustStartToAvoidConflicts
        (mkTimeline false false 2 [wBlock "b" "t" 0 24 false]) fuel d
        = .outOfFuel := by
  intro fuel
  induction fuel with
  | zero => intro d _ _ _ _ _; rfl
  | succ n ih =>
    intro d ht hc hdur h0 h24
    rw [Timeline.adjustStartToAvoidConflicts]
    rw [@Block.make_isSome
      ⟨"temp-adjust", d.title, d.start, d.duration, d.color, none⟩
      (show ("temp-adjust" : String) ≠ "" by decide) ht h0 hdur hc]
    dsimp only
    have hconf : (mkTimeline false false 2
        [wBlock "b" "t" 0 24 false]).hasConflict
        { id := "temp-adjust", title := d.title, start := d.start
          duration := d.duration, color := d.color
          isLocked := Option.getD none false
          priority := none, energy := none, category := none
          theme := none } none = true := by
      rw [Timeline.hasConflict]
      dsimp only [mkTimeline, wBlock]
      rw [if_neg (by decide), List.any_cons, List.any_nil,
        if_neg (by decide), blocksOverlap]
      dsimp only
      rw [if_pos (show (!false) = true from rfl), Bool.or_false,
        decide_eq_true_eq]
      constructor <;> linarith
    rw [hconf]
    rw [if_pos rfl]
    refine ih _ ht hc hdur ?_ ?_
    · dsimp only
      split
      · norm_num
      · exact jsMod_nonneg _ _ (by linarith) (by norm_num)
    · dsimp only
      split
      · norm_num
      · exact jsMod_lt _ _ (by linarith) (by norm_num)

/-- C4 (amended).  The two shuffle-side searches do terminate within the
stated bounds for every input: `findValidPosition` scans exactly the 96
quarter-hour candidates of the day, and the `findBestGap` sweep visits at
most `2n + 2` time points for `n` obstacles (the 24-candidate hourly
fallback is a fixed list).  `adjustStartToAvoidConflicts`, however, only
returns at once when the proposed position is conflict-free; when every
position conflicts the recursion never exits
(`conflict_loop_nonterminating`), so the "≤ ~96 steps for any input" part
of the claim is false for it. -/
theorem bounded_scan_termination :
    ((quarterRange 0 24).length = 96) ∧
    (∀ (wrap : Bool) (placed : List PlacedBlock),
      (gapTimePoints wrap placed).length ≤ 2 * placed.length + 2) ∧
    (∀ (st : Timeline) (d : BlockData) (fuel : ℕ) (tb : Block),
      Block.make
        { id := "temp-adjust", title := d.title, start := d.start
          duration := d.duration, color := d.color, isLocked := none }
        = some tb →
      st.hasConflict tb none = false →
      st.adjustStartToAvoidConflicts (fuel + 1) d = .ok d) := by
  refine ⟨?_, gapTimePoints_length, ?_⟩
  · rw [quarterRange, List.length_map, List.length_range]
    norm_num
    rfl
  · intro st d fuel tb hmk hcf
    rw [Timeline.adjustStartToAvoidConflicts, hmk]
    dsimp only
    rw [hcf]
    rw [if_neg Bool.false_ne_true]

/-- Counterexample to C4 as stated: on a timeline whose day is fully
covered by an obstacle, `duplicateBlock`'s conflict-avoidance recursion
`adjustStartToAvoidConflicts` makes no progress — 960 steps (ten times the
claimed ~96 bound) still do not complete, and `adjust_fullday_outOfFuel`
shows no finite number of steps ever does (the JS call recurses until the
stack overflows). -/
theorem conflict_loop_nonterminating :
    (mkTimeline false false 2
      [wBlock "b" "t" 0 24 false]).adjustStartToAvoidConflicts 960
      ⟨"block_2", "t", 0, 1/4, "c", none⟩ = .outOfFuel :=
  adjust_fullday_outOfFuel 960 _ (by decide) (by decide) (by norm_num)
    (by norm_num) (by norm_num)

/-- Witness for the amended C4: on a conflict-free timeline the
adjustment loop returns its input after the first probe. -/
theorem bounded_scan_termination_witness :
    (mkTimeline false false 1 []).adjustStartToAvoidConflicts 1
      ⟨"n", "t", 3, 1, "c", none⟩ = .ok ⟨"n", "t", 3, 1, "c", none⟩ :=
  bounded_scan_termination.2.2 _ _ 0
    { id := "temp-adjust", title := "t", start := 3, duration := 1
      color := "c", isLocked := false, priority := none, energy := none
      category := none, theme := none }
    (Block.make_isSome (by decide) (by decide) (by norm_num) (by norm_num)
      (by decide))
    rfl

/-! ## C3: best-fit gap selection -/

section
attribute [local semireducible] Rat.add Rat.sub Rat.mul Rat.inv
  Rat.ofScientific

/-- C3 (amended).  `findBestGap` is best-fit over the gaps its sweep
RECORDS: whenever some recorded gap is at least the needed duration, it
returns the start of a recorded suitable gap of minimal duration (the
stable sort by duration picks the smallest), and on the spec's example —
obstacles (0,2h) and (5,1h), needed 2h, wrap off — it returns 2.  The
recorded gaps are not always the truly free intervals, though: with an
obstacle crossing midnight, the sweep also records the occupied stretch
before the obstacle's end event as a gap, so the returned start can lie
inside an obstacle (`best_gap_returns_occupied_start`). -/
theorem findBestGap_best_fit :
    (findBestGap false [⟨"a", 0, 2⟩, ⟨"b", 5, 1⟩] 2 = 2) ∧
    (∀ (wrap : Bool) (placed : List PlacedBlock) (dur : ℚ),
      placed ≠ [] →
      ∀ g0 ∈ (sweptGaps wrap ((gapTimePoints wrap placed).insertionSort
          (fun p q => p.time ≤ q.time))).filter
          (fun g => dur ≤ g.duration),
        ∃ g ∈ (sweptGaps wrap ((gapTimePoints wrap placed).insertionSort
            (fun p q => p.time ≤ q.time))).filter
            (fun g => dur ≤ g.duration),
          findBestGap wrap placed dur = g.start ∧
          ∀ g' ∈ (sweptGaps wrap ((gapTimePoints wrap placed).insertionSort
              (fun p q => p.time ≤ q.time))).filter
              (fun g => dur ≤ g.duration),
            g.duration ≤ g'.duration) := by
  constructor
  · decide
  · intro wrap placed dur hne g0 hg0
    haveI hT : IsTotal Gap (fun g h => g.duration ≤ h.duration) :=
      ⟨fun a b => le_total a.duration b.duration⟩
    haveI hR : IsTrans Gap (fun g h => g.duration ≤ h.duration) :=
      ⟨fun a b c hab hbc => le_trans hab hbc⟩
    rw [findBestGap, if_neg (by simpa [List.isEmpty_iff] using hne)]
    dsimp only
    cases hS : ((sweptGaps wrap ((gapTimePoints wrap placed).insertionSort
        (fun p q => p.time ≤ q.time))).filter
        (fun g => dur ≤ g.duration)).insertionSort
        (fun g h => g.duration ≤ h.duration) with
    | nil =>
      exact absurd ((List.perm_insertionSort
        (fun g h : Gap => g.duration ≤ h.duration) _).symm.mem_iff.mp hg0)
        (by rw [hS]; exact List.not_mem_nil g0)
    | cons g rest =>
      have hsorted := List.sorted_insertionSort
        (fun g h : Gap => g.duration ≤ h.duration)
        ((sweptGaps wrap ((gapTimePoints wrap placed).insertionSort
          (fun p q => p.time ≤ q.time))).filter
          (fun g => dur ≤ g.duration))
      rw [hS] at hsorted
      refine ⟨g, ?_, rfl, ?_⟩
      · exact (List.perm_insertionSort
          (fun g h : Gap => g.duration ≤ h.duration) _).mem_iff.mp
          (by rw [hS]; exact List.mem_cons_self _ _)
      · intro g' hg'
        have : g' ∈ g :: rest := by
          rw [← hS]
          exact (List.perm_insertionSort
            (fun g h : Gap => g.duration ≤ h.duration) _).symm.mem_iff.mp hg'
        rcases List.mem_cons.mp this with rfl | hmem
        · exact le_rfl
        · exact (List.sorted_cons.mp hsorted).1 g' hmem

/-- Counterexample to C3 as stated.  With wrap enabled and the single
obstacle (23, 2h) — occupying 23:00–1:00 — a free gap of length 20h ≥ 1h
exists (position 2 is conflict-free for 20h by the module's own
`checkForTimeConflicts`), yet `findBestGap` returns 0, a position that
conflicts with the obstacle: the sweep mispairs the end event at 1:00,
recording the occupied [0,1) as a 1-hour "gap", and best-fit then selects
exactly that bogus smallest gap. -/
theorem best_gap_returns_occupied_start :
    findBestGap true [⟨"b", 23, 2⟩] 1 = 0 ∧
    checkForTimeConflicts [⟨"b", 23, 2⟩] 0 1 true = true ∧
    checkForTimeConflicts [⟨"b", 23, 2⟩] 2 20 true = false := by
  decide

/-- Witness for the amended C3: on the spec's example the returned start
2 is the recorded suitable gap (2,5) of duration 3, minimal among the
suitable recorded gaps. -/
theorem findBestGap_best_fit_witness :
    ∃ g ∈ (sweptGaps false ((gapTimePoints false
        [⟨"a", 0, 2⟩, ⟨"b", 5, 1⟩]).insertionSort
        (fun p q => p.time ≤ q.time))).filter
        (fun g => (2:ℚ) ≤ g.duration),
      findBestGap false [⟨"a", 0, 2⟩, ⟨"b", 5, 1⟩] 2 = g.start ∧
      ∀ g' ∈ (sweptGaps false ((gapTimePoints false
          [⟨"a", 0, 2⟩, ⟨"b", 5, 1⟩]).insertionSort
          (fun p q => p.time ≤ q.time))).filter
          (fun g => (2:ℚ) ≤ g.duration),
        g.duration ≤ g'.duration :=
  findBestGap_best_fit.2 false [⟨"a", 0, 2⟩, ⟨"b", 5, 1⟩] 2 (by decide)
    ⟨2, 5, 3⟩ (by decide)

end

end PlanOneDay
